import Mathlib

/-!
# ThreadSafe: the reader/writer lock record and the lock guard

Shallow embedding of `src/Module/ThreadSafe.cpp` (Linux path) and of the tail of
`DbgOutputLog` in `src/Common/DbgHelper.cpp`.

* `MmapDatas` is `threadsafe_rwlock_t::MmapDatas` without the embedded pthread objects.
  The `uint` counters are natural numbers reduced modulo `2 ^ 32` at every `++` / `--`.
* `ThreadLock._reLock` is ONE iteration of the `while (true)` loop of `ThreadLock::_reLock`
  (RwLock case): the critical section executed between `pthread_mutex_lock(innerLock)` and
  `pthread_mutex_unlock(innerLock)`. Its `Outcome` says how the iteration ends.
* `ThreadLock._unLock` is the critical section of `ThreadLock::_unLock` (RwLock case).
* `Sys`, `step`, `run` interleave those critical sections for any number of threads,
  with the counting semaphore `innerSem` and a ghost list of outstanding grants. A thread
  leaves `sem_wait` by taking the semaphore or because a signal interrupted the wait; the
  code does not look at the result of `sem_wait`.
* `LockGuard` records the calls a guard issues on its lock instance.
-/

namespace ThreadSafe

/-- Modulus of the 32-bit `uint` type (`typedef unsigned int uint`). -/
def UINT_MOD : Nat := 2 ^ 32

/-- The `++` operator on a `uint`. -/
def uintInc (c : Nat) : Nat := (c + 1) % UINT_MOD

/-- The `--` operator on a `uint`. -/
def uintDec (c : Nat) : Nat := (c + (UINT_MOD - 1)) % UINT_MOD

/-- Execute status level `ESL_FATAL` of `BaseDefine.h`. -/
def ESL_FATAL : Nat := 0x0010

/-- The enum `ThreadLock::LockMode`. -/
inductive LockMode where
  | Read
  | Write
  deriving DecidableEq, Repr

/-- The three values a `lockStatus` byte is ever given: `LOCK_STATUS_IDLE` (0x00),
`LOCK_STATUS_READ` (0x01) and `LOCK_STATUS_WRITE` (0x02). -/
inductive LockStatus where
  | IDLE
  | READ
  | WRITE
  deriving DecidableEq, Repr

/-- The record `threadsafe_rwlock_t::MmapDatas` with its default member initialisers. -/
structure MmapDatas where
  lockStatus : LockStatus := LockStatus.IDLE
  lockedCount : Nat := 0
  rwaitingCount : Nat := 0
  wwaitingCount : Nat := 0
  writeThreadID : Nat := 0
  deriving DecidableEq, Repr

/-- How one iteration of the `_reLock` loop ends: `granted` is the `break` after the grant,
`blocked` is `pthread_mutex_unlock; sem_wait; wait_return = true`, `fatal` is the call of
`DBGLOG_FATAL`, from which `DbgOutputLog` does not return. -/
inductive Outcome where
  | granted
  | blocked
  | fatal
  deriving DecidableEq, Repr

/-- Tail of `DbgOutputLog`: `if (logType & ESL_FATAL) abort();`. The result says whether the
process is aborted. -/
def DbgOutputLog (logType : Nat) : Bool :=
  (logType &&& ESL_FATAL) != 0

/-- The macro `DBGLOG_FATAL(fmt, ...)`: `DbgOutputLog(..., ESL_FATAL, fmt, ...)`. -/
def DBGLOG_FATAL : Bool := DbgOutputLog ESL_FATAL

namespace ThreadLock

/-- One loop iteration of `_reLock`, `lockMode == LockMode::Read`. -/
def _reLock_Read (d : MmapDatas) (self : Nat) (wait_return : Bool) : MmapDatas × Outcome :=
  let d := if wait_return then { d with rwaitingCount := uintDec d.rwaitingCount } else d
  match d.lockStatus with
  | LockStatus.IDLE =>
      ({ d with lockStatus := LockStatus.READ, lockedCount := uintInc d.lockedCount },
        Outcome.granted)
  | LockStatus.READ =>
      if d.wwaitingCount > 0 then
        ({ d with rwaitingCount := uintInc d.rwaitingCount }, Outcome.blocked)
      else
        ({ d with lockedCount := uintInc d.lockedCount }, Outcome.granted)
  | LockStatus.WRITE =>
      if d.writeThreadID = self ∧ DBGLOG_FATAL = true then (d, Outcome.fatal)
      else ({ d with rwaitingCount := uintInc d.rwaitingCount }, Outcome.blocked)

/-- One loop iteration of `_reLock`, `lockMode == LockMode::Write`;
`current_threadid` is `SELF_NATIVE_THREAD_ID`. -/
def _reLock_Write (d : MmapDatas) (current_threadid : Nat) (wait_return : Bool) :
    MmapDatas × Outcome :=
  let d := if wait_return then { d with wwaitingCount := uintDec d.wwaitingCount } else d
  if d.lockStatus = LockStatus.IDLE then
    ({ d with lockStatus := LockStatus.WRITE, lockedCount := uintInc d.lockedCount,
              writeThreadID := current_threadid }, Outcome.granted)
  else if d.lockStatus = LockStatus.WRITE ∧ d.writeThreadID = current_threadid then
    ({ d with lockedCount := uintInc d.lockedCount }, Outcome.granted)
  else
    ({ d with wwaitingCount := uintInc d.wwaitingCount }, Outcome.blocked)

/-- One loop iteration of `ThreadLock::_reLock` on a reader/writer lock. -/
def _reLock (d : MmapDatas) (lockMode : LockMode) (self : Nat) (wait_return : Bool) :
    MmapDatas × Outcome :=
  match lockMode with
  | LockMode.Read => _reLock_Read d self wait_return
  | LockMode.Write => _reLock_Write d self wait_return

/-- The function `ThreadLock::_unLock` on a reader/writer lock. The Boolean says whether
`sem_post(innerSem)` is called. -/
def _unLock (d : MmapDatas) : MmapDatas × Bool :=
  let d := if d.lockedCount > 0 then { d with lockedCount := d.lockedCount - 1 } else d
  if d.lockedCount = 0 then
    let d := if d.lockStatus = LockStatus.WRITE then { d with writeThreadID := 0 } else d
    let d := { d with lockStatus := LockStatus.IDLE }
    (d, decide (d.wwaitingCount > 0 ∨ d.rwaitingCount > 0))
  else
    (d, false)

/-- The first loop iteration of `n` consecutive `_reLock(lockMode)` calls by thread `self`:
the record afterwards and the outcome of each call, in order. -/
def requests (d : MmapDatas) (lockMode : LockMode) (self : Nat) : Nat → MmapDatas × List Outcome
  | 0 => (d, [])
  | n + 1 =>
      let r := _reLock d lockMode self false
      let q := requests r.1 lockMode self n
      (q.1, r.2 :: q.2)

/-- The record after `n` consecutive `_unLock` calls. -/
def unLocks (d : MmapDatas) : Nat → MmapDatas
  | 0 => d
  | n + 1 => unLocks (_unLock d).1 n

end ThreadLock

/-- Where a thread stands with respect to the lock: outside any call (`out`), inside
`sem_wait` of `_reLock` (`waiting`), or returned from `sem_wait` with `wait_return = true`
and about to take `innerLock` again (`woken`). -/
inductive Pc where
  | out
  | waiting (m : LockMode)
  | woken (m : LockMode)
  deriving DecidableEq, Repr

/-- The lock and its threads: the record, the value of `innerSem`, the position of every
thread, the outstanding grants (most recent first) and whether the process was aborted. -/
structure Sys where
  datas : MmapDatas
  innerSem : Nat
  pc : Nat → Pc
  holders : List (Nat × LockMode)
  aborted : Bool

/-- A freshly constructed reader/writer lock: default record, `sem_init(innerSem, 1, 0)`. -/
def Sys.init : Sys :=
  { datas := {}, innerSem := 0, pc := fun _ => Pc.out, holders := [], aborted := false }

/-- What a thread does next: call `_reLock(m)` and run the first loop iteration, return from
`sem_wait` with the semaphore taken (`wake`), run the next loop iteration after `sem_wait`
has returned, call `_unLock`, or return from `sem_wait` without the semaphore because a
signal handler interrupted the wait (`interrupt`): the code does not look at the result of
`sem_wait` and sets `wait_return = true` in either case. -/
inductive Event where
  | request (t : Nat) (m : LockMode)
  | wake (t : Nat)
  | retry (t : Nat)
  | release (t : Nat)
  | interrupt (t : Nat)
  deriving DecidableEq, Repr

/-- Effect of one loop iteration of thread `t` on the whole system. -/
def Sys.afterIteration (s : Sys) (t : Nat) (m : LockMode) (wait_return : Bool) : Sys :=
  match ThreadLock._reLock s.datas m t wait_return with
  | (d, Outcome.granted) =>
      { s with datas := d, pc := Function.update s.pc t Pc.out, holders := (t, m) :: s.holders }
  | (d, Outcome.blocked) =>
      { s with datas := d, pc := Function.update s.pc t (Pc.waiting m) }
  | (d, Outcome.fatal) =>
      { s with datas := d, aborted := true }

/-- One atomic step. `none` means the event cannot happen in this state: the process was
aborted, the thread is not at the matching position, `innerSem` is zero for a `wake`, or
the releasing thread has no outstanding grant. -/
def step (s : Sys) (e : Event) : Option Sys :=
  if s.aborted then none
  else
    match e with
    | Event.request t m =>
        if s.pc t = Pc.out then some (s.afterIteration t m false) else none
    | Event.wake t =>
        match s.pc t with
        | Pc.waiting m =>
            if 0 < s.innerSem then
              some { s with innerSem := s.innerSem - 1, pc := Function.update s.pc t (Pc.woken m) }
            else none
        | _ => none
    | Event.retry t =>
        match s.pc t with
        | Pc.woken m => some (s.afterIteration t m true)
        | _ => none
    | Event.release t =>
        if s.pc t = Pc.out ∧ s.holders.any (fun h => h.1 == t) then
          let r := ThreadLock._unLock s.datas
          some { s with datas := r.1,
                        innerSem := if r.2 then s.innerSem + 1 else s.innerSem,
                        holders := s.holders.eraseP (fun h => h.1 == t) }
        else none
    | Event.interrupt t =>
        match s.pc t with
        | Pc.waiting m => some { s with pc := Function.update s.pc t (Pc.woken m) }
        | _ => none

/-- Run a sequence of events. -/
def run (s : Sys) : List Event → Option Sys
  | [] => some s
  | e :: es => (step s e).bind (fun s1 => run s1 es)

/-- Mutual exclusion on the outstanding grants: no holder, or only read holders, or one
thread holding write (possibly several times) and no read holder. -/
def MutualExclusion (hs : List (Nat × LockMode)) : Prop :=
  hs = [] ∨ (∀ h ∈ hs, h.2 = LockMode.Read) ∨ (hs ≠ [] ∧ ∃ t, ∀ h ∈ hs, h = (t, LockMode.Write))

/-- Along the run of `es` from `s0`, fewer than `2 ^ 32` grants are outstanding in every
state that is passed. -/
def GrantsBelowWrap (s0 : Sys) (es : List Event) : Prop :=
  ∀ k s1, run s0 (es.take k) = some s1 → s1.holders.length < UINT_MOD

/-- The record invariant of the data model: the status is Idle exactly when no grant is
counted. -/
def IdleIffZero (d : MmapDatas) : Prop :=
  d.lockStatus = LockStatus.IDLE ↔ d.lockedCount = 0

/-- The invariant `IdleIffZero` can be checked on a given record. -/
instance (d : MmapDatas) : Decidable (IdleIffZero d) := by
  unfold IdleIffZero
  infer_instance

/-- The record agrees with the outstanding grants: `lockedCount` is their number, an Idle
record has none, a ReadHeld record has only read grants, a WriteHeld record has only write
grants of the recorded writer. -/
structure Consistent (s : Sys) : Prop where
  count : s.datas.lockedCount = s.holders.length
  idle : s.datas.lockStatus = LockStatus.IDLE → s.holders = []
  read : s.datas.lockStatus = LockStatus.READ →
    s.holders ≠ [] ∧ ∀ h ∈ s.holders, h.2 = LockMode.Read
  write : s.datas.lockStatus = LockStatus.WRITE →
    s.holders ≠ [] ∧ ∀ h ∈ s.holders, h = (s.datas.writeThreadID, LockMode.Write)

/-- A call a guard issues on its lock instance: `_lockInstance->_reLock(lockMode)` or
`_lockInstance->_unLock()`. -/
inductive LockCall where
  | _reLock (lockMode : LockMode)
  | _unLock
  deriving DecidableEq, Repr

/-- The data members of `LockGuard` apart from the bound lock instance. -/
structure LockGuard where
  _lockMode : LockMode
  _isLocked : Bool
  deriving DecidableEq, Repr

namespace LockGuard

/-- The method `LockGuard::reLock(lockMode)`: the guard afterwards and the calls issued on
the lock instance, in order. -/
def reLock (g : LockGuard) (lockMode : LockMode) : LockGuard × List LockCall :=
  if g._isLocked then
    if lockMode = g._lockMode then (g, [])
    else ({ _lockMode := lockMode, _isLocked := true },
          [LockCall._unLock, LockCall._reLock lockMode])
  else ({ _lockMode := lockMode, _isLocked := true }, [LockCall._reLock lockMode])

/-- The method `LockGuard::unLock()`. -/
def unLock (g : LockGuard) : LockGuard × List LockCall :=
  ({ g with _isLocked := false }, [LockCall._unLock])

/-- The constructor `LockGuard::LockGuard(lockInstance, lockMode, lockNow)`. -/
def construct (lockMode : LockMode) (lockNow : Bool) : LockGuard × List LockCall :=
  let g : LockGuard := { _lockMode := LockMode.Read, _isLocked := false }
  if lockNow then g.reLock lockMode else (g, [])

/-- The destructor `LockGuard::~LockGuard()`: the calls issued on the lock instance. -/
def destruct (g : LockGuard) : List LockCall :=
  if g._isLocked then [LockCall._unLock] else []

/-- A sequence of `reLock` calls with the given modes, one after the other. -/
def reLocks (g : LockGuard) : List LockMode → LockGuard × List LockCall
  | [] => (g, [])
  | m :: ms =>
      let r := g.reLock m
      let q := reLocks r.1 ms
      (q.1, r.2 ++ q.2)

end LockGuard

/-- Number of acquisitions (`_reLock`) among the calls. -/
def acquisitions (cs : List LockCall) : Nat :=
  cs.countP (fun c => c != LockCall._unLock)

/-- Number of releases (`_unLock`) among the calls. -/
def releases (cs : List LockCall) : Nat :=
  cs.countP (fun c => c == LockCall._unLock)

/-! ## Definitions: the Mutex kind (Linux path) -/

namespace threadsafe_mutex_t

/-- The record `threadsafe_mutex_t::MmapDatas`. The pthread mutex `lockObj` is represented
by its owner: `none` when unlocked, `some t` when locked by thread `t`. The attribute
object `lockAttr` carries no state used after the constructor. -/
structure MmapDatas where
  lockedCount : Nat := 0
  lockObj : Option Nat := none
  deriving DecidableEq, Repr

end threadsafe_mutex_t

/-- POSIX `pthread_mutex_lock` on a mutex of type `PTHREAD_MUTEX_ERRORCHECK_NP` (the type
set at line 147), called by thread `self`: an unlocked mutex becomes locked by `self`; a
mutex already locked by `self` is left as it is and the call returns `EDEADLK` at once; a
mutex locked by another thread makes the call block, which is the result `none`. -/
def pthread_mutex_lock (lockObj : Option Nat) (self : Nat) : Option (Option Nat) :=
  match lockObj with
  | none => some (some self)
  | some o => if o = self then some (some o) else none

/-- POSIX `pthread_mutex_unlock` on an error-checking mutex, called by thread `self`: the
owner unlocks it; any other caller gets `EPERM` and the mutex is left as it is. -/
def pthread_mutex_unlock (lockObj : Option Nat) (self : Nat) : Option Nat :=
  if lockObj = some self then none else lockObj

namespace ThreadLock

/-- The function `ThreadLock::_reLock` on a Mutex (lines 345-347):
`pthread_mutex_lock(&lockObj); lockedCount++;`. The return value of `pthread_mutex_lock`
is not looked at. `none` means the call does not return in this state. -/
def _reLock_Mutex (d : threadsafe_mutex_t.MmapDatas) (self : Nat) :
    Option threadsafe_mutex_t.MmapDatas :=
  (pthread_mutex_lock d.lockObj self).map
    (fun o => { lockedCount := uintInc d.lockedCount, lockObj := o })

/-- The function `ThreadLock::_unLock` on a Mutex (lines 524-526):
`lockedCount--; if (lockedCount == 0) pthread_mutex_unlock(&lockObj);`. The Boolean says
whether `pthread_mutex_unlock` is called. -/
def _unLock_Mutex (d : threadsafe_mutex_t.MmapDatas) (self : Nat) :
    threadsafe_mutex_t.MmapDatas × Bool :=
  let d : threadsafe_mutex_t.MmapDatas := { d with lockedCount := uintDec d.lockedCount }
  if d.lockedCount = 0 then
    ({ d with lockObj := pthread_mutex_unlock d.lockObj self }, true)
  else
    (d, false)

/-- The record after `n` consecutive `_reLock` calls of thread `self` on a Mutex; `none` if
one of them does not return. -/
def acquires_Mutex (d : threadsafe_mutex_t.MmapDatas) (self : Nat) :
    Nat → Option threadsafe_mutex_t.MmapDatas
  | 0 => some d
  | n + 1 => (_reLock_Mutex d self).bind (fun e => acquires_Mutex e self n)

/-- The record after `n` consecutive `_unLock` calls of thread `self` on a Mutex, and for
each call whether it called `pthread_mutex_unlock`, in order. -/
def releases_Mutex (d : threadsafe_mutex_t.MmapDatas) (self : Nat) :
    Nat → threadsafe_mutex_t.MmapDatas × List Bool
  | 0 => (d, [])
  | n + 1 =>
      let r := _unLock_Mutex d self
      let q := releases_Mutex r.1 self n
      (q.1, r.2 :: q.2)

end ThreadLock

/-- A completed call on a Mutex: `_reLock` or `_unLock` by thread `t`. -/
inductive MutexEvent where
  | acquire (t : Nat)
  | release (t : Nat)
  deriving DecidableEq, Repr

/-- One completed call on a Mutex; `none` when the call is a `_reLock` that does not
return in this state. -/
def stepMutex (d : threadsafe_mutex_t.MmapDatas) (e : MutexEvent) :
    Option threadsafe_mutex_t.MmapDatas :=
  match e with
  | MutexEvent.acquire t => ThreadLock._reLock_Mutex d t
  | MutexEvent.release t => some (ThreadLock._unLock_Mutex d t).1

/-- A sequence of completed calls on a Mutex. -/
def runMutex (d : threadsafe_mutex_t.MmapDatas) :
    List MutexEvent → Option threadsafe_mutex_t.MmapDatas
  | [] => some d
  | e :: es => (stepMutex d e).bind (fun d1 => runMutex d1 es)

/-! ## Definitions: path helpers of `FileHelper.cpp` (Linux path)

A C string is the list of its characters before the terminating NUL. `realpath` is the
library call; it is a parameter whose result is `none` when the call fails. -/

/-- The macro `PATH_SEPARATOR` on Linux. -/
def PATH_SEPARATOR : Char := '/'

/-- The library function `strchr`: the position of the first occurrence of `c`. -/
def strchr : List Char → Char → Option Nat
  | [], _ => none
  | x :: xs, c => if x = c then some 0 else (strchr xs c).map (fun i => i + 1)

/-- The library function `strrchr`: the position of the last occurrence of `c`. -/
def strrchr : List Char → Char → Option Nat
  | [], _ => none
  | x :: xs, c =>
      match strrchr xs c with
      | some i => some (i + 1)
      | none => if x = c then some 0 else none

/-- The function `GetFullLongPath`: `realpath`, then one trailing separator is cut. -/
def GetFullLongPath (realpath : List Char → Option (List Char)) (srcPath : List Char) :
    Option (List Char) :=
  match realpath srcPath with
  | none => none
  | some path_strval =>
      if path_strval.length ≠ 0 ∧ path_strval.getLast? = some PATH_SEPARATOR then
        some path_strval.dropLast
      else some path_strval

/-- The function `GetParentDirectoryPath`: the string is cut at the position `strchr`
returns, unless that is the start of the string. -/
def GetParentDirectoryPath (realpath : List Char → Option (List Char)) (srcPath : List Char) :
    Option (List Char) :=
  match GetFullLongPath realpath srcPath with
  | none => none
  | some path_strval =>
      match strchr path_strval PATH_SEPARATOR with
      | some last_sep => if last_sep ≠ 0 then some (path_strval.take last_sep)
                         else some path_strval
      | none => some path_strval

/-- The function `GetFileFullName`: what follows the last separator, `none` (a null
pointer) if there is no separator or nothing follows it. -/
def GetFileFullName (realpath : List Char → Option (List Char)) (srcPath : List Char) :
    Option (List Char) :=
  match GetFullLongPath realpath srcPath with
  | none => none
  | some path_strval =>
      match strrchr path_strval PATH_SEPARATOR with
      | none => none
      | some last_sep =>
          if path_strval.drop (last_sep + 1) = [] then none
          else some (path_strval.drop (last_sep + 1))

/-- The function `GetFileShortName`: the full name cut at its last `.`. -/
def GetFileShortName (realpath : List Char → Option (List Char)) (srcPath : List Char) :
    Option (List Char) :=
  match GetFileFullName realpath srcPath with
  | none => none
  | some full_strval =>
      match strrchr full_strval '.' with
      | some last_sep => some (full_strval.take last_sep)
      | none => some full_strval

/-- The function `GetFileSuffixName`: what follows the last `.` of the full name, the
empty string if there is none. -/
def GetFileSuffixName (realpath : List Char → Option (List Char)) (srcPath : List Char) :
    Option (List Char) :=
  match GetFileFullName realpath srcPath with
  | none => none
  | some full_strval =>
      match strrchr full_strval '.' with
      | some last_sep => some (full_strval.drop (last_sep + 1))
      | none => some []

/-! ## Definitions: construction and destruction of `ThreadLock` (Linux path) -/

/-- The enum `ThreadLock::LockType`. -/
inductive LockType where
  | Mutex
  | RwLock
  deriving DecidableEq, Repr

/-- Init status bit `INIT_STATUS_NONE`. -/
def INIT_STATUS_NONE : Nat := 0x00

/-- Init status bit `INIT_STATUS_ATTRINITED`. -/
def INIT_STATUS_ATTRINITED : Nat := 0x01

/-- Init status bit `INIT_STATUS_LOCKINITED`. -/
def INIT_STATUS_LOCKINITED : Nat := 0x02

/-- Init status bit `INIT_STATUS_SEMINITED`. -/
def INIT_STATUS_SEMINITED : Nat := 0x04

/-- The lock object `threadsafe_mutex_t` / `threadsafe_rwlock_t` that `_lockInstance` points
to. The pointer `mmapDatas` is `none` when null, otherwise the number of the memory region
that holds the state record. -/
structure LockObject where
  initStatus : Nat := INIT_STATUS_NONE
  creatorPid : Nat := 0
  mmapDatas : Option Nat := none
  deriving DecidableEq, Repr

/-- The data members of the class `ThreadLock`; `_lockInstance` is `none` when null. -/
structure ThreadLock where
  _lockType : LockType
  _isMultiProcess : Bool
  _lockInstance : Option LockObject
  deriving DecidableEq, Repr

/-- What the destructor does to the primitives and to the two memory blocks, the state
record (`mmapDatas`) and the lock object (`lock_object`). -/
inductive TeardownOp where
  | pthread_mutex_destroy
  | pthread_mutexattr_destroy
  | sem_destroy
  | munmap_mmapDatas
  | delete_mmapDatas
  | delete_lock_object
  | store_mmapDatas_nullptr
  deriving DecidableEq, Repr

namespace ThreadLock

/-- The constructor `ThreadLock::ThreadLock(LockType::RwLock, lockName)` on Linux (lines
199-230), all library calls succeeding. `mem` lists the state records of the memory regions
that exist, in the order of their creation. With a name the record is placed in a new
region obtained by `mmap(NULL, ..., MAP_SHARED | MAP_ANONYMOUS, -1, 0)` and filled with the
default record, without a name it is a `new MmapDatas()`; the name has no other use. -/
def construct_RwLock (mem : List MmapDatas) (lockName : Option (List Char))
    (SELF_PROCESS_ID : Nat) : List MmapDatas × ThreadLock :=
  let default_datas : MmapDatas := {}
  (if lockName.isSome then mem ++ [default_datas] else mem ++ [({} : MmapDatas)],
   { _lockType := LockType.RwLock,
     _isMultiProcess := lockName.isSome,
     _lockInstance := some
       { initStatus := INIT_STATUS_NONE ||| INIT_STATUS_ATTRINITED ||| INIT_STATUS_LOCKINITED
           ||| INIT_STATUS_SEMINITED,
         creatorPid := SELF_PROCESS_ID,
         mmapDatas := some mem.length } })

/-- The state record an instance operates on. -/
def datas (l : ThreadLock) (mem : List MmapDatas) : Option MmapDatas :=
  match l._lockInstance with
  | none => none
  | some lock_object =>
      match lock_object.mmapDatas with
      | none => none
      | some a => mem[a]?

/-- One loop iteration of `_reLock` made through an instance: the memory afterwards and
how the iteration ends; nothing happens when `_lockInstance` is null. -/
def _reLock_at (l : ThreadLock) (mem : List MmapDatas) (lockMode : LockMode) (self : Nat)
    (wait_return : Bool) : List MmapDatas × Option Outcome :=
  match l._lockInstance with
  | none => (mem, none)
  | some lock_object =>
      match lock_object.mmapDatas with
      | none => (mem, none)
      | some a =>
          match mem[a]? with
          | none => (mem, none)
          | some d =>
              let r := _reLock d lockMode self wait_return
              (mem.set a r.1, some r.2)

/-- The destructor `ThreadLock::~ThreadLock()` on Linux (lines 240-329): the operations it
performs, in order. -/
def destruct (l : ThreadLock) (SELF_PROCESS_ID : Nat) : List TeardownOp :=
  match l._lockInstance with
  | none => []
  | some lock_object =>
      match l._lockType with
      | LockType.Mutex =>
          (if lock_object.mmapDatas.isSome then
            (if lock_object.creatorPid = SELF_PROCESS_ID then
              (if lock_object.initStatus &&& INIT_STATUS_LOCKINITED ≠ 0
                then [TeardownOp.pthread_mutex_destroy] else [])
              ++ (if lock_object.initStatus &&& INIT_STATUS_ATTRINITED ≠ 0
                then [TeardownOp.pthread_mutexattr_destroy] else [])
            else [])
            ++ (if l._isMultiProcess then [TeardownOp.munmap_mmapDatas]
                else [TeardownOp.delete_mmapDatas])
            ++ [TeardownOp.store_mmapDatas_nullptr]
          else [])
          ++ [TeardownOp.delete_lock_object]
      | LockType.RwLock =>
          (if lock_object.mmapDatas.isSome then
            (if lock_object.creatorPid = SELF_PROCESS_ID then
              (if lock_object.initStatus &&& INIT_STATUS_LOCKINITED ≠ 0
                then [TeardownOp.pthread_mutex_destroy] else [])
              ++ (if lock_object.initStatus &&& INIT_STATUS_ATTRINITED ≠ 0
                then [TeardownOp.pthread_mutexattr_destroy] else [])
              ++ (if lock_object.initStatus &&& INIT_STATUS_SEMINITED ≠ 0
                then [TeardownOp.sem_destroy] else [])
            else [])
            ++ (if l._isMultiProcess then [TeardownOp.munmap_mmapDatas]
                else [TeardownOp.delete_lock_object])
            ++ [TeardownOp.store_mmapDatas_nullptr]
          else [])
          ++ [TeardownOp.delete_lock_object]

end ThreadLock

/-- The operations after the first `delete lock_object`. -/
def afterDeleteLockObject : List TeardownOp → List TeardownOp
  | [] => []
  | op :: ops => if op = TeardownOp.delete_lock_object then ops else afterDeleteLockObject ops

/-! ## Definitions: the reader/writer lock on Windows -/

namespace ThreadLock

/-- One loop iteration of `_reLock`, `lockMode == LockMode::Read`, Windows branch (lines
359-394). The branch for `LOCK_STATUS_WRITE` has no test of `writeThreadID`. -/
def _reLock_Read_Windows (d : MmapDatas) (wait_return : Bool) : MmapDatas × Outcome :=
  let d := if wait_return then { d with rwaitingCount := uintDec d.rwaitingCount } else d
  match d.lockStatus with
  | LockStatus.IDLE =>
      ({ d with lockStatus := LockStatus.READ, lockedCount := uintInc d.lockedCount },
        Outcome.granted)
  | LockStatus.READ =>
      if d.wwaitingCount > 0 then
        ({ d with rwaitingCount := uintInc d.rwaitingCount }, Outcome.blocked)
      else
        ({ d with lockedCount := uintInc d.lockedCount }, Outcome.granted)
  | LockStatus.WRITE =>
      ({ d with rwaitingCount := uintInc d.rwaitingCount }, Outcome.blocked)

/-- One loop iteration of `_reLock`, `lockMode == LockMode::Write`, Windows branch (lines
398-426). -/
def _reLock_Write_Windows (d : MmapDatas) (current_threadid : Nat) (wait_return : Bool) :
    MmapDatas × Outcome :=
  let d := if wait_return then { d with wwaitingCount := uintDec d.wwaitingCount } else d
  if d.lockStatus = LockStatus.IDLE then
    ({ d with lockStatus := LockStatus.WRITE, lockedCount := uintInc d.lockedCount,
              writeThreadID := current_threadid }, Outcome.granted)
  else if d.lockStatus = LockStatus.WRITE ∧ d.writeThreadID = current_threadid then
    ({ d with lockedCount := uintInc d.lockedCount }, Outcome.granted)
  else
    ({ d with wwaitingCount := uintInc d.wwaitingCount }, Outcome.blocked)

/-- The function `ThreadLock::_unLock` on a reader/writer lock, Windows branch (lines
533-544). The Boolean says whether `SetEvent(innerEvent)` is called. -/
def _unLock_Windows (d : MmapDatas) : MmapDatas × Bool :=
  let d := if d.lockedCount > 0 then { d with lockedCount := d.lockedCount - 1 } else d
  if d.lockedCount = 0 then
    let d := if d.lockStatus = LockStatus.WRITE then { d with writeThreadID := 0 } else d
    let d := { d with lockStatus := LockStatus.IDLE }
    (d, decide (d.wwaitingCount > 0 ∨ d.rwaitingCount > 0))
  else
    (d, false)

end ThreadLock

/-! ## Definitions: callers between their increment and their decrement -/

/-- Whether a thread at this position has incremented the waiting counter of kind `k` and
not yet decremented it. -/
def Pc.pending (k : LockMode) : Pc → Bool
  | Pc.out => false
  | Pc.waiting m => decide (m = k)
  | Pc.woken m => decide (m = k)

/-- The number of threads with an id below `n` that are pending for kind `k`. -/
def pendingCount (pc : Nat → Pc) (k : LockMode) : Nat → Nat
  | 0 => 0
  | n + 1 => pendingCount pc k n + (if (pc n).pending k then 1 else 0)

/-- The thread an event belongs to. -/
def Event.thread : Event → Nat
  | Event.request t _ => t
  | Event.wake t => t
  | Event.retry t => t
  | Event.release t => t
  | Event.interrupt t => t

/-! ## Definitions: the `%B` branch of `__DbgFormatLog` -/

/-- The local `bit_bytes_count` of the `%B` branch, a `uint`, from the `uint` member
`length` of the argument. -/
def bit_bytes_count (length : Nat) : Nat :=
  (length / 8 + (if length % 8 = 0 then 0 else 1)) % UINT_MOD

/-- The local `add_length` of the `%B` branch: `bit_arg->length + (bit_bytes_count - 1)`
is computed in `uint` and then widened to `size_t`. -/
def add_length_B (length : Nat) : Nat :=
  (length + uintDec (bit_bytes_count length)) % UINT_MOD

/-- The inner loop of the `%B` branch for one byte: the characters for the bits
`loop_bits_idx < 8` with `loop_bytes_idx * 8 + loop_bits_idx < length`, most significant
bit first. -/
def formatBitsOfByte (byte : Nat) (loop_bytes_idx : Nat) (length : Nat) : List Char :=
  ((List.range 8).filter (fun loop_bits_idx => loop_bytes_idx * 8 + loop_bits_idx < length)).map
    (fun loop_bits_idx => if (byte >>> (7 - loop_bits_idx)) &&& 0x01 ≠ 0 then '1' else '0')

/-- The outer loop of the `%B` branch: what is appended to `outString`, a space before
every byte but the first. -/
def formatBits (datas : Nat → Nat) (length : Nat) : List Char :=
  ((List.range (bit_bytes_count length)).map
    (fun loop_bytes_idx =>
      (if loop_bytes_idx ≠ 0 then [' '] else [])
        ++ formatBitsOfByte (datas loop_bytes_idx) loop_bytes_idx length)).flatten

/-- The waiting counters agree with the positions of the threads with an id below `n`:
each counter is the number of threads that have raised it and not yet lowered it, thread
id 0 is not in use, and the recorded writer is outside any call. -/
structure WaitersCounted (n : Nat) (s : Sys) : Prop where
  readers : s.datas.rwaitingCount = pendingCount s.pc LockMode.Read n
  writers : s.datas.wwaitingCount = pendingCount s.pc LockMode.Write n
  zero : s.pc 0 = Pc.out
  writer : s.datas.lockStatus = LockStatus.WRITE → s.pc s.datas.writeThreadID = Pc.out

/-- The state of the lock once thread 1 holds read, thread 2 has requested write and
thread 1 has requested read again: the only grant is the read grant of thread 1, `innerSem`
is zero, thread 1 is inside its read request and thread 2 inside its write request (in
`sem_wait`, or back from it and about to retry), and `wwaitingCount` counts the threads
inside a write request. -/
structure ReaderStuckBehindWriter (s : Sys) : Prop where
  holders : s.holders = [(1, LockMode.Read)]
  sem : s.innerSem = 0
  status : s.datas.lockStatus = LockStatus.READ
  reader : s.pc 1 = Pc.waiting LockMode.Read ∨ s.pc 1 = Pc.woken LockMode.Read
  writer : s.pc 2 = Pc.waiting LockMode.Write ∨ s.pc 2 = Pc.woken LockMode.Write
  counted : s.datas.wwaitingCount = pendingCount s.pc LockMode.Write UINT_MOD
  alive : s.aborted = false

/-! ## The lock guard -/

/-- Every `reLock` call keeps the balance: the acquisitions it issues plus one if the guard
was held equal the releases it issues plus one if the guard is held afterwards. -/
theorem LockGuard.reLock_balance (g : LockGuard) (m : LockMode) :
    acquisitions (g.reLock m).2 + (if g._isLocked then 1 else 0)
      = releases (g.reLock m).2 + (if (g.reLock m).1._isLocked then 1 else 0) := by
  rcases g with ⟨gm, _ | _⟩ <;> cases m <;> cases gm <;> decide

/-- The balance of `reLock_balance` for a sequence of `reLock` calls. -/
theorem LockGuard.reLocks_balance (ms : List LockMode) :
    ∀ g : LockGuard,
      acquisitions (g.reLocks ms).2 + (if g._isLocked then 1 else 0)
        = releases (g.reLocks ms).2 + (if (g.reLocks ms).1._isLocked then 1 else 0) := by
  induction ms with
  | nil => intro g; simp [LockGuard.reLocks, acquisitions, releases]
  | cons m ms ih =>
      intro g
      have h1 := LockGuard.reLock_balance g m
      have h2 := ih (g.reLock m).1
      simp only [LockGuard.reLocks, acquisitions, releases, List.countP_append] at *
      omega

/-- C6 (code at the failing input): a guard constructed with immediate acquisition in Read
mode on which `unLock()` is called twice issues two `_unLock` calls on its lock, the second
one while the guard is not held. On a record held by this guard and by one more reader the
two releases make the record Idle, so that the other reader's hold is lost. -/
theorem unLock_twice_releases_twice :
    (LockGuard.construct LockMode.Read true).1.unLock.1._isLocked = false ∧
    (LockGuard.construct LockMode.Read true).1.unLock.1.unLock.2 = [LockCall._unLock] ∧
    releases ((LockGuard.construct LockMode.Read true).1.unLock.2
      ++ (LockGuard.construct LockMode.Read true).1.unLock.1.unLock.2) = 2 ∧
    ThreadLock.unLocks { lockStatus := LockStatus.READ, lockedCount := 2 }
        (releases ((LockGuard.construct LockMode.Read true).1.unLock.2
          ++ (LockGuard.construct LockMode.Read true).1.unLock.1.unLock.2))
      = { lockStatus := LockStatus.IDLE, lockedCount := 0 } := by
  decide

/-- C7: for a held guard, `unLock()` followed by the destructor issues exactly one release:
`unLock` issues it and marks the guard not-held, and the destructor then issues nothing. -/
theorem unLock_then_destruct_releases_once (g : LockGuard) (h : g._isLocked = true) :
    g.unLock.2 = [LockCall._unLock] ∧ g.unLock.1._isLocked = false ∧
    g.unLock.1.destruct = [] ∧
    releases (g.unLock.2 ++ g.unLock.1.destruct) = 1 ∧
    acquisitions (g.unLock.2 ++ g.unLock.1.destruct) = 0 := by
  rcases g with ⟨gm, gl⟩
  cases h
  cases gm <;> decide

/-- Witness of C7: a guard held in Write mode. -/
theorem unLock_then_destruct_releases_once_witness :
    (LockGuard.mk LockMode.Write true).unLock.2 = [LockCall._unLock] ∧
    (LockGuard.mk LockMode.Write true).unLock.1._isLocked = false ∧
    (LockGuard.mk LockMode.Write true).unLock.1.destruct = [] ∧
    releases ((LockGuard.mk LockMode.Write true).unLock.2
      ++ (LockGuard.mk LockMode.Write true).unLock.1.destruct) = 1 ∧
    acquisitions ((LockGuard.mk LockMode.Write true).unLock.2
      ++ (LockGuard.mk LockMode.Write true).unLock.1.destruct) = 0 :=
  unLock_then_destruct_releases_once (LockGuard.mk LockMode.Write true) rfl

/-- C8: for a guard constructed with or without immediate acquisition and any sequence of
`reLock` calls, after the constructor and after each number `k` of the calls the
acquisitions issued exceed the releases issued by one if the guard is held and by zero
otherwise, and once the destructor has run after all the calls the two numbers are
equal. -/
theorem guard_release_balance (lockMode : LockMode) (lockNow : Bool) (ms : List LockMode) :
    (∀ k : Nat,
      acquisitions ((LockGuard.construct lockMode lockNow).2
          ++ ((LockGuard.construct lockMode lockNow).1.reLocks (ms.take k)).2)
        = releases ((LockGuard.construct lockMode lockNow).2
          ++ ((LockGuard.construct lockMode lockNow).1.reLocks (ms.take k)).2)
          + (if ((LockGuard.construct lockMode lockNow).1.reLocks (ms.take k)).1._isLocked
              then 1 else 0))
    ∧ acquisitions ((LockGuard.construct lockMode lockNow).2
        ++ ((LockGuard.construct lockMode lockNow).1.reLocks ms).2
        ++ ((LockGuard.construct lockMode lockNow).1.reLocks ms).1.destruct)
      = releases ((LockGuard.construct lockMode lockNow).2
        ++ ((LockGuard.construct lockMode lockNow).1.reLocks ms).2
        ++ ((LockGuard.construct lockMode lockNow).1.reLocks ms).1.destruct) := by
  have hc : acquisitions (LockGuard.construct lockMode lockNow).2
      = releases (LockGuard.construct lockMode lockNow).2
        + (if (LockGuard.construct lockMode lockNow).1._isLocked then 1 else 0) := by
    cases lockNow <;> cases lockMode <;> decide
  have hd : ∀ g : LockGuard, acquisitions g.destruct = 0 ∧
      releases g.destruct = (if g._isLocked then 1 else 0) := by
    intro g
    rcases g with ⟨gm, _ | _⟩ <;> cases gm <;> decide
  constructor
  · intro k
    have hr := LockGuard.reLocks_balance (ms.take k) (LockGuard.construct lockMode lockNow).1
    simp only [acquisitions, releases, List.countP_append] at *
    omega
  · have hr := LockGuard.reLocks_balance ms (LockGuard.construct lockMode lockNow).1
    have hd1 := hd ((LockGuard.construct lockMode lockNow).1.reLocks ms).1
    simp only [acquisitions, releases, List.countP_append] at *
    omega

/-- C9: `reLock(m)` on a guard held in mode `m` issues no call on the lock and leaves the
held flag and the stored mode as they were. -/
theorem reLock_same_mode_noop (g : LockGuard) (m : LockMode)
    (hl : g._isLocked = true) (hm : g._lockMode = m) :
    g.reLock m = (g, []) := by
  simp [LockGuard.reLock, hl, hm]

/-- Witness of C9: a guard held in Read mode, `reLock(Read)`. -/
theorem reLock_same_mode_noop_witness :
    (LockGuard.mk LockMode.Read true).reLock LockMode.Read
      = (LockGuard.mk LockMode.Read true, []) :=
  reLock_same_mode_noop (LockGuard.mk LockMode.Read true) LockMode.Read rfl rfl

/-- C10: `reLock(m)` on a guard held in another mode issues one `_unLock` and then one
`_reLock(m)`, in that order, and leaves the guard held with stored mode `m`. -/
theorem reLock_other_mode_switches (g : LockGuard) (m : LockMode)
    (hl : g._isLocked = true) (hm : g._lockMode ≠ m) :
    (g.reLock m).2 = [LockCall._unLock, LockCall._reLock m] ∧
    (g.reLock m).1._isLocked = true ∧ (g.reLock m).1._lockMode = m := by
  have hm1 : ¬ m = g._lockMode := fun h => hm h.symm
  simp [LockGuard.reLock, hl, hm1]

/-- Witness of C10: a guard held in Read mode, `reLock(Write)`. -/
theorem reLock_other_mode_switches_witness :
    ((LockGuard.mk LockMode.Read true).reLock LockMode.Write).2
      = [LockCall._unLock, LockCall._reLock LockMode.Write] ∧
    ((LockGuard.mk LockMode.Read true).reLock LockMode.Write).1._isLocked = true ∧
    ((LockGuard.mk LockMode.Read true).reLock LockMode.Write).1._lockMode = LockMode.Write :=
  reLock_other_mode_switches (LockGuard.mk LockMode.Read true) LockMode.Write rfl (by decide)

/-! ## Single iterations on the reader/writer record -/

/-- C4: in a record with status WriteHeld whose recorded writer is `t`, a read request of
thread `t`, new or retried, ends in the fatal call, which aborts the process: the request
is neither granted nor left waiting, a new request leaves the record as it was, and in the
system no grant is added and `t` is not put to wait. -/
theorem read_by_writer_is_fatal (d : MmapDatas) (t : Nat)
    (hs : d.lockStatus = LockStatus.WRITE) (ht : d.writeThreadID = t) :
    (∀ wait_return, (ThreadLock._reLock d LockMode.Read t wait_return).2 = Outcome.fatal) ∧
    ThreadLock._reLock d LockMode.Read t false = (d, Outcome.fatal) ∧
    DBGLOG_FATAL = true ∧
    ∀ s : Sys, s.datas = d → s.aborted = false → s.pc t = Pc.out →
      step s (Event.request t LockMode.Read) = some { s with aborted := true } := by
  have hf : DBGLOG_FATAL = true := by decide
  have h1 : ThreadLock._reLock d LockMode.Read t false = (d, Outcome.fatal) := by
    simp [ThreadLock._reLock, ThreadLock._reLock_Read, hs, ht, hf]
  refine ⟨?_, h1, hf, ?_⟩
  · intro wait_return
    cases wait_return <;> simp [ThreadLock._reLock, ThreadLock._reLock_Read, hs, ht, hf]
  · intro s hd ha hp
    subst hd
    simp [step, ha, hp, Sys.afterIteration, h1]

/-- Witness of C4: thread 7 holds write once and requests read. -/
theorem read_by_writer_is_fatal_witness :
    ThreadLock._reLock
        { lockStatus := LockStatus.WRITE, lockedCount := 1, writeThreadID := 7 }
        LockMode.Read 7 false
      = ({ lockStatus := LockStatus.WRITE, lockedCount := 1, writeThreadID := 7 },
          Outcome.fatal) :=
  (read_by_writer_is_fatal
    { lockStatus := LockStatus.WRITE, lockedCount := 1, writeThreadID := 7 } 7 rfl rfl).2.1

/-- C3 (counterexample): thread 1 takes write, thread 2 requests write and waits, thread 1
releases. In the state reached one writer is counted as waiting, and the read request of
thread 3 is granted although thread 2 has not acquired the lock. -/
theorem read_granted_while_writer_waits :
    (run Sys.init [Event.request 1 LockMode.Write, Event.request 2 LockMode.Write,
        Event.release 1]).map
      (fun s => (s.datas.wwaitingCount, s.pc 2, s.holders,
        (ThreadLock._reLock s.datas LockMode.Read 3 false).2))
      = some (1, Pc.waiting LockMode.Write, [], Outcome.granted) := by
  decide

/-- C3 (amended): in every record in which a writer is counted as waiting, a read request,
new or retried after a wake, is granted exactly when the status is Idle; when the status is
ReadHeld, or WriteHeld by another thread, it is not granted: `rwaitingCount` is incremented,
the rest of the record is kept and the caller goes to wait on the semaphore, so that in the
system no grant is added and the thread is put to wait. -/
theorem read_waits_behind_writer (d : MmapDatas) (t : Nat) (wait_return : Bool)
    (hw : 0 < d.wwaitingCount) :
    ((ThreadLock._reLock d LockMode.Read t wait_return).2 = Outcome.granted
      ↔ d.lockStatus = LockStatus.IDLE) ∧
    (d.lockStatus = LockStatus.READ ∨
        (d.lockStatus = LockStatus.WRITE ∧ d.writeThreadID ≠ t) →
      ThreadLock._reLock d LockMode.Read t wait_return
        = ({ d with rwaitingCount :=
              uintInc (if wait_return then uintDec d.rwaitingCount else d.rwaitingCount) },
            Outcome.blocked) ∧
      ∀ s : Sys, s.datas = d → s.aborted = false → s.pc t = Pc.out →
        ∃ s1, step s (Event.request t LockMode.Read) = some s1 ∧
          s1.holders = s.holders ∧ s1.pc t = Pc.waiting LockMode.Read) := by
  have hw1 : ¬ d.wwaitingCount = 0 := by omega
  have key : d.lockStatus = LockStatus.READ ∨
        (d.lockStatus = LockStatus.WRITE ∧ d.writeThreadID ≠ t) →
      ThreadLock._reLock d LockMode.Read t wait_return
        = ({ d with rwaitingCount :=
              uintInc (if wait_return then uintDec d.rwaitingCount else d.rwaitingCount) },
            Outcome.blocked) := by
    rcases d with ⟨st, lc, rw, ww, wt⟩
    cases st <;> cases wait_return <;>
      simp_all [ThreadLock._reLock, ThreadLock._reLock_Read]
  refine ⟨?_, fun hst => ⟨key hst, ?_⟩⟩
  · rcases d with ⟨st, lc, rw, ww, wt⟩
    cases st <;> cases wait_return <;>
      simp_all [ThreadLock._reLock, ThreadLock._reLock_Read] <;>
      (try split) <;> simp_all
  · intro s hd ha hp
    subst hd
    have hk : ThreadLock._reLock s.datas LockMode.Read t false
        = ({ s.datas with rwaitingCount := uintInc s.datas.rwaitingCount },
            Outcome.blocked) := by
      rcases hst with h | ⟨h, h2⟩ <;>
        simp [ThreadLock._reLock, ThreadLock._reLock_Read, h, hw, *]
    have hstep : step s (Event.request t LockMode.Read)
        = some { s with
            datas := { s.datas with rwaitingCount := uintInc s.datas.rwaitingCount },
            pc := Function.update s.pc t (Pc.waiting LockMode.Read) } := by
      simp [step, ha, hp, Sys.afterIteration, hk]
    exact ⟨_, hstep, rfl, Function.update_same t _ s.pc⟩

/-- Witness of C3 (amended): one reader holds, one writer waits, thread 3 requests read. -/
theorem read_waits_behind_writer_witness :
    ThreadLock._reLock
        { lockStatus := LockStatus.READ, lockedCount := 1, wwaitingCount := 1 }
        LockMode.Read 3 false
      = ({ lockStatus := LockStatus.READ, lockedCount := 1, rwaitingCount := 1,
           wwaitingCount := 1 }, Outcome.blocked) :=
  (read_waits_behind_writer
    { lockStatus := LockStatus.READ, lockedCount := 1, wwaitingCount := 1 } 3 false
    (by decide)).2 (Or.inl rfl) |>.1

/-! ## Recursive write acquisition -/

/-- The modulus as a numeral. -/
theorem UINT_MOD_eq : UINT_MOD = 4294967296 := by decide

theorem uintInc_of_lt (c : Nat) (h : c + 1 < UINT_MOD) : uintInc c = c + 1 := by
  unfold uintInc; exact Nat.mod_eq_of_lt h

/-- Recursive write requests of the recorded writer are all granted and add to
`lockedCount` modulo `2 ^ 32`. -/
theorem ThreadLock.requests_write_held (t : Nat) (n : Nat) :
    ∀ d : MmapDatas, d.lockStatus = LockStatus.WRITE → d.writeThreadID = t →
      d.lockedCount < UINT_MOD →
      ThreadLock.requests d LockMode.Write t n
        = ({ d with lockedCount := (d.lockedCount + n) % UINT_MOD },
            List.replicate n Outcome.granted) := by
  induction n with
  | zero =>
      intro d _ _ hc
      simp [ThreadLock.requests, Nat.mod_eq_of_lt hc]
  | succ n ih =>
      intro d hs ht hc
      have h1 : ThreadLock._reLock d LockMode.Write t false
          = ({ d with lockedCount := uintInc d.lockedCount }, Outcome.granted) := by
        simp [ThreadLock._reLock, ThreadLock._reLock_Write, hs, ht]
      have h2 := ih { d with lockedCount := uintInc d.lockedCount } hs ht
        (Nat.mod_lt _ (by decide))
      simp only [ThreadLock.requests, h1, h2, List.replicate_succ]
      have h3 : (uintInc d.lockedCount + n) % UINT_MOD = (d.lockedCount + (n + 1)) % UINT_MOD := by
        simp only [uintInc, UINT_MOD_eq]; omega
      simp [h3]

/-- Write requests on an Idle record with `lockedCount = 0`. -/
theorem ThreadLock.requests_write_idle (t : Nat) (n : Nat) (d : MmapDatas)
    (hs : d.lockStatus = LockStatus.IDLE) (hc : d.lockedCount = 0) :
    ThreadLock.requests d LockMode.Write t (n + 1)
      = ({ d with lockStatus := LockStatus.WRITE, writeThreadID := t,
                  lockedCount := (n + 1) % UINT_MOD },
          List.replicate (n + 1) Outcome.granted) := by
  have h1 : ThreadLock._reLock d LockMode.Write t false
      = ({ d with lockStatus := LockStatus.WRITE, lockedCount := 1, writeThreadID := t },
          Outcome.granted) := by
    simp [ThreadLock._reLock, ThreadLock._reLock_Write, hs, hc, uintInc, UINT_MOD_eq]
  have h2 := ThreadLock.requests_write_held t n
    { d with lockStatus := LockStatus.WRITE, lockedCount := 1, writeThreadID := t } rfl rfl
    (by simp [UINT_MOD_eq])
  simp only [ThreadLock.requests, h1, h2, List.replicate_succ]
  simp [Nat.add_comm]


/-- Releases of a write hold while the count stays positive only lower the count. -/
theorem ThreadLock.unLocks_write_held (k : Nat) :
    ∀ d : MmapDatas, k < d.lockedCount →
      ThreadLock.unLocks d k = { d with lockedCount := d.lockedCount - k } := by
  induction k with
  | zero => intro d _; simp [ThreadLock.unLocks]
  | succ k ih =>
      intro d hk
      have h1 : (ThreadLock._unLock d).1 = { d with lockedCount := d.lockedCount - 1 } := by
        have : 0 < d.lockedCount := by omega
        have : ¬ d.lockedCount - 1 = 0 := by omega
        simp [ThreadLock._unLock, *]
      have h2 := ih { d with lockedCount := d.lockedCount - 1 } (by simp; omega)
      simp only [ThreadLock.unLocks, h1, h2]
      simp
      omega

/-- The last release of a write hold makes the record Idle and clears the writer. -/
theorem ThreadLock.unLock_write_last (d : MmapDatas) (hs : d.lockStatus = LockStatus.WRITE)
    (hc : d.lockedCount = 1) :
    (ThreadLock._unLock d).1
      = { d with lockStatus := LockStatus.IDLE, lockedCount := 0, writeThreadID := 0 } := by
  simp [ThreadLock._unLock, hs, hc]

/-- A request of a thread other than the recorded writer on a WriteHeld record blocks. -/
theorem ThreadLock.reLock_other_blocked (d : MmapDatas) (u : Nat) (m : LockMode)
    (wait_return : Bool) (hs : d.lockStatus = LockStatus.WRITE) (hu : d.writeThreadID ≠ u) :
    (ThreadLock._reLock d m u wait_return).2 = Outcome.blocked := by
  rcases d with ⟨st, lc, rw, ww, wt⟩
  cases m <;> cases wait_return <;>
    simp_all [ThreadLock._reLock, ThreadLock._reLock_Read, ThreadLock._reLock_Write]

/-- C5 (counterexample): `2 ^ 32` consecutive write requests of thread 1 on the default
record are all granted and leave `lockedCount = 0`, not `2 ^ 32`. -/
theorem recursive_write_count_wraps :
    (ThreadLock.requests {} LockMode.Write 1 UINT_MOD).2
      = List.replicate UINT_MOD Outcome.granted ∧
    (ThreadLock.requests {} LockMode.Write 1 UINT_MOD).1.lockedCount = 0 ∧
    (ThreadLock.requests {} LockMode.Write 1 UINT_MOD).1.lockedCount ≠ UINT_MOD := by
  have h := ThreadLock.requests_write_idle 1 (UINT_MOD - 1) {} rfl rfl
  have e : UINT_MOD - 1 + 1 = UINT_MOD := by decide
  rw [e] at h
  rw [h]
  refine ⟨rfl, ?_, ?_⟩
  · exact Nat.mod_self _
  · show UINT_MOD % UINT_MOD ≠ UINT_MOD
    rw [Nat.mod_self]; decide

/-- C5 (amended): for `1 ≤ n < 2 ^ 32`, `n` consecutive write requests of thread `t` on an
Idle record are all granted at their first iteration and leave `lockedCount = n`, status
WriteHeld and `writeThreadID = t`; after `k < n` releases the record is still WriteHeld by
`t` with `lockedCount = n - k` and every request of another thread blocks; after the `n`-th
release the status is Idle, `lockedCount = 0` and `writeThreadID = 0`. -/
theorem recursive_write_symmetric (n t : Nat) (d : MmapDatas)
    (h1 : 1 ≤ n) (h2 : n < UINT_MOD)
    (hs : d.lockStatus = LockStatus.IDLE) (hc : d.lockedCount = 0) :
    (ThreadLock.requests d LockMode.Write t n).2 = List.replicate n Outcome.granted ∧
    (ThreadLock.requests d LockMode.Write t n).1.lockedCount = n ∧
    (ThreadLock.requests d LockMode.Write t n).1.lockStatus = LockStatus.WRITE ∧
    (ThreadLock.requests d LockMode.Write t n).1.writeThreadID = t ∧
    (∀ k, k < n →
      (ThreadLock.unLocks (ThreadLock.requests d LockMode.Write t n).1 k).lockStatus
        = LockStatus.WRITE ∧
      (ThreadLock.unLocks (ThreadLock.requests d LockMode.Write t n).1 k).writeThreadID = t ∧
      (ThreadLock.unLocks (ThreadLock.requests d LockMode.Write t n).1 k).lockedCount
        = n - k ∧
      ∀ u, u ≠ t → ∀ m wait_return,
        (ThreadLock._reLock
          (ThreadLock.unLocks (ThreadLock.requests d LockMode.Write t n).1 k)
          m u wait_return).2 = Outcome.blocked) ∧
    (ThreadLock.unLocks (ThreadLock.requests d LockMode.Write t n).1 n).lockStatus
      = LockStatus.IDLE ∧
    (ThreadLock.unLocks (ThreadLock.requests d LockMode.Write t n).1 n).lockedCount = 0 ∧
    (ThreadLock.unLocks (ThreadLock.requests d LockMode.Write t n).1 n).writeThreadID = 0 := by
  obtain ⟨j, rfl⟩ : ∃ j, n = j + 1 := ⟨n - 1, by omega⟩
  rw [ThreadLock.requests_write_idle t j d hs hc, Nat.mod_eq_of_lt h2]
  refine ⟨rfl, rfl, rfl, rfl, ?_, ?_⟩
  · intro k hk
    rw [ThreadLock.unLocks_write_held k _ (by simpa using hk)]
    refine ⟨rfl, rfl, rfl, ?_⟩
    intro u hu m wait_return
    exact ThreadLock.reLock_other_blocked _ u m wait_return rfl (fun h => hu h.symm)
  · have h3 : ThreadLock.unLocks
        { d with lockStatus := LockStatus.WRITE, writeThreadID := t, lockedCount := j + 1 }
        (j + 1)
        = { d with lockStatus := LockStatus.IDLE, writeThreadID := 0, lockedCount := 0 } := by
      have e : ∀ (a : Nat) (x : MmapDatas), ThreadLock.unLocks x (a + 1)
          = (ThreadLock._unLock (ThreadLock.unLocks x a)).1 := by
        intro a
        induction a with
        | zero => intro x; rfl
        | succ a ih => intro x; exact ih (ThreadLock._unLock x).1
      rw [e, ThreadLock.unLocks_write_held j _ (by simp)]
      rw [ThreadLock.unLock_write_last _ rfl (by simp)]
    rw [h3]
    exact ⟨rfl, rfl, rfl⟩

/-- Witness of C5 (amended): three write requests of thread 5 on the default record. -/
theorem recursive_write_symmetric_witness :
    (ThreadLock.requests {} LockMode.Write 5 3).1
      = { lockStatus := LockStatus.WRITE, lockedCount := 3, writeThreadID := 5 } ∧
    (ThreadLock.unLocks (ThreadLock.requests {} LockMode.Write 5 3).1 3).lockStatus
      = LockStatus.IDLE :=
  ⟨by decide,
   (recursive_write_symmetric 3 5 {} (by decide) (by decide) rfl rfl).2.2.2.2.2.1⟩

/-! ## Interleavings: the record agrees with the outstanding grants -/

/-- What a granting iteration does to the record. -/
theorem ThreadLock.reLock_granted_spec (d e : MmapDatas) (m : LockMode) (t : Nat)
    (wait_return : Bool) (h : ThreadLock._reLock d m t wait_return = (e, Outcome.granted)) :
    e.lockedCount = uintInc d.lockedCount ∧
    ((d.lockStatus = LockStatus.IDLE ∧ m = LockMode.Read ∧ e.lockStatus = LockStatus.READ) ∨
     (d.lockStatus = LockStatus.IDLE ∧ m = LockMode.Write ∧ e.lockStatus = LockStatus.WRITE ∧
        e.writeThreadID = t) ∨
     (d.lockStatus = LockStatus.READ ∧ m = LockMode.Read ∧ e.lockStatus = LockStatus.READ) ∨
     (d.lockStatus = LockStatus.WRITE ∧ m = LockMode.Write ∧ e.lockStatus = LockStatus.WRITE ∧
        d.writeThreadID = t ∧ e.writeThreadID = t)) := by
  rcases d with ⟨st, lc, rw, ww, wt⟩
  cases m <;> cases st <;> cases wait_return <;>
    simp only [ThreadLock._reLock, ThreadLock._reLock_Read, ThreadLock._reLock_Write] at h <;>
    split_ifs at h <;> cases h <;> simp_all

/-- An iteration that does not grant keeps status, count and recorded writer. -/
theorem ThreadLock.reLock_not_granted_spec (d e : MmapDatas) (m : LockMode) (t : Nat)
    (wait_return : Bool) (o : Outcome) (h : ThreadLock._reLock d m t wait_return = (e, o))
    (ho : o ≠ Outcome.granted) :
    e.lockStatus = d.lockStatus ∧ e.lockedCount = d.lockedCount ∧
    e.writeThreadID = d.writeThreadID := by
  rcases d with ⟨st, lc, rw, ww, wt⟩
  cases m <;> cases st <;> cases wait_return <;>
    simp only [ThreadLock._reLock, ThreadLock._reLock_Read, ThreadLock._reLock_Write] at h <;>
    split_ifs at h <;> cases h <;> simp_all

/-- What `_unLock` does to the record: above one it only lowers the count, otherwise the
record becomes Idle with count zero. -/
theorem ThreadLock.unLock_spec (d : MmapDatas) :
    (2 ≤ d.lockedCount →
      (ThreadLock._unLock d).1 = { d with lockedCount := d.lockedCount - 1 }) ∧
    (d.lockedCount ≤ 1 →
      (ThreadLock._unLock d).1.lockStatus = LockStatus.IDLE ∧
      (ThreadLock._unLock d).1.lockedCount = 0) := by
  constructor
  · intro h
    have h1 : 0 < d.lockedCount := by omega
    have h2 : ¬ d.lockedCount - 1 = 0 := by omega
    simp [ThreadLock._unLock, h1, h2]
  · intro h
    rcases Nat.eq_zero_or_pos d.lockedCount with h0 | h0
    · simp only [ThreadLock._unLock, h0]
      split_ifs <;> simp_all
    · have h1 : d.lockedCount - 1 = 0 := by omega
      simp only [ThreadLock._unLock, h0, h1]
      split_ifs <;> simp_all

/-- A loop iteration keeps the record consistent with the grants, as long as the count
does not wrap. -/
theorem Sys.afterIteration_consistent (s : Sys) (t : Nat) (m : LockMode) (wait_return : Bool)
    (hc : Consistent s) (hb : (s.afterIteration t m wait_return).holders.length < UINT_MOD) :
    Consistent (s.afterIteration t m wait_return) := by
  rcases h : ThreadLock._reLock s.datas m t wait_return with ⟨e, o⟩
  cases o
  · obtain ⟨g1, g2⟩ := ThreadLock.reLock_granted_spec _ _ _ _ _ h
    simp only [Sys.afterIteration, h] at hb ⊢
    have hlen : uintInc s.holders.length = s.holders.length + 1 :=
      uintInc_of_lt _ (by simpa using hb)
    rcases g2 with ⟨a, rfl, b⟩ | ⟨a, rfl, b, c⟩ | ⟨a, rfl, b⟩ | ⟨a, rfl, b, c, c1⟩
    · have hn := hc.idle a
      constructor <;> simp_all [hc.count]
    · have hn := hc.idle a
      constructor <;> simp_all [hc.count]
    · have hn := hc.read a
      constructor <;> simp_all [hc.count]
      exact hn.2
    · have hn := hc.write a
      constructor <;> simp_all [hc.count]
      exact hn.2
  · obtain ⟨g1, g2, g3⟩ := ThreadLock.reLock_not_granted_spec _ _ _ _ _ _ h (by decide)
    simp only [Sys.afterIteration, h]
    constructor <;> simp only [g1, g2, g3]
    · exact hc.count
    · exact hc.idle
    · exact hc.read
    · exact hc.write
  · obtain ⟨g1, g2, g3⟩ := ThreadLock.reLock_not_granted_spec _ _ _ _ _ _ h (by decide)
    simp only [Sys.afterIteration, h]
    constructor <;> simp only [g1, g2, g3]
    · exact hc.count
    · exact hc.idle
    · exact hc.read
    · exact hc.write

/-- A release keeps the record consistent with the grants. -/
theorem Sys.release_consistent (s : Sys) (t : Nat) (hc : Consistent s)
    (ha : s.holders.any (fun h => h.1 == t) = true) :
    Consistent { s with datas := (ThreadLock._unLock s.datas).1,
                        innerSem := if (ThreadLock._unLock s.datas).2 then s.innerSem + 1
                                    else s.innerSem,
                        holders := s.holders.eraseP (fun h => h.1 == t) } := by
  have hlen : (s.holders.eraseP (fun h => h.1 == t)).length = s.holders.length - 1 := by
    rw [List.length_eraseP, ha]; rfl
  have hpos : 1 ≤ s.holders.length := by
    rcases hs : s.holders with _ | ⟨x, xs⟩
    · rw [hs] at ha; simp at ha
    · simp
  obtain ⟨u1, u2⟩ := ThreadLock.unLock_spec s.datas
  rcases Nat.lt_or_ge s.holders.length 2 with h2 | h2
  · obtain ⟨v1, v2⟩ := u2 (by rw [hc.count]; omega)
    have hnil : s.holders.eraseP (fun h => h.1 == t) = [] :=
      List.eq_nil_of_length_eq_zero (by omega)
    constructor
    · simp only [v2, hnil, List.length_nil]
    · intro _; exact hnil
    · intro h; simp only [v1] at h; cases h
    · intro h; simp only [v1] at h; cases h
  · have v := u1 (by rw [hc.count]; exact h2)
    have hne : s.holders.eraseP (fun h => h.1 == t) ≠ [] := by
      intro h0
      rw [h0] at hlen
      simp at hlen
      omega
    constructor
    · simp only [v, hlen, hc.count]
    · intro h
      simp only [v] at h
      have := hc.idle h
      rw [this] at h2
      simp at h2
    · intro h
      simp only [v] at h
      exact ⟨hne, fun x hx => (hc.read h).2 x (List.mem_of_mem_eraseP hx)⟩
    · intro h
      simp only [v] at h ⊢
      exact ⟨hne, fun x hx => (hc.write h).2 x (List.mem_of_mem_eraseP hx)⟩

/-- Inversion of `step`: what an enabled event requires and yields. -/
theorem step_inv (s s1 : Sys) (e : Event) (h : step s e = some s1) :
    s.aborted = false ∧
    match e with
    | Event.request t m => s.pc t = Pc.out ∧ s1 = s.afterIteration t m false
    | Event.wake t => ∃ m, s.pc t = Pc.waiting m ∧ 0 < s.innerSem ∧
        s1 = { s with innerSem := s.innerSem - 1, pc := Function.update s.pc t (Pc.woken m) }
    | Event.retry t => ∃ m, s.pc t = Pc.woken m ∧ s1 = s.afterIteration t m true
    | Event.release t => s.pc t = Pc.out ∧ s.holders.any (fun h => h.1 == t) = true ∧
        s1 = { s with datas := (ThreadLock._unLock s.datas).1,
                      innerSem := if (ThreadLock._unLock s.datas).2 then s.innerSem + 1
                                  else s.innerSem,
                      holders := s.holders.eraseP (fun h => h.1 == t) }
    | Event.interrupt t => ∃ m, s.pc t = Pc.waiting m ∧
        s1 = { s with pc := Function.update s.pc t (Pc.woken m) } := by
  cases hab : s.aborted
  · refine ⟨rfl, ?_⟩
    cases e with
    | request t m =>
        by_cases hp : s.pc t = Pc.out
        · simp only [step, hab, hp] at h
          exact ⟨hp, (Option.some.inj h).symm⟩
        · simp [step, hab, hp] at h
    | wake t =>
        cases hp : s.pc t with
        | waiting m =>
            by_cases hs : 0 < s.innerSem
            · simp only [step, hab, hp, hs] at h
              exact ⟨m, hp, hs, (Option.some.inj h).symm⟩
            · simp [step, hab, hp, hs] at h
        | out => simp [step, hab, hp] at h
        | woken m => simp [step, hab, hp] at h
    | retry t =>
        cases hp : s.pc t with
        | woken m =>
            simp only [step, hab, hp] at h
            exact ⟨m, hp, (Option.some.inj h).symm⟩
        | out => simp [step, hab, hp] at h
        | waiting m => simp [step, hab, hp] at h
    | release t =>
        by_cases hr : s.pc t = Pc.out ∧ s.holders.any (fun h => h.1 == t) = true
        · simp only [step, hab] at h
          rw [if_neg (by simp), if_pos hr] at h
          exact ⟨hr.1, hr.2, (Option.some.inj h).symm⟩
        · simp only [step, hab] at h
          rw [if_neg (by simp), if_neg hr] at h
          cases h
    | interrupt t =>
        cases hp : s.pc t with
        | waiting m =>
            simp only [step, hab, hp] at h
            exact ⟨m, hp, (Option.some.inj h).symm⟩
        | out => simp [step, hab, hp] at h
        | woken m => simp [step, hab, hp] at h
  · simp [step, hab] at h

/-- Every step keeps the record consistent with the grants, as long as the count does not
wrap. -/
theorem step_consistent (s s1 : Sys) (e : Event) (hc : Consistent s)
    (h : step s e = some s1) (hb : s1.holders.length < UINT_MOD) : Consistent s1 := by
  obtain ⟨_, h1⟩ := step_inv s s1 e h
  cases e with
  | request t m =>
      obtain ⟨_, rfl⟩ := h1
      exact Sys.afterIteration_consistent s t m false hc hb
  | wake t =>
      obtain ⟨m, _, _, rfl⟩ := h1
      exact ⟨hc.count, hc.idle, hc.read, hc.write⟩
  | retry t =>
      obtain ⟨m, _, rfl⟩ := h1
      exact Sys.afterIteration_consistent s t m true hc hb
  | release t =>
      obtain ⟨_, hr, rfl⟩ := h1
      exact Sys.release_consistent s t hc hr
  | interrupt t =>
      obtain ⟨m, _, rfl⟩ := h1
      exact ⟨hc.count, hc.idle, hc.read, hc.write⟩

/-- One step adds at most one grant. -/
theorem step_holders_length (s s1 : Sys) (e : Event) (h : step s e = some s1) :
    s1.holders.length ≤ s.holders.length + 1 := by
  have hit : ∀ t m w, (s.afterIteration t m w).holders.length ≤ s.holders.length + 1 := by
    intro t m w
    rcases hr : ThreadLock._reLock s.datas m t w with ⟨e, o⟩
    cases o <;> simp [Sys.afterIteration, hr]
  obtain ⟨_, h1⟩ := step_inv s s1 e h
  cases e with
  | request t m =>
      obtain ⟨_, rfl⟩ := h1
      exact hit t m false
  | wake t =>
      obtain ⟨m, _, _, rfl⟩ := h1
      exact Nat.le_succ _
  | retry t =>
      obtain ⟨m, _, rfl⟩ := h1
      exact hit t m true
  | release t =>
      obtain ⟨_, hr, rfl⟩ := h1
      exact Nat.le_succ_of_le (List.length_eraseP_le _)
  | interrupt t =>
      obtain ⟨m, _, rfl⟩ := h1
      exact Nat.le_succ _

/-- Running a concatenation. -/
theorem run_append (a b : List Event) :
    ∀ s : Sys, run s (a ++ b) = (run s a).bind (fun s1 => run s1 b) := by
  induction a with
  | nil => intro s; rfl
  | cons e a ih =>
      intro s
      simp only [List.cons_append, run]
      cases step s e with
      | none => rfl
      | some s1 => exact ih s1

/-- A run keeps the record consistent with the grants, as long as the count does not
wrap. -/
theorem run_consistent (es : List Event) :
    ∀ s0 s : Sys, Consistent s0 → run s0 es = some s → GrantsBelowWrap s0 es →
      Consistent s := by
  induction es with
  | nil =>
      intro s0 s hc h _
      cases h
      exact hc
  | cons e es ih =>
      intro s0 s hc h hb
      simp only [run] at h
      cases hs : step s0 e with
      | none => rw [hs] at h; cases h
      | some s1 =>
          rw [hs] at h
          have hb1 : s1.holders.length < UINT_MOD := by
            apply hb 1 s1
            simp [run, hs]
          refine ih s1 s (step_consistent s0 s1 e hc hs hb1) h ?_
          intro k s2 hk
          apply hb (k + 1) s2
          simp only [List.take_succ_cons, run, hs]
          exact hk

/-- A run adds at most one grant per event. -/
theorem run_holders_length (es : List Event) :
    ∀ s0 s : Sys, run s0 es = some s → s.holders.length ≤ s0.holders.length + es.length := by
  induction es with
  | nil => intro s0 s h; cases h; simp
  | cons e es ih =>
      intro s0 s h
      simp only [run] at h
      cases hs : step s0 e with
      | none => rw [hs] at h; cases h
      | some s1 =>
          rw [hs] at h
          have h1 := step_holders_length s0 s1 e hs
          have h2 := ih s1 s h
          simp only [List.length_cons]
          omega

/-- A run that is too short to reach `2 ^ 32` grants stays below the wrap. -/
theorem grantsBelowWrap_of_short (s0 : Sys) (es : List Event)
    (h : s0.holders.length + es.length < UINT_MOD) : GrantsBelowWrap s0 es := by
  intro k s1 hk
  have h1 := run_holders_length (es.take k) s0 s1 hk
  have h2 : (es.take k).length ≤ es.length := by
    rw [List.length_take]; exact Nat.min_le_right _ _
  omega

/-- The freshly constructed lock is consistent. -/
theorem Sys.init_consistent : Consistent Sys.init :=
  ⟨rfl, fun _ => rfl, fun h => (by cases h), fun h => (by cases h)⟩

/-- Moving one copy from behind a block of copies to its front. -/
theorem replicate_append_cons {α : Type} (n : Nat) (x : α) (l : List α) :
    List.replicate n x ++ x :: l = x :: (List.replicate n x ++ l) := by
  induction n with
  | zero => rfl
  | succ k ih => simp [List.replicate_succ, ih]

/-- Read requests of thread `t` on a ReadHeld record without waiting writer are all granted
and add to `lockedCount` modulo `2 ^ 32`. -/
theorem run_read_requests (t : Nat) (n : Nat) :
    ∀ s : Sys, s.aborted = false → s.pc t = Pc.out →
      s.datas.lockStatus = LockStatus.READ → s.datas.wwaitingCount = 0 →
      s.datas.lockedCount < UINT_MOD →
      run s (List.replicate n (Event.request t LockMode.Read))
        = some { s with
            datas := { s.datas with lockedCount := (s.datas.lockedCount + n) % UINT_MOD },
            holders := List.replicate n (t, LockMode.Read) ++ s.holders } := by
  induction n with
  | zero =>
      intro s _ _ _ _ hc
      simp [run, Nat.mod_eq_of_lt hc]
  | succ n ih =>
      intro s ha hp hs hw hc
      have h1 : ThreadLock._reLock s.datas LockMode.Read t false
          = ({ s.datas with lockedCount := uintInc s.datas.lockedCount },
              Outcome.granted) := by
        simp [ThreadLock._reLock, ThreadLock._reLock_Read, hs, hw]
      have hpc : Function.update s.pc t Pc.out = s.pc := by
        rw [← hp]; exact Function.update_eq_self t s.pc
      have h2 : step s (Event.request t LockMode.Read)
          = some { s with
              datas := { s.datas with lockedCount := uintInc s.datas.lockedCount },
              holders := (t, LockMode.Read) :: s.holders } := by
        simp [step, ha, hp, Sys.afterIteration, h1, hpc]
      have h3 := ih { s with
              datas := { s.datas with lockedCount := uintInc s.datas.lockedCount },
              holders := (t, LockMode.Read) :: s.holders } ha hp hs hw
              (Nat.mod_lt _ (by decide))
      simp only [List.replicate_succ, run, h2, Option.some_bind, h3]
      have h4 : (uintInc s.datas.lockedCount + n) % UINT_MOD
          = (s.datas.lockedCount + (n + 1)) % UINT_MOD := by
        simp only [uintInc, UINT_MOD_eq]; omega
      have h5 : List.replicate n (t, LockMode.Read) ++ (t, LockMode.Read) :: s.holders
          = (t, LockMode.Read) :: (List.replicate n (t, LockMode.Read) ++ s.holders) := by
        exact replicate_append_cons n _ _
      simp [h4, h5]

/-- Read requests of thread `t` on the freshly constructed lock. -/
theorem run_read_requests_init (t : Nat) (n : Nat) :
    run Sys.init (List.replicate (n + 1) (Event.request t LockMode.Read))
      = some { datas := { lockStatus := LockStatus.READ, lockedCount := (n + 1) % UINT_MOD },
               innerSem := 0, pc := fun _ => Pc.out,
               holders := List.replicate (n + 1) (t, LockMode.Read), aborted := false } := by
  have hpc : Function.update (fun _ : Nat => Pc.out) t Pc.out = fun _ => Pc.out :=
    Function.update_eq_self t (fun _ : Nat => Pc.out)
  have h1 : step Sys.init (Event.request t LockMode.Read)
      = some { datas := { lockStatus := LockStatus.READ, lockedCount := 1 },
               innerSem := 0, pc := fun _ => Pc.out,
               holders := [(t, LockMode.Read)], aborted := false } := by
    simp [step, Sys.init, Sys.afterIteration, ThreadLock._reLock, ThreadLock._reLock_Read,
      hpc, uintInc, UINT_MOD_eq]
  have h2 := run_read_requests t n
    { datas := { lockStatus := LockStatus.READ, lockedCount := 1 },
      innerSem := 0, pc := fun _ => Pc.out,
      holders := [(t, LockMode.Read)], aborted := false } rfl rfl rfl rfl
    (by simp [UINT_MOD_eq])
  rw [List.replicate_succ]
  simp only [run, h1, Option.some_bind, h2]
  have h3 : List.replicate n (t, LockMode.Read) ++ [(t, LockMode.Read)]
      = List.replicate (n + 1) (t, LockMode.Read) := by
    rw [replicate_append_cons, List.append_nil, List.replicate_succ]
  simp [h3, Nat.add_comm]

/-- After a number of read grants that is a multiple of `2 ^ 32`, a release makes the record
Idle although grants are outstanding, and a write request of another thread is granted. -/
theorem run_wrapped_reads_then_write (n : Nat) (hn : (n + 1) % UINT_MOD = 0) :
    run Sys.init (List.replicate (n + 1) (Event.request 1 LockMode.Read)
        ++ [Event.release 1, Event.request 2 LockMode.Write])
      = some { datas := { lockStatus := LockStatus.WRITE, lockedCount := 1,
                          writeThreadID := 2 },
               innerSem := 0, pc := fun _ => Pc.out,
               holders := (2, LockMode.Write) :: List.replicate n (1, LockMode.Read),
               aborted := false } := by
  have hpc : Function.update (fun _ : Nat => Pc.out) 2 Pc.out = fun _ => Pc.out :=
    Function.update_eq_self 2 (fun _ : Nat => Pc.out)
  rw [run_append, run_read_requests_init, hn]
  simp [run, step, Sys.afterIteration, ThreadLock._reLock, ThreadLock._reLock_Write,
    ThreadLock._unLock, List.replicate_succ, hpc, uintInc, UINT_MOD_eq]

/-! ## C1 and C2: mutual exclusion and the Idle invariant -/

/-- C1 (counterexample): thread 1 is granted read `2 ^ 32` times, so that `lockedCount`
wraps to zero; its first release then makes the record Idle and the write request of
thread 2 is granted while `2 ^ 32 - 1` read grants of thread 1 are outstanding. -/
theorem mutual_exclusion_lost_at_wrap :
    ∃ s : Sys,
      run Sys.init (List.replicate UINT_MOD (Event.request 1 LockMode.Read)
        ++ [Event.release 1, Event.request 2 LockMode.Write]) = some s ∧
      s.holders = (2, LockMode.Write) :: List.replicate (UINT_MOD - 1) (1, LockMode.Read) ∧
      ¬ MutualExclusion s.holders := by
  have h := run_wrapped_reads_then_write (UINT_MOD - 1) (by decide)
  have e : UINT_MOD - 1 + 1 = UINT_MOD := by decide
  rw [e] at h
  refine ⟨_, h, rfl, ?_⟩
  have hm : ((1, LockMode.Read) : Nat × LockMode)
      ∈ (2, LockMode.Write) :: List.replicate (UINT_MOD - 1) (1, LockMode.Read) :=
    List.mem_cons_of_mem _ (List.mem_replicate.mpr ⟨by decide, rfl⟩)
  rintro (h0 | h0 | ⟨_, t, h0⟩)
  · cases h0
  · have := h0 (2, LockMode.Write) (List.mem_cons_self _ _)
    cases this
  · have := h0 (1, LockMode.Read) hm
    cases this

/-- C1 (amended): from the freshly constructed lock, along every interleaving of requests,
wakes, interrupted waits, retries and matched releases in which fewer than `2 ^ 32` grants
are outstanding at any time, the outstanding grants are none, or all read, or all write
grants of one thread. -/
theorem mutual_exclusion_below_wrap (es : List Event) (s : Sys)
    (hr : run Sys.init es = some s) (hb : GrantsBelowWrap Sys.init es) :
    MutualExclusion s.holders := by
  have hc := run_consistent es Sys.init s Sys.init_consistent hr hb
  cases hst : s.datas.lockStatus with
  | IDLE => exact Or.inl (hc.idle hst)
  | READ => exact Or.inr (Or.inl (hc.read hst).2)
  | WRITE => exact Or.inr (Or.inr ⟨(hc.write hst).1, _, (hc.write hst).2⟩)

/-- Witness of C1 (amended): two readers, one leaves, a writer queues, the other reader
leaves, the writer wakes and is granted. -/
theorem mutual_exclusion_below_wrap_witness :
    ∃ s : Sys,
      run Sys.init [Event.request 1 LockMode.Read, Event.request 2 LockMode.Read,
        Event.release 1, Event.request 3 LockMode.Write, Event.release 2, Event.wake 3,
        Event.retry 3] = some s ∧
      s.holders = [(3, LockMode.Write)] ∧ MutualExclusion s.holders :=
  ⟨_, rfl, rfl,
    mutual_exclusion_below_wrap
      [Event.request 1 LockMode.Read, Event.request 2 LockMode.Read,
        Event.release 1, Event.request 3 LockMode.Write, Event.release 2, Event.wake 3,
        Event.retry 3] _ rfl
      (grantsBelowWrap_of_short _ _ (by decide))⟩

/-- C2 (counterexample): after `2 ^ 32` granted read requests of thread 1 on the freshly
constructed lock the status is ReadHeld and `lockedCount` is zero. -/
theorem idle_iff_zero_lost_at_wrap :
    ∃ s : Sys,
      run Sys.init (List.replicate UINT_MOD (Event.request 1 LockMode.Read)) = some s ∧
      s.datas.lockStatus = LockStatus.READ ∧ s.datas.lockedCount = 0 ∧
      ¬ IdleIffZero s.datas := by
  have h := run_read_requests_init 1 (UINT_MOD - 1)
  have e : UINT_MOD - 1 + 1 = UINT_MOD := by decide
  rw [e, Nat.mod_self] at h
  refine ⟨_, h, rfl, rfl, ?_⟩
  intro hi
  have := hi.mpr rfl
  cases this

/-- C2 (amended): `lockStatus = IDLE ↔ lockedCount = 0` holds for the default record, is
kept by every `_reLock` iteration started with `lockedCount + 1 < 2 ^ 32`, is kept by every
`_unLock`, and holds in every state reached from the freshly constructed lock by an
interleaving in which fewer than `2 ^ 32` grants are outstanding at any time. -/
theorem idle_iff_zero_below_wrap :
    IdleIffZero {} ∧
    (∀ (d : MmapDatas) (lockMode : LockMode) (self : Nat) (wait_return : Bool),
      IdleIffZero d → d.lockedCount + 1 < UINT_MOD →
      IdleIffZero (ThreadLock._reLock d lockMode self wait_return).1) ∧
    (∀ d : MmapDatas, IdleIffZero d → IdleIffZero (ThreadLock._unLock d).1) ∧
    (∀ (es : List Event) (s : Sys), run Sys.init es = some s →
      GrantsBelowWrap Sys.init es → IdleIffZero s.datas) := by
  refine ⟨Iff.intro (fun _ => rfl) (fun _ => rfl), ?_, ?_, ?_⟩
  · intro d lockMode self wait_return hi hc
    rcases h : ThreadLock._reLock d lockMode self wait_return with ⟨e, o⟩
    have hinc := uintInc_of_lt _ hc
    cases o
    · obtain ⟨g1, g2⟩ := ThreadLock.reLock_granted_spec _ _ _ _ _ h
      unfold IdleIffZero
      simp only
      rw [g1, hinc]
      rcases g2 with ⟨_, _, b⟩ | ⟨_, _, b, _⟩ | ⟨_, _, b⟩ | ⟨_, _, b, _, _⟩ <;>
        simp [b]
    · obtain ⟨g1, g2, _⟩ := ThreadLock.reLock_not_granted_spec _ _ _ _ _ _ h (by decide)
      unfold IdleIffZero at hi ⊢
      simp only [g1, g2]
      exact hi
    · obtain ⟨g1, g2, _⟩ := ThreadLock.reLock_not_granted_spec _ _ _ _ _ _ h (by decide)
      unfold IdleIffZero at hi ⊢
      simp only [g1, g2]
      exact hi
  · intro d hi
    obtain ⟨u1, u2⟩ := ThreadLock.unLock_spec d
    unfold IdleIffZero at hi ⊢
    rcases Nat.lt_or_ge d.lockedCount 2 with h2 | h2
    · obtain ⟨v1, v2⟩ := u2 (by omega)
      simp [v1, v2]
    · rw [u1 h2]
      simp only
      constructor
      · intro h; have := hi.mp h; omega
      · intro h; omega
  · intro es s hr hb
    have hc := run_consistent es Sys.init s Sys.init_consistent hr hb
    unfold IdleIffZero
    constructor
    · intro h
      rw [hc.count, hc.idle h]
      rfl
    · intro h
      have hnil : s.holders = [] :=
        List.eq_nil_of_length_eq_zero (by rw [← hc.count]; exact h)
      cases hst : s.datas.lockStatus with
      | IDLE => rfl
      | READ => exact absurd hnil (hc.read hst).1
      | WRITE => exact absurd hnil (hc.write hst).1

/-- Witness of C2 (amended): a read grant on a record with one reader, and the run in which
a writer takes and leaves the lock. -/
theorem idle_iff_zero_below_wrap_witness :
    IdleIffZero (ThreadLock._reLock { lockStatus := LockStatus.READ, lockedCount := 1 }
      LockMode.Read 4 false).1 ∧
    (∃ s : Sys, run Sys.init [Event.request 1 LockMode.Write, Event.release 1] = some s ∧
      IdleIffZero s.datas) :=
  ⟨idle_iff_zero_below_wrap.2.1 { lockStatus := LockStatus.READ, lockedCount := 1 }
      LockMode.Read 4 false (by decide) (by decide),
   ⟨_, rfl, idle_iff_zero_below_wrap.2.2.2
      [Event.request 1 LockMode.Write, Event.release 1] _ rfl
      (grantsBelowWrap_of_short _ _ (by decide))⟩⟩

/-! ## C11: guard construction -/

/-- C11: the constructor with `lockNow = true` issues exactly one `_reLock` in the requested
mode and yields a held guard storing that mode; with `lockNow = false` it issues no call
and yields a guard that is not held, whose destructor issues no call. -/
theorem guard_construction (lockMode : LockMode) :
    LockGuard.construct lockMode true
      = ({ _lockMode := lockMode, _isLocked := true }, [LockCall._reLock lockMode]) ∧
    (LockGuard.construct lockMode false).2 = [] ∧
    (LockGuard.construct lockMode false).1._isLocked = false ∧
    (LockGuard.construct lockMode false).1.destruct = [] := by
  cases lockMode <;> decide

/-! ## C12 and C13: the Mutex kind -/

/-- The `--` operator on a positive `uint` value. -/
theorem uintDec_of_pos (c : Nat) (h1 : 1 ≤ c) (h2 : c < UINT_MOD) : uintDec c = c - 1 := by
  simp only [uintDec, UINT_MOD_eq] at *
  omega

/-- Recursive acquisitions of the owner all return and add to `lockedCount` modulo
`2 ^ 32`. -/
theorem ThreadLock.acquires_Mutex_held (t : Nat) (n : Nat) :
    ∀ d : threadsafe_mutex_t.MmapDatas, d.lockObj = some t → d.lockedCount < UINT_MOD →
      ThreadLock.acquires_Mutex d t n
        = some { lockedCount := (d.lockedCount + n) % UINT_MOD, lockObj := some t } := by
  induction n with
  | zero =>
      intro d ho hc
      rcases d with ⟨c, o⟩
      simp only at ho hc
      simp [ThreadLock.acquires_Mutex, ho, Nat.mod_eq_of_lt hc]
  | succ n ih =>
      intro d ho hc
      have h1 : ThreadLock._reLock_Mutex d t
          = some { lockedCount := uintInc d.lockedCount, lockObj := some t } := by
        simp [ThreadLock._reLock_Mutex, pthread_mutex_lock, ho]
      have h2 := ih { lockedCount := uintInc d.lockedCount, lockObj := some t } rfl
        (Nat.mod_lt _ (by decide))
      simp only [ThreadLock.acquires_Mutex, h1, Option.some_bind, h2]
      have h3 : (uintInc d.lockedCount + n) % UINT_MOD
          = (d.lockedCount + (n + 1)) % UINT_MOD := by
        simp only [uintInc, UINT_MOD_eq]; omega
      rw [h3]

/-- Acquisitions of thread `t` on the default Mutex record. -/
theorem ThreadLock.acquires_Mutex_free (t : Nat) (n : Nat) :
    ThreadLock.acquires_Mutex {} t (n + 1)
      = some { lockedCount := (n + 1) % UINT_MOD, lockObj := some t } := by
  have h1 : ThreadLock._reLock_Mutex {} t = some { lockedCount := 1, lockObj := some t } := by
    simp [ThreadLock._reLock_Mutex, pthread_mutex_lock, uintInc, UINT_MOD_eq]
  have h2 := ThreadLock.acquires_Mutex_held t n { lockedCount := 1, lockObj := some t } rfl
    (by simp [UINT_MOD_eq])
  simp only [ThreadLock.acquires_Mutex, h1, Option.some_bind, h2]
  simp [Nat.add_comm]

/-- Releases of the owner while the count stays positive lower the count and do not call
`pthread_mutex_unlock`. -/
theorem ThreadLock.releases_Mutex_held (t : Nat) (k : Nat) :
    ∀ c : Nat, k < c → c < UINT_MOD →
      ThreadLock.releases_Mutex { lockedCount := c, lockObj := some t } t k
        = ({ lockedCount := c - k, lockObj := some t }, List.replicate k false) := by
  induction k with
  | zero => intro c _ _; simp [ThreadLock.releases_Mutex]
  | succ k ih =>
      intro c hk hc
      have hd := uintDec_of_pos c (by omega) hc
      have h1 : ThreadLock._unLock_Mutex { lockedCount := c, lockObj := some t } t
          = ({ lockedCount := c - 1, lockObj := some t }, false) := by
        have : ¬ c - 1 = 0 := by omega
        simp [ThreadLock._unLock_Mutex, hd, this]
      have h2 := ih (c - 1) (by omega) (by omega)
      simp only [ThreadLock.releases_Mutex, h1, h2, List.replicate_succ]
      have h3 : c - 1 - k = c - (k + 1) := by omega
      rw [h3]

/-- The last release of the owner brings the count to zero and unlocks the primitive. -/
theorem ThreadLock.unLock_Mutex_last (t : Nat) :
    ThreadLock._unLock_Mutex { lockedCount := 1, lockObj := some t } t
      = ({ lockedCount := 0, lockObj := none }, true) := by
  simp [ThreadLock._unLock_Mutex, pthread_mutex_unlock, uintDec, UINT_MOD_eq]

/-- As many releases of the owner as the count says: only the last one calls
`pthread_mutex_unlock`, and it unlocks the primitive. -/
theorem ThreadLock.releases_Mutex_all (t : Nat) (j : Nat) :
    j + 1 < UINT_MOD →
      ThreadLock.releases_Mutex { lockedCount := j + 1, lockObj := some t } t (j + 1)
        = ({ lockedCount := 0, lockObj := none }, List.replicate j false ++ [true]) := by
  induction j with
  | zero =>
      intro _
      have h1 := ThreadLock.unLock_Mutex_last t
      simp only [Nat.zero_add, ThreadLock.releases_Mutex, h1, List.replicate_zero,
        List.nil_append]
  | succ j ih =>
      intro hc
      have hd := uintDec_of_pos (j + 1 + 1) (by omega) hc
      have h1 : ThreadLock._unLock_Mutex { lockedCount := j + 1 + 1, lockObj := some t } t
          = ({ lockedCount := j + 1, lockObj := some t }, false) := by
        simp [ThreadLock._unLock_Mutex, hd]
      have h2 := ih (by omega)
      rw [ThreadLock.releases_Mutex]
      simp only [h1, h2, List.replicate_succ, List.cons_append]

/-- The function `_unLock_Mutex` written out on a record given by its fields. -/
theorem ThreadLock.unLock_Mutex_eq (c : Nat) (o : Option Nat) (u : Nat) :
    ThreadLock._unLock_Mutex { lockedCount := c, lockObj := o } u
      = if uintDec c = 0 then
          ({ lockedCount := uintDec c, lockObj := pthread_mutex_unlock o u }, true)
        else ({ lockedCount := uintDec c, lockObj := o }, false) := by
  simp only [ThreadLock._unLock_Mutex]

/-- The function `_reLock_Mutex` written out on a record given by its fields. -/
theorem ThreadLock.reLock_Mutex_eq (c : Nat) (o : Option Nat) (u : Nat) :
    ThreadLock._reLock_Mutex { lockedCount := c, lockObj := o } u
      = (pthread_mutex_lock o u).map
          (fun x => { lockedCount := uintInc c, lockObj := x }) := by
  simp only [ThreadLock._reLock_Mutex]

/-- A completed call that takes the Mutex away from its owner `t` is a release of `t` that
brings the count to zero and unlocks the primitive. -/
theorem stepMutex_owner_change (d d1 : threadsafe_mutex_t.MmapDatas) (t : Nat)
    (e : MutexEvent) (ho : d.lockObj = some t) (hs : stepMutex d e = some d1)
    (hn : d1.lockObj ≠ some t) :
    e = MutexEvent.release t ∧
    ThreadLock._unLock_Mutex d t = ({ lockedCount := 0, lockObj := none }, true) := by
  rcases d with ⟨c, o⟩
  simp only at ho
  subst ho
  cases e with
  | acquire u =>
      exfalso
      simp only [stepMutex] at hs
      rw [ThreadLock.reLock_Mutex_eq] at hs
      generalize uintInc c = k at hs
      by_cases hu : t = u
      · simp only [pthread_mutex_lock, hu, if_true, Option.map_some'] at hs
        have h := Option.some.inj hs
        rw [← h] at hn
        exact hn (by rw [hu])
      · simp only [pthread_mutex_lock, hu, if_false, Option.map_none'] at hs
        cases hs
  | release u =>
      simp only [stepMutex] at hs
      rw [ThreadLock.unLock_Mutex_eq] at hs ⊢
      generalize uintDec c = k at hs ⊢
      by_cases hk : k = 0
      · rw [if_pos hk] at hs ⊢
        have h := Option.some.inj hs
        by_cases hu : u = t
        · subst hu
          subst hk
          refine ⟨rfl, ?_⟩
          simp only [pthread_mutex_unlock, if_true]
        · exfalso
          rw [← h] at hn
          have hne : ¬ (some t = some u) := fun e => hu (Option.some.inj e).symm
          simp only [pthread_mutex_unlock, hne, if_false] at hn
          exact hn rfl
      · exfalso
        rw [if_neg hk] at hs
        have h := Option.some.inj hs
        rw [← h] at hn
        exact hn rfl

/-- Along completed calls, a Mutex owned by `t` stays owned by `t` until a release of `t`
brings the count to zero and unlocks the primitive. -/
theorem runMutex_owner_change (t : Nat) (es : List MutexEvent) :
    ∀ d d1 : threadsafe_mutex_t.MmapDatas, d.lockObj = some t → runMutex d es = some d1 →
      d1.lockObj ≠ some t →
      ∃ es1 es2 dm, es = es1 ++ MutexEvent.release t :: es2 ∧ runMutex d es1 = some dm ∧
        dm.lockObj = some t ∧
        ThreadLock._unLock_Mutex dm t = ({ lockedCount := 0, lockObj := none }, true) := by
  induction es with
  | nil =>
      intro d d1 ho hr hn
      cases hr
      exact absurd ho hn
  | cons e es ih =>
      intro d d1 ho hr hn
      simp only [runMutex] at hr
      cases hs : stepMutex d e with
      | none => rw [hs] at hr; cases hr
      | some d2 =>
          rw [hs] at hr
          by_cases h2 : d2.lockObj = some t
          · obtain ⟨es1, es2, dm, he, hrun, hm, hu⟩ := ih d2 d1 h2 hr hn
            refine ⟨e :: es1, es2, dm, ?_, ?_, hm, hu⟩
            · rw [he]; rfl
            · simp only [runMutex, hs]
              exact hrun
          · obtain ⟨he, hu⟩ := stepMutex_owner_change d d2 t e ho hs h2
            exact ⟨[], es, d, by rw [he]; rfl, rfl, ho, hu⟩

/-- Running a concatenation of completed Mutex calls. -/
theorem runMutex_append (a b : List MutexEvent) :
    ∀ d : threadsafe_mutex_t.MmapDatas,
      runMutex d (a ++ b) = (runMutex d a).bind (fun d1 => runMutex d1 b) := by
  induction a with
  | nil => intro d; rfl
  | cons e a ih =>
      intro d
      simp only [List.cons_append, runMutex]
      cases stepMutex d e with
      | none => rfl
      | some d1 => exact ih d1

/-- C12 (counterexample): `2 ^ 32 - 1` acquisitions of thread 1 on the default Mutex record
leave `lockedCount = 2 ^ 32 - 1`; the next acquisition of thread 1 returns and leaves
`lockedCount = 0`, which is not an increment by 1. -/
theorem mutex_count_wraps_on_acquire :
    ThreadLock.acquires_Mutex {} 1 (UINT_MOD - 1)
      = some { lockedCount := UINT_MOD - 1, lockObj := some 1 } ∧
    ThreadLock._reLock_Mutex { lockedCount := UINT_MOD - 1, lockObj := some 1 } 1
      = some { lockedCount := 0, lockObj := some 1 } ∧
    (0 : Nat) ≠ (UINT_MOD - 1) + 1 := by
  have h := ThreadLock.acquires_Mutex_free 1 (UINT_MOD - 2)
  have e1 : UINT_MOD - 2 + 1 = UINT_MOD - 1 := by decide
  have e2 : (UINT_MOD - 1) % UINT_MOD = UINT_MOD - 1 := by decide
  rw [e1, e2] at h
  exact ⟨h, by decide, by decide⟩

/-- C12 (amended): on a Mutex owned by thread `t`, an acquisition of `t` returns at once and
applies `++` to `lockedCount`, which adds exactly 1 when `lockedCount + 1 < 2 ^ 32`; an
acquisition of any other thread does not return in this state, and when it has returned
after further completed calls, one of these calls was a release of `t` that brought the
count to zero and unlocked the primitive. -/
theorem mutex_recursive_acquire (d : threadsafe_mutex_t.MmapDatas) (t : Nat)
    (ho : d.lockObj = some t) :
    ThreadLock._reLock_Mutex d t = some { d with lockedCount := uintInc d.lockedCount } ∧
    (d.lockedCount + 1 < UINT_MOD →
      ThreadLock._reLock_Mutex d t = some { d with lockedCount := d.lockedCount + 1 }) ∧
    (∀ u, u ≠ t → ThreadLock._reLock_Mutex d u = none) ∧
    (∀ (es : List MutexEvent) (d1 : threadsafe_mutex_t.MmapDatas) (u : Nat), u ≠ t →
      runMutex d (es ++ [MutexEvent.acquire u]) = some d1 →
      ∃ es1 es2 dm, es = es1 ++ MutexEvent.release t :: es2 ∧ runMutex d es1 = some dm ∧
        dm.lockObj = some t ∧
        ThreadLock._unLock_Mutex dm t = ({ lockedCount := 0, lockObj := none }, true)) := by
  have hblock : ∀ (x : threadsafe_mutex_t.MmapDatas) (u : Nat), x.lockObj = some t → u ≠ t →
      ThreadLock._reLock_Mutex x u = none := by
    intro x u hx hu
    have : ¬ t = u := fun h => hu h.symm
    simp [ThreadLock._reLock_Mutex, pthread_mutex_lock, hx, this]
  have h1 : ThreadLock._reLock_Mutex d t
      = some { d with lockedCount := uintInc d.lockedCount } := by
    rcases d with ⟨c, o⟩
    simp only at ho
    subst ho
    simp [ThreadLock._reLock_Mutex, pthread_mutex_lock]
  refine ⟨h1, ?_, fun u hu => hblock d u ho hu, ?_⟩
  · intro hc
    rw [h1, uintInc_of_lt _ hc]
  · intro es d1 u hu hr
    rw [runMutex_append] at hr
    cases hm : runMutex d es with
    | none => rw [hm] at hr; cases hr
    | some d2 =>
        rw [hm] at hr
        simp only [Option.some_bind, runMutex, stepMutex] at hr
        have hn : d2.lockObj ≠ some t := by
          intro h2
          rw [hblock d2 u h2 hu] at hr
          cases hr
        exact runMutex_owner_change t es d d2 ho hm hn

/-- Witness of C12 (amended): thread 4 holds the Mutex twice and acquires once more; thread
9 gets it after the three releases of thread 4. -/
theorem mutex_recursive_acquire_witness :
    ThreadLock._reLock_Mutex { lockedCount := 2, lockObj := some 4 } 4
      = some { lockedCount := 3, lockObj := some 4 } ∧
    ThreadLock._reLock_Mutex { lockedCount := 2, lockObj := some 4 } 9 = none :=
  ⟨(mutex_recursive_acquire { lockedCount := 2, lockObj := some 4 } 4 rfl).2.1 (by decide),
   (mutex_recursive_acquire { lockedCount := 2, lockObj := some 4 } 4 rfl).2.2.1 9
     (by decide)⟩

/-- C13: on a Mutex owned by thread `t` with `lockedCount = n`, `1 ≤ n < 2 ^ 32`, a release
of `t` lowers `lockedCount` to `n - 1` and calls `pthread_mutex_unlock`, which unlocks the
primitive, exactly when `n - 1 = 0`; `n` acquisitions of `t` on the default record give
such a Mutex, after `k < n` releases it is still owned by `t` with count `n - k` and no
release has unlocked it, and the `n`-th release is the one that unlocks it. -/
theorem mutex_release_symmetric (n t : Nat) (h1 : 1 ≤ n) (h2 : n < UINT_MOD) :
    ThreadLock._unLock_Mutex { lockedCount := n, lockObj := some t } t
      = ({ lockedCount := n - 1, lockObj := if n = 1 then none else some t },
          decide (n = 1)) ∧
    ThreadLock.acquires_Mutex {} t n = some { lockedCount := n, lockObj := some t } ∧
    (∀ k, k < n →
      ThreadLock.releases_Mutex { lockedCount := n, lockObj := some t } t k
        = ({ lockedCount := n - k, lockObj := some t }, List.replicate k false)) ∧
    ThreadLock.releases_Mutex { lockedCount := n, lockObj := some t } t n
      = ({ lockedCount := 0, lockObj := none }, List.replicate (n - 1) false ++ [true]) := by
  have hd := uintDec_of_pos n h1 h2
  obtain ⟨j, rfl⟩ : ∃ j, n = j + 1 := ⟨n - 1, by omega⟩
  refine ⟨?_, ?_, fun k hk => ThreadLock.releases_Mutex_held t k _ hk h2,
    ThreadLock.releases_Mutex_all t j h2⟩
  · by_cases hj : j = 0
    · subst hj
      simpa using ThreadLock.unLock_Mutex_last t
    · have hj1 : ¬ j + 1 = 1 := by omega
      simp [ThreadLock._unLock_Mutex, hd, hj, hj1]
  · rw [ThreadLock.acquires_Mutex_free, Nat.mod_eq_of_lt h2]

/-- Witness of C13: three acquisitions of thread 6, then three releases. -/
theorem mutex_release_symmetric_witness :
    ThreadLock.acquires_Mutex {} 6 3 = some { lockedCount := 3, lockObj := some 6 } ∧
    ThreadLock.releases_Mutex { lockedCount := 3, lockObj := some 6 } 6 3
      = ({ lockedCount := 0, lockObj := none }, [false, false, true]) :=
  ⟨(mutex_release_symmetric 3 6 (by decide) (by decide)).2.1,
   (mutex_release_symmetric 3 6 (by decide) (by decide)).2.2.2⟩

/-! ## C17 and C18: path helpers -/

/-- Without an occurrence `strrchr` finds nothing. -/
theorem strrchr_of_not_mem (c : Char) (l : List Char) (h : c ∉ l) : strrchr l c = none := by
  induction l with
  | nil => rfl
  | cons x xs ih =>
      have hx : ¬ x = c := fun e => h (by rw [e]; exact List.mem_cons_self _ _)
      have hxs : c ∉ xs := fun e => h (List.mem_cons_of_mem _ e)
      simp [strrchr, ih hxs, hx]

/-- The position `strrchr` returns for a string split at its last occurrence of `c`. -/
theorem strrchr_append_cons (c : Char) (a b : List Char) (h : c ∉ b) :
    strrchr (a ++ c :: b) c = some a.length := by
  induction a with
  | nil => simp [strrchr, strrchr_of_not_mem c b h]
  | cons x xs ih => simp [strrchr, ih]

/-- A string that contains `c` splits at its last occurrence of `c`. -/
theorem exists_last_occurrence (c : Char) (l : List Char) (h : c ∈ l) :
    ∃ a b, l = a ++ c :: b ∧ c ∉ b := by
  induction l with
  | nil => cases h
  | cons x xs ih =>
      by_cases hxs : c ∈ xs
      · obtain ⟨a, b, he, hb⟩ := ih hxs
        exact ⟨x :: a, b, by rw [he]; rfl, hb⟩
      · have hx : c = x := by
          rcases List.mem_cons.mp h with e | e
          · exact e
          · exact absurd e hxs
        exact ⟨[], xs, by rw [hx]; rfl, hxs⟩

/-- On a resolved path that starts with the separator `GetParentDirectoryPath` returns the
path unchanged. -/
theorem GetParentDirectoryPath_absolute (realpath : List Char → Option (List Char))
    (srcPath rest : List Char)
    (hr : GetFullLongPath realpath srcPath = some (PATH_SEPARATOR :: rest)) :
    GetParentDirectoryPath realpath srcPath = some (PATH_SEPARATOR :: rest) := by
  simp [GetParentDirectoryPath, hr, strchr]

/-- C17 (code at the failing input): for the resolved path `/a/b/c` the function
`GetParentDirectoryPath` returns `/a/b/c` itself, not `/a/b`. -/
theorem parent_directory_of_abc :
    GetFullLongPath (fun _ => some ['/', 'a', '/', 'b', '/', 'c']) ['/', 'a', '/', 'b', '/', 'c']
      = some ['/', 'a', '/', 'b', '/', 'c'] ∧
    GetParentDirectoryPath (fun _ => some ['/', 'a', '/', 'b', '/', 'c'])
        ['/', 'a', '/', 'b', '/', 'c']
      = some ['/', 'a', '/', 'b', '/', 'c'] ∧
    GetParentDirectoryPath (fun _ => some ['/', 'a', '/', 'b', '/', 'c'])
        ['/', 'a', '/', 'b', '/', 'c']
      ≠ some ['/', 'a', '/', 'b'] := by
  decide

/-- A resolved path whose last component is not empty is returned by `GetFullLongPath` as
it is. -/
theorem GetFullLongPath_of_last_component (realpath : List Char → Option (List Char))
    (srcPath dir n : List Char) (hr : realpath srcPath = some (dir ++ PATH_SEPARATOR :: n))
    (hn : n ≠ []) (hs : PATH_SEPARATOR ∉ n) :
    GetFullLongPath realpath srcPath = some (dir ++ PATH_SEPARATOR :: n) := by
  have hl : (dir ++ PATH_SEPARATOR :: n).getLast? ≠ some PATH_SEPARATOR := by
    intro h
    cases n with
    | nil => exact hn rfl
    | cons y m =>
        rw [List.getLast?_append_cons, List.getLast?_cons_cons] at h
        exact hs (List.mem_of_getLast?_eq_some h)
  unfold GetFullLongPath
  rw [hr]
  simp only
  rw [if_neg (fun h => hl h.2)]

/-- C18: for a resolved path whose last component `n` is not empty, `GetFileFullName`
returns `n`; if `n` contains a `.`, the short name is `n` up to its last `.`, the suffix is
what follows it and contains no `.`, and short name, `.` and suffix put together give `n`;
if `n` contains no `.`, the short name is `n` and the suffix is empty. -/
theorem file_name_decomposition (realpath : List Char → Option (List Char))
    (srcPath dir n : List Char) (hr : realpath srcPath = some (dir ++ PATH_SEPARATOR :: n))
    (hn : n ≠ []) (hs : PATH_SEPARATOR ∉ n) :
    GetFileFullName realpath srcPath = some n ∧
    ('.' ∈ n → ∃ a b, GetFileShortName realpath srcPath = some a ∧
        GetFileSuffixName realpath srcPath = some b ∧
        a ++ '.' :: b = n ∧ '.' ∉ b) ∧
    ('.' ∉ n → GetFileShortName realpath srcPath = some n ∧
        GetFileSuffixName realpath srcPath = some []) := by
  have hfull : GetFileFullName realpath srcPath = some n := by
    have hp := GetFullLongPath_of_last_component realpath srcPath dir n hr hn hs
    simp [GetFileFullName, hp, strrchr_append_cons PATH_SEPARATOR dir n hs, hn]
  refine ⟨hfull, ?_, ?_⟩
  · intro hdot
    obtain ⟨a, b, he, hb⟩ := exists_last_occurrence '.' n hdot
    refine ⟨a, b, ?_, ?_, he.symm, hb⟩
    · simp [GetFileShortName, hfull, he, strrchr_append_cons '.' a b hb]
    · simp [GetFileSuffixName, hfull, he, strrchr_append_cons '.' a b hb]
  · intro hdot
    constructor
    · simp [GetFileShortName, hfull, strrchr_of_not_mem '.' n hdot]
    · simp [GetFileSuffixName, hfull, strrchr_of_not_mem '.' n hdot]

/-- Witness of C18: the resolved path `/d/x.y.z`. -/
theorem file_name_decomposition_witness :
    GetFileFullName (fun _ => some ['/', 'd', '/', 'x', '.', 'y', '.', 'z']) ['x', '.', 'y', '.', 'z']
      = some ['x', '.', 'y', '.', 'z'] ∧
    GetFileShortName (fun _ => some ['/', 'd', '/', 'x', '.', 'y', '.', 'z']) ['x', '.', 'y', '.', 'z']
      = some ['x', '.', 'y'] ∧
    GetFileSuffixName (fun _ => some ['/', 'd', '/', 'x', '.', 'y', '.', 'z']) ['x', '.', 'y', '.', 'z']
      = some ['z'] :=
  ⟨(file_name_decomposition (fun _ => some ['/', 'd', '/', 'x', '.', 'y', '.', 'z'])
      ['x', '.', 'y', '.', 'z'] ['/', 'd'] ['x', '.', 'y', '.', 'z'] rfl (by decide)
      (by decide)).1,
   by decide, by decide⟩

/-! ## C14, C15 and C16: construction and destruction -/

/-- Two constructions never give the two instances the same memory region, whatever the
names are. -/
theorem ThreadLock.construct_RwLock_fresh (mem : List MmapDatas)
    (name1 name2 : Option (List Char)) (pid1 pid2 : Nat) :
    ((ThreadLock.construct_RwLock mem name1 pid1).2._lockInstance.bind
        (fun o => o.mmapDatas)) = some mem.length ∧
    ((ThreadLock.construct_RwLock (ThreadLock.construct_RwLock mem name1 pid1).1
        name2 pid2).2._lockInstance.bind (fun o => o.mmapDatas)) = some (mem.length + 1) := by
  constructor
  · rfl
  · cases name1 <;> simp [ThreadLock.construct_RwLock]

/-- C14 (code at the failing input): process 100 and process 200 each construct a
reader/writer lock with the name `L`. The two instances get different regions; after the
write request of thread 1 through the first instance is granted, the record of the first
is WriteHeld, the record of the second is still the default Idle record, and the read
request and the write request of thread 2 through the second instance are granted. -/
theorem same_name_gives_two_records :
    ((ThreadLock.construct_RwLock [] (some ['L']) 100).2._lockInstance.bind
        (fun o => o.mmapDatas)) = some 0 ∧
    ((ThreadLock.construct_RwLock (ThreadLock.construct_RwLock [] (some ['L']) 100).1
        (some ['L']) 200).2._lockInstance.bind (fun o => o.mmapDatas)) = some 1 ∧
    ((ThreadLock.construct_RwLock [] (some ['L']) 100).2._reLock_at
        (ThreadLock.construct_RwLock (ThreadLock.construct_RwLock [] (some ['L']) 100).1
          (some ['L']) 200).1 LockMode.Write 1 false)
      = ([{ lockStatus := LockStatus.WRITE, lockedCount := 1, writeThreadID := 1 }, {}],
          some Outcome.granted) ∧
    ((ThreadLock.construct_RwLock (ThreadLock.construct_RwLock [] (some ['L']) 100).1
        (some ['L']) 200).2.datas
        [{ lockStatus := LockStatus.WRITE, lockedCount := 1, writeThreadID := 1 }, {}])
      = some {} ∧
    ((ThreadLock.construct_RwLock (ThreadLock.construct_RwLock [] (some ['L']) 100).1
        (some ['L']) 200).2._reLock_at
        [{ lockStatus := LockStatus.WRITE, lockedCount := 1, writeThreadID := 1 }, {}]
        LockMode.Read 2 false).2 = some Outcome.granted ∧
    ((ThreadLock.construct_RwLock (ThreadLock.construct_RwLock [] (some ['L']) 100).1
        (some ['L']) 200).2._reLock_at
        [{ lockStatus := LockStatus.WRITE, lockedCount := 1, writeThreadID := 1 }, {}]
        LockMode.Write 2 false).2 = some Outcome.granted := by
  decide

/-- C15: when the destructor runs in a process other than the recorded creator, it calls
none of `pthread_mutex_destroy`, `pthread_mutexattr_destroy` and `sem_destroy`, for both
kinds of lock and every init status; on a process-shared lock with a mapped record all it
does is unmap the record, clear its pointer and free its own lock object. -/
theorem non_creator_teardown (lockType : LockType) (isMultiProcess : Bool)
    (lock_object : LockObject) (SELF_PROCESS_ID : Nat)
    (hp : lock_object.creatorPid ≠ SELF_PROCESS_ID) :
    TeardownOp.pthread_mutex_destroy ∉
      ThreadLock.destruct ⟨lockType, isMultiProcess, some lock_object⟩ SELF_PROCESS_ID ∧
    TeardownOp.pthread_mutexattr_destroy ∉
      ThreadLock.destruct ⟨lockType, isMultiProcess, some lock_object⟩ SELF_PROCESS_ID ∧
    TeardownOp.sem_destroy ∉
      ThreadLock.destruct ⟨lockType, isMultiProcess, some lock_object⟩ SELF_PROCESS_ID ∧
    (isMultiProcess = true → lock_object.mmapDatas.isSome = true →
      ThreadLock.destruct ⟨lockType, isMultiProcess, some lock_object⟩ SELF_PROCESS_ID
        = [TeardownOp.munmap_mmapDatas, TeardownOp.store_mmapDatas_nullptr,
            TeardownOp.delete_lock_object]) := by
  cases lockType <;> cases isMultiProcess <;> cases hm : lock_object.mmapDatas.isSome <;>
    simp [ThreadLock.destruct, hp, hm]

/-- Witness of C15: a process-shared reader/writer lock created by process 100 and
destroyed in process 200. -/
theorem non_creator_teardown_witness :
    ThreadLock.destruct
        ⟨LockType.RwLock, true, some { initStatus := 7, creatorPid := 100, mmapDatas := some 0 }⟩
        200
      = [TeardownOp.munmap_mmapDatas, TeardownOp.store_mmapDatas_nullptr,
          TeardownOp.delete_lock_object] :=
  (non_creator_teardown LockType.RwLock true
    { initStatus := 7, creatorPid := 100, mmapDatas := some 0 } 200 (by decide)).2.2.2 rfl rfl

/-- C16 (code at the failing input): process 100 constructs a reader/writer lock without a
name and destroys it. The destructor frees the lock object twice, stores into it after the
first free, and never frees the state record. -/
theorem unnamed_rwlock_teardown :
    ThreadLock.destruct (ThreadLock.construct_RwLock [] none 100).2 100
      = [TeardownOp.pthread_mutex_destroy, TeardownOp.pthread_mutexattr_destroy,
          TeardownOp.sem_destroy, TeardownOp.delete_lock_object,
          TeardownOp.store_mmapDatas_nullptr, TeardownOp.delete_lock_object] ∧
    (ThreadLock.destruct (ThreadLock.construct_RwLock [] none 100).2 100).count
        TeardownOp.delete_lock_object = 2 ∧
    (ThreadLock.destruct (ThreadLock.construct_RwLock [] none 100).2 100).count
        TeardownOp.delete_mmapDatas = 0 ∧
    TeardownOp.store_mmapDatas_nullptr ∈ afterDeleteLockObject
        (ThreadLock.destruct (ThreadLock.construct_RwLock [] none 100).2 100) := by
  decide

/-- The destructor of a Mutex without a name that its creator fully initialised frees the
state record once and the lock object once, in that order. -/
theorem ThreadLock.unnamed_mutex_teardown (pid a : Nat) :
    ThreadLock.destruct
        ⟨LockType.Mutex, false, some { initStatus := 3, creatorPid := pid, mmapDatas := some a }⟩
        pid
      = [TeardownOp.pthread_mutex_destroy, TeardownOp.pthread_mutexattr_destroy,
          TeardownOp.delete_mmapDatas, TeardownOp.store_mmapDatas_nullptr,
          TeardownOp.delete_lock_object] := by
  simp [ThreadLock.destruct, INIT_STATUS_LOCKINITED, INIT_STATUS_ATTRINITED]

/-! ## C19 and C20: the grant rules -/

/-- One step keeps `lockedCount = 0` on an Idle record, wrap or no wrap. -/
theorem step_idle_count_zero (s s1 : Sys) (e : Event)
    (hi : s.datas.lockStatus = LockStatus.IDLE → s.datas.lockedCount = 0)
    (h : step s e = some s1) :
    s1.datas.lockStatus = LockStatus.IDLE → s1.datas.lockedCount = 0 := by
  have hit : ∀ t m w, (s.afterIteration t m w).datas.lockStatus = LockStatus.IDLE →
      (s.afterIteration t m w).datas.lockedCount = 0 := by
    intro t m w
    rcases hr : ThreadLock._reLock s.datas m t w with ⟨e, o⟩
    cases o
    · obtain ⟨_, g2⟩ := ThreadLock.reLock_granted_spec _ _ _ _ _ hr
      simp only [Sys.afterIteration, hr]
      intro h0
      rcases g2 with ⟨_, _, b⟩ | ⟨_, _, b, _⟩ | ⟨_, _, b⟩ | ⟨_, _, b, _, _⟩ <;>
        (rw [b] at h0; cases h0)
    · obtain ⟨g1, g2, _⟩ := ThreadLock.reLock_not_granted_spec _ _ _ _ _ _ hr (by decide)
      simp only [Sys.afterIteration, hr, g1, g2]
      exact hi
    · obtain ⟨g1, g2, _⟩ := ThreadLock.reLock_not_granted_spec _ _ _ _ _ _ hr (by decide)
      simp only [Sys.afterIteration, hr, g1, g2]
      exact hi
  obtain ⟨_, h1⟩ := step_inv s s1 e h
  cases e with
  | request t m =>
      obtain ⟨_, rfl⟩ := h1
      exact hit t m false
  | wake t =>
      obtain ⟨m, _, _, rfl⟩ := h1
      exact hi
  | retry t =>
      obtain ⟨m, _, rfl⟩ := h1
      exact hit t m true
  | release t =>
      obtain ⟨_, _, rfl⟩ := h1
      obtain ⟨u1, u2⟩ := ThreadLock.unLock_spec s.datas
      simp only
      rcases Nat.lt_or_ge s.datas.lockedCount 2 with h2 | h2
      · intro _
        exact (u2 (by omega)).2
      · rw [u1 h2]
        simp only
        intro h0
        have := hi h0
        omega
  | interrupt t =>
      obtain ⟨m, _, rfl⟩ := h1
      exact hi

/-- In every state reached from the freshly constructed lock an Idle record has
`lockedCount = 0`. -/
theorem run_idle_count_zero (es : List Event) :
    ∀ s0 s : Sys, (s0.datas.lockStatus = LockStatus.IDLE → s0.datas.lockedCount = 0) →
      run s0 es = some s →
      s.datas.lockStatus = LockStatus.IDLE → s.datas.lockedCount = 0 := by
  induction es with
  | nil => intro s0 s hi h; cases h; exact hi
  | cons e es ih =>
      intro s0 s hi h
      simp only [run] at h
      cases hs : step s0 e with
      | none => rw [hs] at h; cases h
      | some s1 =>
          rw [hs] at h
          exact ih s1 s (step_idle_count_zero s0 s1 e hi hs) h

/-- C19 (counterexample): after `2 ^ 32 - 1` granted read requests of thread 1 the record
is ReadHeld with `lockedCount = 2 ^ 32 - 1` and no writer waiting; the read request of
thread 2 is granted and leaves `lockedCount = 0`, which is not an increase by 1. -/
theorem read_grant_wraps_count :
    ∃ s : Sys,
      run Sys.init (List.replicate (UINT_MOD - 1) (Event.request 1 LockMode.Read)) = some s ∧
      s.datas = { lockStatus := LockStatus.READ, lockedCount := UINT_MOD - 1 } ∧
      ThreadLock._reLock s.datas LockMode.Read 2 false
        = ({ lockStatus := LockStatus.READ, lockedCount := 0 }, Outcome.granted) ∧
      (0 : Nat) ≠ (UINT_MOD - 1) + 1 := by
  have h := run_read_requests_init 1 (UINT_MOD - 2)
  have e1 : UINT_MOD - 2 + 1 = UINT_MOD - 1 := by decide
  have e2 : (UINT_MOD - 1) % UINT_MOD = UINT_MOD - 1 := by decide
  rw [e1, e2] at h
  exact ⟨_, h, rfl, by decide, by decide⟩

/-- C19 (amended): a read request, new or retried, is granted exactly when the status is
Idle, or ReadHeld with no writer waiting. On grant the status becomes ReadHeld,
`lockedCount` gets `++`, which adds exactly 1 when `lockedCount + 1 < 2 ^ 32`,
`writeThreadID` and `wwaitingCount` are kept and `rwaitingCount` changes only by the
caller's own decrement after a wake. In every state reached from the freshly constructed
lock a grant from Idle leaves `lockedCount = 1`. In status WriteHeld by another thread the
request is not granted but blocks. -/
theorem read_grant_rule :
    (∀ (d : MmapDatas) (t : Nat) (wait_return : Bool),
      ((ThreadLock._reLock d LockMode.Read t wait_return).2 = Outcome.granted ↔
        d.lockStatus = LockStatus.IDLE ∨
          (d.lockStatus = LockStatus.READ ∧ d.wwaitingCount = 0))) ∧
    (∀ (d : MmapDatas) (t : Nat) (wait_return : Bool),
      (ThreadLock._reLock d LockMode.Read t wait_return).2 = Outcome.granted →
      (ThreadLock._reLock d LockMode.Read t wait_return).1.lockStatus = LockStatus.READ ∧
      (ThreadLock._reLock d LockMode.Read t wait_return).1.lockedCount
        = uintInc d.lockedCount ∧
      (d.lockedCount + 1 < UINT_MOD →
        (ThreadLock._reLock d LockMode.Read t wait_return).1.lockedCount
          = d.lockedCount + 1) ∧
      (ThreadLock._reLock d LockMode.Read t wait_return).1.writeThreadID
        = d.writeThreadID ∧
      (ThreadLock._reLock d LockMode.Read t wait_return).1.wwaitingCount
        = d.wwaitingCount ∧
      (ThreadLock._reLock d LockMode.Read t wait_return).1.rwaitingCount
        = (if wait_return then uintDec d.rwaitingCount else d.rwaitingCount)) ∧
    (∀ (es : List Event) (s : Sys) (t : Nat) (wait_return : Bool),
      run Sys.init es = some s → s.datas.lockStatus = LockStatus.IDLE →
      (ThreadLock._reLock s.datas LockMode.Read t wait_return).1.lockedCount = 1) ∧
    (∀ (d : MmapDatas) (t : Nat) (wait_return : Bool),
      d.lockStatus = LockStatus.WRITE → d.writeThreadID ≠ t →
      (ThreadLock._reLock d LockMode.Read t wait_return).2 = Outcome.blocked) := by
  refine ⟨?_, ?_, ?_, ?_⟩
  · intro d t wait_return
    rcases d with ⟨st, lc, rw, ww, wt⟩
    cases st <;> cases wait_return <;>
      simp [ThreadLock._reLock, ThreadLock._reLock_Read] <;>
      split_ifs <;> simp_all <;> omega
  · intro d t wait_return hg
    have hc : ∀ c, c + 1 < UINT_MOD → uintInc c = c + 1 := uintInc_of_lt
    rcases d with ⟨st, lc, rw, ww, wt⟩
    cases st <;> cases wait_return <;>
      simp only [ThreadLock._reLock, ThreadLock._reLock_Read] at hg ⊢ <;>
      split_ifs at hg ⊢ <;> simp_all
  · intro es s t wait_return hr hi
    have h0 := run_idle_count_zero es Sys.init s (fun _ => rfl) hr hi
    rcases hd : s.datas with ⟨st, lc, rw, ww, wt⟩
    rw [hd] at hi h0
    simp only at hi h0
    subst hi h0
    cases wait_return <;>
      simp [ThreadLock._reLock, ThreadLock._reLock_Read, uintInc, UINT_MOD_eq]
  · intro d t wait_return hs ht
    exact ThreadLock.reLock_other_blocked d t LockMode.Read wait_return hs ht

/-- Witness of C19 (amended): a read request on a record with two readers and no writer
waiting, and one on the freshly constructed lock. -/
theorem read_grant_rule_witness :
    (ThreadLock._reLock { lockStatus := LockStatus.READ, lockedCount := 2 }
      LockMode.Read 5 false).1.lockedCount = 2 + 1 ∧
    (ThreadLock._reLock Sys.init.datas LockMode.Read 5 false).1.lockedCount = 1 :=
  ⟨(read_grant_rule.2.1 { lockStatus := LockStatus.READ, lockedCount := 2 } 5 false
      (by decide)).2.2.1 (by decide),
   read_grant_rule.2.2.1 [] Sys.init 5 false rfl rfl⟩

/-- C20 (counterexample): after `2 ^ 32 - 1` granted write requests of thread 1 the record
is WriteHeld by thread 1 with `lockedCount = 2 ^ 32 - 1`; the next write request of thread
1 is granted and leaves `lockedCount = 0`, which is not an increase by 1. -/
theorem write_grant_wraps_count :
    (ThreadLock.requests {} LockMode.Write 1 (UINT_MOD - 1)).1
      = { lockStatus := LockStatus.WRITE, lockedCount := UINT_MOD - 1, writeThreadID := 1 } ∧
    ThreadLock._reLock
        { lockStatus := LockStatus.WRITE, lockedCount := UINT_MOD - 1, writeThreadID := 1 }
        LockMode.Write 1 false
      = ({ lockStatus := LockStatus.WRITE, lockedCount := 0, writeThreadID := 1 },
          Outcome.granted) ∧
    (0 : Nat) ≠ (UINT_MOD - 1) + 1 := by
  have h := ThreadLock.requests_write_idle 1 (UINT_MOD - 2) {} rfl rfl
  have e1 : UINT_MOD - 2 + 1 = UINT_MOD - 1 := by decide
  have e2 : (UINT_MOD - 1) % UINT_MOD = UINT_MOD - 1 := by decide
  rw [e1, e2] at h
  rw [h]
  exact ⟨rfl, by decide, by decide⟩

/-- C20 (amended): a write request of thread `t`, new or retried, is granted exactly when
the status is Idle, or WriteHeld with `writeThreadID = t`. In every state reached from the
freshly constructed lock a new request granted from Idle yields status WriteHeld,
`lockedCount = 1`, `writeThreadID = t` and keeps the waiting counters. A new request
granted recursively changes only `lockedCount`, by `++`, which adds exactly 1 when
`lockedCount + 1 < 2 ^ 32`. A retried request that is granted differs only by the caller's
own decrement of `wwaitingCount`. -/
theorem write_grant_rule :
    (∀ (d : MmapDatas) (t : Nat) (wait_return : Bool),
      ((ThreadLock._reLock d LockMode.Write t wait_return).2 = Outcome.granted ↔
        d.lockStatus = LockStatus.IDLE ∨
          (d.lockStatus = LockStatus.WRITE ∧ d.writeThreadID = t))) ∧
    (∀ (es : List Event) (s : Sys) (t : Nat) (wait_return : Bool),
      run Sys.init es = some s → s.datas.lockStatus = LockStatus.IDLE →
      ThreadLock._reLock s.datas LockMode.Write t wait_return
        = ({ s.datas with
              lockStatus := LockStatus.WRITE, lockedCount := 1, writeThreadID := t,
              wwaitingCount := if wait_return then uintDec s.datas.wwaitingCount
                               else s.datas.wwaitingCount },
            Outcome.granted)) ∧
    (∀ (d : MmapDatas) (t : Nat) (wait_return : Bool),
      d.lockStatus = LockStatus.WRITE → d.writeThreadID = t →
      ThreadLock._reLock d LockMode.Write t wait_return
        = ({ d with
              lockedCount := uintInc d.lockedCount,
              wwaitingCount := if wait_return then uintDec d.wwaitingCount
                               else d.wwaitingCount },
            Outcome.granted) ∧
      (d.lockedCount + 1 < UINT_MOD → uintInc d.lockedCount = d.lockedCount + 1)) := by
  refine ⟨?_, ?_, ?_⟩
  · intro d t wait_return
    rcases d with ⟨st, lc, rw, ww, wt⟩
    cases st <;> cases wait_return <;>
      simp [ThreadLock._reLock, ThreadLock._reLock_Write] <;>
      split_ifs <;> simp_all
  · intro es s t wait_return hr hi
    have h0 := run_idle_count_zero es Sys.init s (fun _ => rfl) hr hi
    rcases hd : s.datas with ⟨st, lc, rw, ww, wt⟩
    rw [hd] at hi h0
    simp only at hi h0
    subst hi h0
    cases wait_return <;>
      simp [ThreadLock._reLock, ThreadLock._reLock_Write, uintInc, UINT_MOD_eq]
  · intro d t wait_return hs ht
    refine ⟨?_, uintInc_of_lt _⟩
    rcases d with ⟨st, lc, rw, ww, wt⟩
    simp only at hs ht
    subst hs ht
    cases wait_return <;> simp [ThreadLock._reLock, ThreadLock._reLock_Write]

/-- Witness of C20 (amended): a recursive write request of thread 3, and a write request of
thread 3 on the freshly constructed lock. -/
theorem write_grant_rule_witness :
    ThreadLock._reLock { lockStatus := LockStatus.WRITE, lockedCount := 2, writeThreadID := 3 }
        LockMode.Write 3 false
      = ({ lockStatus := LockStatus.WRITE, lockedCount := 3, writeThreadID := 3 },
          Outcome.granted) ∧
    ThreadLock._reLock Sys.init.datas LockMode.Write 3 false
      = ({ lockStatus := LockStatus.WRITE, lockedCount := 1, writeThreadID := 3 },
          Outcome.granted) :=
  ⟨(write_grant_rule.2.2
      { lockStatus := LockStatus.WRITE, lockedCount := 2, writeThreadID := 3 } 3 false
      rfl rfl).1,
   write_grant_rule.2.1 [] Sys.init 3 false rfl rfl⟩

/-! ## C22 and C27: the release transition -/

/-- C22: on a record with `lockedCount = n`, `n ≥ 1`, `_unLock` sets `lockedCount` to
`n - 1`; if that is not zero nothing else changes and no wake is signalled; if it is zero
the status becomes Idle, `writeThreadID` becomes 0 when the status was WriteHeld and is
kept otherwise, the waiting counters are kept, and the wake is signalled exactly when
`rwaitingCount > 0` or `wwaitingCount > 0`. -/
theorem release_transition (d : MmapDatas) (n : Nat) (hn : 1 ≤ n)
    (hc : d.lockedCount = n) :
    (ThreadLock._unLock d).1.lockedCount = n - 1 ∧
    (n - 1 ≠ 0 → ThreadLock._unLock d = ({ d with lockedCount := n - 1 }, false)) ∧
    (n - 1 = 0 →
      (ThreadLock._unLock d).1
        = { d with lockStatus := LockStatus.IDLE, lockedCount := 0,
                   writeThreadID := if d.lockStatus = LockStatus.WRITE then 0
                                    else d.writeThreadID } ∧
      ((ThreadLock._unLock d).2 = true ↔ (0 < d.rwaitingCount ∨ 0 < d.wwaitingCount))) := by
  rcases d with ⟨st, lc, rw, ww, wt⟩
  simp only at hc
  subst hc
  have hpos : 0 < lc := by omega
  by_cases h1 : lc - 1 = 0
  · refine ⟨?_, fun h => absurd h1 h, fun _ => ⟨?_, ?_⟩⟩
    · simp only [ThreadLock._unLock, hpos, h1]
      split_ifs <;> simp_all
    · cases st <;> simp [ThreadLock._unLock, hpos, h1]
    · cases st <;> simp [ThreadLock._unLock, hpos, h1, or_comm]
  · refine ⟨?_, fun _ => ?_, fun h => absurd h h1⟩
    · simp [ThreadLock._unLock, hpos, h1]
    · simp [ThreadLock._unLock, hpos, h1]

/-- Witness of C22: the last release of a write hold with one reader waiting. -/
theorem release_transition_witness :
    ThreadLock._unLock
        { lockStatus := LockStatus.WRITE, lockedCount := 1, rwaitingCount := 1,
          writeThreadID := 8 }
      = ({ lockStatus := LockStatus.IDLE, lockedCount := 0, rwaitingCount := 1,
           writeThreadID := 0 }, true) ∧
    (ThreadLock._unLock
        { lockStatus := LockStatus.WRITE, lockedCount := 1, rwaitingCount := 1,
          writeThreadID := 8 }).1.lockedCount = 1 - 1 :=
  ⟨by decide,
   (release_transition
      { lockStatus := LockStatus.WRITE, lockedCount := 1, rwaitingCount := 1,
        writeThreadID := 8 } 1 (by decide) rfl).1⟩

/-- C27: on a record with status Idle and `lockedCount = 0`, `_unLock` leaves the whole
record as it is; `lockedCount` stays 0. -/
theorem release_on_idle (d : MmapDatas) (hs : d.lockStatus = LockStatus.IDLE)
    (hc : d.lockedCount = 0) :
    (ThreadLock._unLock d).1 = d := by
  rcases d with ⟨st, lc, rw, ww, wt⟩
  simp only at hs hc
  subst hs hc
  simp [ThreadLock._unLock]

/-- Witness of C27: the default record with two callers counted as waiting. -/
theorem release_on_idle_witness :
    (ThreadLock._unLock { rwaitingCount := 1, wwaitingCount := 1 }).1
      = { rwaitingCount := 1, wwaitingCount := 1 } :=
  release_on_idle { rwaitingCount := 1, wwaitingCount := 1 } rfl rfl

/-! ## C26: the two platforms -/

/-- C26: on every record, for every thread and for new and retried requests, the Windows
and the Linux iteration of `_reLock(Write)` agree, `_unLock` agrees on the record and on
whether the wake is signalled, and the iteration of `_reLock(Read)` agrees unless the
status is WriteHeld and the requester is the recorded writer; in that case Linux ends in the
fatal call and Windows counts the requester as a waiting reader and blocks. -/
theorem platform_equivalence :
    (∀ (d : MmapDatas) (t : Nat) (wait_return : Bool),
      ThreadLock._reLock_Write_Windows d t wait_return
        = ThreadLock._reLock_Write d t wait_return) ∧
    (∀ d : MmapDatas, ThreadLock._unLock_Windows d = ThreadLock._unLock d) ∧
    (∀ (d : MmapDatas) (t : Nat) (wait_return : Bool),
      ¬ (d.lockStatus = LockStatus.WRITE ∧ d.writeThreadID = t) →
      ThreadLock._reLock_Read_Windows d wait_return
        = ThreadLock._reLock_Read d t wait_return) ∧
    (∀ (d : MmapDatas) (t : Nat) (wait_return : Bool),
      d.lockStatus = LockStatus.WRITE → d.writeThreadID = t →
      (ThreadLock._reLock_Read d t wait_return).2 = Outcome.fatal ∧
      (ThreadLock._reLock_Read_Windows d wait_return).2 = Outcome.blocked) := by
  have hf : DBGLOG_FATAL = true := by decide
  refine ⟨fun _ _ _ => rfl, fun _ => rfl, ?_, ?_⟩
  · intro d t wait_return h
    rcases d with ⟨st, lc, rw, ww, wt⟩
    cases st <;> cases wait_return <;>
      simp_all [ThreadLock._reLock_Read_Windows, ThreadLock._reLock_Read]
  · intro d t wait_return hs ht
    rcases d with ⟨st, lc, rw, ww, wt⟩
    simp only at hs ht
    subst hs ht
    cases wait_return <;>
      simp [ThreadLock._reLock_Read_Windows, ThreadLock._reLock_Read, hf]

/-- Witness of C26: a read request of thread 2 while thread 1 holds write, and one of
thread 1 itself. -/
theorem platform_equivalence_witness :
    ThreadLock._reLock_Read_Windows
        { lockStatus := LockStatus.WRITE, lockedCount := 1, writeThreadID := 1 } false
      = ThreadLock._reLock_Read
        { lockStatus := LockStatus.WRITE, lockedCount := 1, writeThreadID := 1 } 2 false ∧
    (ThreadLock._reLock_Read
        { lockStatus := LockStatus.WRITE, lockedCount := 1, writeThreadID := 1 } 1 false).2
      = Outcome.fatal :=
  ⟨platform_equivalence.2.2.1
      { lockStatus := LockStatus.WRITE, lockedCount := 1, writeThreadID := 1 } 2 false
      (by decide),
   (platform_equivalence.2.2.2
      { lockStatus := LockStatus.WRITE, lockedCount := 1, writeThreadID := 1 } 1 false
      rfl rfl).1⟩

/-! ## C29: release of a Mutex that is not held -/

/-- C29 (code at the failing input): on the default Mutex record (`lockedCount = 0`,
unlocked) `_unLock` of thread 1 wraps `lockedCount` to `2 ^ 32 - 1` and does not call
`pthread_mutex_unlock`; the following acquisition of thread 1 locks the primitive and wraps
the count to 0, and the release after it wraps the count to `2 ^ 32 - 1` again, does not
call `pthread_mutex_unlock` and leaves the primitive locked by thread 1, so that an
acquisition of thread 2 does not return. -/
theorem mutex_release_underflows :
    ThreadLock._unLock_Mutex {} 1 = ({ lockedCount := 4294967295, lockObj := none }, false) ∧
    ThreadLock._reLock_Mutex { lockedCount := 4294967295, lockObj := none } 1
      = some { lockedCount := 0, lockObj := some 1 } ∧
    ThreadLock._unLock_Mutex { lockedCount := 0, lockObj := some 1 } 1
      = ({ lockedCount := 4294967295, lockObj := some 1 }, false) ∧
    ThreadLock._reLock_Mutex { lockedCount := 4294967295, lockObj := some 1 } 2 = none := by
  decide

/-! ## C30: the `%B` branch of `__DbgFormatLog` -/

/-- C30 (code at the failing input): for a `%B` argument of length 0 the loop appends no
character, but `bit_bytes_count` is 0, `bit_bytes_count - 1` wraps and `add_length` is
`2 ^ 32 - 1`. -/
theorem add_length_of_empty_bits :
    bit_bytes_count 0 = 0 ∧
    add_length_B 0 = 4294967295 ∧
    formatBits (fun _ => 0) 0 = [] ∧
    add_length_B 0 ≠ (formatBits (fun _ => 0) 0).length := by
  decide

/-- For a `%B` argument of 10 bits the loop appends 11 characters and `add_length` is
11. -/
theorem add_length_of_ten_bits :
    add_length_B 10 = 11 ∧
    formatBits (fun i => if i = 0 then 0xA5 else 0xC0) 10
      = ['1', '0', '1', '0', '0', '1', '0', '1', ' ', '1', '1'] := by
  decide

/-! ## C23: what one release wakes -/

/-- C23 (code at the failing input): thread 1 holds write, threads 2 and 3 request read and
wait, thread 1 releases. The release posts the semaphore once: after thread 2 has taken it
the semaphore is 0 and thread 3 cannot take it; thread 2 is granted, the record is ReadHeld
with no writer waiting, and thread 3 still cannot take the semaphore. -/
theorem one_release_wakes_one_reader :
    (run Sys.init [Event.request 1 LockMode.Write, Event.request 2 LockMode.Read,
        Event.request 3 LockMode.Read, Event.release 1]).map
      (fun s => (s.datas, s.innerSem, s.pc 2, s.pc 3))
      = some ({ rwaitingCount := 2 }, 1, Pc.waiting LockMode.Read, Pc.waiting LockMode.Read) ∧
    (run Sys.init [Event.request 1 LockMode.Write, Event.request 2 LockMode.Read,
        Event.request 3 LockMode.Read, Event.release 1, Event.wake 2]).map
      (fun s => (s.innerSem, s.pc 2, s.pc 3, (step s (Event.wake 3)).isSome))
      = some (0, Pc.woken LockMode.Read, Pc.waiting LockMode.Read, false) ∧
    (run Sys.init [Event.request 1 LockMode.Write, Event.request 2 LockMode.Read,
        Event.request 3 LockMode.Read, Event.release 1, Event.wake 2, Event.retry 2]).map
      (fun s => (s.datas, s.innerSem, s.holders, s.pc 3, (step s (Event.wake 3)).isSome))
      = some ({ lockStatus := LockStatus.READ, lockedCount := 1, rwaitingCount := 1 }, 0,
          [(2, LockMode.Read)], Pc.waiting LockMode.Read, false) := by
  refine ⟨?_, ?_, ?_⟩ <;> rfl

/-! ## C24: the recorded writer -/

/-- An iteration that leaves a status other than WriteHeld started from such a status and
keeps `writeThreadID`. -/
theorem ThreadLock.reLock_writer_spec (d e : MmapDatas) (m : LockMode) (t : Nat)
    (wait_return : Bool) (o : Outcome) (h : ThreadLock._reLock d m t wait_return = (e, o))
    (he : e.lockStatus ≠ LockStatus.WRITE) :
    d.lockStatus ≠ LockStatus.WRITE ∧ e.writeThreadID = d.writeThreadID := by
  rcases d with ⟨st, lc, rw, ww, wt⟩
  cases m <;> cases st <;> cases wait_return <;>
    simp only [ThreadLock._reLock, ThreadLock._reLock_Read, ThreadLock._reLock_Write] at h <;>
    split_ifs at h <;> cases h <;> simp_all

/-- The function `_unLock` keeps `writeThreadID = 0` outside status WriteHeld. -/
theorem ThreadLock.unLock_writer_spec (d : MmapDatas)
    (hd : d.lockStatus ≠ LockStatus.WRITE → d.writeThreadID = 0)
    (he : (ThreadLock._unLock d).1.lockStatus ≠ LockStatus.WRITE) :
    (ThreadLock._unLock d).1.writeThreadID = 0 := by
  obtain ⟨u1, u2⟩ := ThreadLock.unLock_spec d
  rcases Nat.lt_or_ge d.lockedCount 2 with h2 | h2
  · rcases d with ⟨st, lc, rw, ww, wt⟩
    simp only at h2 hd
    have h01 : lc = 0 ∨ lc = 1 := by omega
    rcases h01 with rfl | rfl <;> cases st <;> simp_all [ThreadLock._unLock]
  · rw [u1 h2] at he ⊢
    exact hd he

/-- One step keeps `writeThreadID = 0` outside status WriteHeld. -/
theorem step_writer_zero (s s1 : Sys) (e : Event)
    (hi : s.datas.lockStatus ≠ LockStatus.WRITE → s.datas.writeThreadID = 0)
    (h : step s e = some s1) :
    s1.datas.lockStatus ≠ LockStatus.WRITE → s1.datas.writeThreadID = 0 := by
  have hit : ∀ t m w, (s.afterIteration t m w).datas.lockStatus ≠ LockStatus.WRITE →
      (s.afterIteration t m w).datas.writeThreadID = 0 := by
    intro t m w
    rcases hr : ThreadLock._reLock s.datas m t w with ⟨e, o⟩
    have hsp := ThreadLock.reLock_writer_spec _ _ _ _ _ _ hr
    cases o <;> simp only [Sys.afterIteration, hr] <;> intro h0 <;>
      (obtain ⟨g1, g2⟩ := hsp h0; rw [g2]; exact hi g1)
  obtain ⟨_, h1⟩ := step_inv s s1 e h
  cases e with
  | request t m =>
      obtain ⟨_, rfl⟩ := h1
      exact hit t m false
  | wake t =>
      obtain ⟨m, _, _, rfl⟩ := h1
      exact hi
  | retry t =>
      obtain ⟨m, _, rfl⟩ := h1
      exact hit t m true
  | release t =>
      obtain ⟨_, _, rfl⟩ := h1
      exact ThreadLock.unLock_writer_spec s.datas hi
  | interrupt t =>
      obtain ⟨m, _, rfl⟩ := h1
      exact hi

/-- In every state reached from a state with `writeThreadID = 0` outside status WriteHeld
the same holds. -/
theorem run_writer_zero (es : List Event) :
    ∀ s0 s : Sys, (s0.datas.lockStatus ≠ LockStatus.WRITE → s0.datas.writeThreadID = 0) →
      run s0 es = some s →
      s.datas.lockStatus ≠ LockStatus.WRITE → s.datas.writeThreadID = 0 := by
  induction es with
  | nil => intro s0 s hi h; cases h; exact hi
  | cons e es ih =>
      intro s0 s hi h
      simp only [run] at h
      cases hs : step s0 e with
      | none => rw [hs] at h; cases h
      | some s1 =>
          rw [hs] at h
          exact ih s1 s (step_writer_zero s0 s1 e hi hs) h

/-- Write requests of the recorded writer `t` are all granted and add to `lockedCount`
modulo `2 ^ 32`. -/
theorem run_write_requests (t : Nat) (n : Nat) :
    ∀ s : Sys, s.aborted = false → s.pc t = Pc.out →
      s.datas.lockStatus = LockStatus.WRITE → s.datas.writeThreadID = t →
      s.datas.lockedCount < UINT_MOD →
      run s (List.replicate n (Event.request t LockMode.Write))
        = some { s with
            datas := { s.datas with lockedCount := (s.datas.lockedCount + n) % UINT_MOD },
            holders := List.replicate n (t, LockMode.Write) ++ s.holders } := by
  induction n with
  | zero =>
      intro s _ _ _ _ hc
      simp [run, Nat.mod_eq_of_lt hc]
  | succ n ih =>
      intro s ha hp hs hw hc
      have h1 : ThreadLock._reLock s.datas LockMode.Write t false
          = ({ s.datas with lockedCount := uintInc s.datas.lockedCount },
              Outcome.granted) := by
        simp [ThreadLock._reLock, ThreadLock._reLock_Write, hs, hw]
      have hpc : Function.update s.pc t Pc.out = s.pc := by
        rw [← hp]; exact Function.update_eq_self t s.pc
      have h2 : step s (Event.request t LockMode.Write)
          = some { s with
              datas := { s.datas with lockedCount := uintInc s.datas.lockedCount },
              holders := (t, LockMode.Write) :: s.holders } := by
        simp [step, ha, hp, Sys.afterIteration, h1, hpc]
      have h3 := ih { s with
              datas := { s.datas with lockedCount := uintInc s.datas.lockedCount },
              holders := (t, LockMode.Write) :: s.holders } ha hp hs hw
              (Nat.mod_lt _ (by decide))
      simp only [List.replicate_succ, run, h2, Option.some_bind, h3]
      have h4 : (uintInc s.datas.lockedCount + n) % UINT_MOD
          = (s.datas.lockedCount + (n + 1)) % UINT_MOD := by
        simp only [uintInc, UINT_MOD_eq]; omega
      have h5 : List.replicate n (t, LockMode.Write) ++ (t, LockMode.Write) :: s.holders
          = (t, LockMode.Write) :: (List.replicate n (t, LockMode.Write) ++ s.holders) := by
        exact replicate_append_cons n _ _
      simp [h4, h5]

/-- After a number of write grants to thread 1 that is a multiple of `2 ^ 32`, a release
makes the record Idle although grants are outstanding, and a write request of thread 2 is
granted. -/
theorem run_wrapped_writes_then_write (n : Nat) (hn : (n + 1) % UINT_MOD = 0) :
    run Sys.init (List.replicate (n + 1) (Event.request 1 LockMode.Write)
        ++ [Event.release 1, Event.request 2 LockMode.Write])
      = some { datas := { lockStatus := LockStatus.WRITE, lockedCount := 1,
                          writeThreadID := 2 },
               innerSem := 0, pc := fun _ => Pc.out,
               holders := (2, LockMode.Write) :: List.replicate n (1, LockMode.Write),
               aborted := false } := by
  have hpc1 : Function.update (fun _ : Nat => Pc.out) 1 Pc.out = fun _ => Pc.out :=
    Function.update_eq_self 1 (fun _ : Nat => Pc.out)
  have hpc2 : Function.update (fun _ : Nat => Pc.out) 2 Pc.out = fun _ => Pc.out :=
    Function.update_eq_self 2 (fun _ : Nat => Pc.out)
  have h1 : step Sys.init (Event.request 1 LockMode.Write)
      = some { datas := { lockStatus := LockStatus.WRITE, lockedCount := 1,
                          writeThreadID := 1 },
               innerSem := 0, pc := fun _ => Pc.out,
               holders := [(1, LockMode.Write)], aborted := false } := by
    simp [step, Sys.init, Sys.afterIteration, ThreadLock._reLock, ThreadLock._reLock_Write,
      hpc1, uintInc, UINT_MOD_eq]
  have h2 := run_write_requests 1 n
    { datas := { lockStatus := LockStatus.WRITE, lockedCount := 1, writeThreadID := 1 },
      innerSem := 0, pc := fun _ => Pc.out,
      holders := [(1, LockMode.Write)], aborted := false } rfl rfl rfl rfl
    (by simp [UINT_MOD_eq])
  have h3 : (1 + n) % UINT_MOD = 0 := by rw [Nat.add_comm]; exact hn
  rw [run_append, List.replicate_succ]
  simp only [run, h1, Option.some_bind, h2, h3]
  simp [step, Sys.afterIteration, ThreadLock._reLock, ThreadLock._reLock_Write,
    ThreadLock._unLock, replicate_append_cons, hpc2, uintInc, UINT_MOD_eq]

/-- C24 (counterexample): thread 1 is granted write `2 ^ 32` times, so that `lockedCount`
wraps to zero; its first release makes the record Idle and the write request of thread 2 is
granted. The status is WriteHeld and `writeThreadID` is 2 while write grants to thread 1
are outstanding. -/
theorem writer_identity_lost_at_wrap :
    ∃ s : Sys,
      run Sys.init (List.replicate UINT_MOD (Event.request 1 LockMode.Write)
        ++ [Event.release 1, Event.request 2 LockMode.Write]) = some s ∧
      s.datas.lockStatus = LockStatus.WRITE ∧ s.datas.writeThreadID = 2 ∧
      (1, LockMode.Write) ∈ s.holders := by
  have h := run_wrapped_writes_then_write (UINT_MOD - 1) (by decide)
  have e : UINT_MOD - 1 + 1 = UINT_MOD := by decide
  rw [e] at h
  exact ⟨_, h, rfl, rfl,
    List.mem_cons_of_mem _ (List.mem_replicate.mpr ⟨by decide, rfl⟩)⟩

/-- C24 (amended): in every state reached from the freshly constructed lock, a status other
than WriteHeld comes with `writeThreadID = 0`; and as long as fewer than `2 ^ 32` grants
are outstanding at any time, in status WriteHeld there are outstanding grants and all of
them are write grants to the thread `writeThreadID`. -/
theorem writer_identity_below_wrap :
    (∀ (es : List Event) (s : Sys), run Sys.init es = some s →
      s.datas.lockStatus ≠ LockStatus.WRITE → s.datas.writeThreadID = 0) ∧
    (∀ (es : List Event) (s : Sys), run Sys.init es = some s →
      GrantsBelowWrap Sys.init es → s.datas.lockStatus = LockStatus.WRITE →
      s.holders ≠ [] ∧ ∀ h ∈ s.holders, h = (s.datas.writeThreadID, LockMode.Write)) := by
  constructor
  · intro es s hr
    exact run_writer_zero es Sys.init s (fun _ => rfl) hr
  · intro es s hr hb
    exact (run_consistent es Sys.init s Sys.init_consistent hr hb).write

/-- Witness of C24 (amended): thread 7 takes write twice; then thread 7 releases twice and
thread 4 reads. -/
theorem writer_identity_below_wrap_witness :
    (∃ s : Sys,
      run Sys.init [Event.request 7 LockMode.Write, Event.request 7 LockMode.Write]
        = some s ∧
      s.datas.writeThreadID = 7 ∧
      ∀ h ∈ s.holders, h = (s.datas.writeThreadID, LockMode.Write)) ∧
    (∃ s : Sys,
      run Sys.init [Event.request 7 LockMode.Write, Event.release 7,
        Event.request 4 LockMode.Read] = some s ∧
      s.datas.lockStatus = LockStatus.READ ∧ s.datas.writeThreadID = 0) :=
  ⟨⟨_, rfl, rfl,
     (writer_identity_below_wrap.2
        [Event.request 7 LockMode.Write, Event.request 7 LockMode.Write] _ rfl
        (grantsBelowWrap_of_short _ _ (by decide)) rfl).2⟩,
   ⟨_, rfl, rfl,
     writer_identity_below_wrap.1
        [Event.request 7 LockMode.Write, Event.release 7, Event.request 4 LockMode.Read]
        _ rfl (by decide)⟩⟩

/-! ## C25: a write request of a thread that holds read -/

/-- On a ReadHeld record an iteration of a write request blocks, whoever asks. -/
theorem ThreadLock.reLock_Write_on_read (d : MmapDatas) (t : Nat) (wait_return : Bool)
    (hs : d.lockStatus = LockStatus.READ) :
    ThreadLock._reLock d LockMode.Write t wait_return
      = ({ d with wwaitingCount :=
            uintInc (if wait_return then uintDec d.wwaitingCount else d.wwaitingCount) },
          Outcome.blocked) := by
  rcases d with ⟨st, lc, rw, ww, wt⟩
  simp only at hs
  subst hs
  cases wait_return <;> simp [ThreadLock._reLock, ThreadLock._reLock_Write]

/-- The fatal outcome occurs only for a read request of the recorded writer. -/
theorem ThreadLock.reLock_fatal_spec (d e : MmapDatas) (m : LockMode) (t : Nat)
    (wait_return : Bool) (h : ThreadLock._reLock d m t wait_return = (e, Outcome.fatal)) :
    d.lockStatus = LockStatus.WRITE ∧ d.writeThreadID = t ∧ m = LockMode.Read := by
  rcases d with ⟨st, lc, rw, ww, wt⟩
  cases m <;> cases st <;> cases wait_return <;>
    simp only [ThreadLock._reLock, ThreadLock._reLock_Read, ThreadLock._reLock_Write] at h <;>
    split_ifs at h <;> cases h <;> simp_all

/-- A consistent state with an outstanding read grant is ReadHeld. -/
theorem Consistent.read_of_mem (s : Sys) (t : Nat) (hc : Consistent s)
    (hm : (t, LockMode.Read) ∈ s.holders) : s.datas.lockStatus = LockStatus.READ := by
  cases hst : s.datas.lockStatus with
  | IDLE =>
      have h0 := hc.idle hst
      rw [h0] at hm
      cases hm
  | READ => rfl
  | WRITE =>
      have h0 := (hc.write hst).2 _ hm
      cases h0

/-- The bound on the grants along a run, taken apart at the first event. -/
theorem grantsBelowWrap_cons (s0 s1 : Sys) (e : Event) (es : List Event)
    (hb : GrantsBelowWrap s0 (e :: es)) (hs : step s0 e = some s1) :
    s1.holders.length < UINT_MOD ∧ GrantsBelowWrap s1 es := by
  constructor
  · apply hb 1 s1
    simp [run, hs]
  · intro k s2 hk
    apply hb (k + 1) s2
    simp only [List.take_succ_cons, run, hs]
    exact hk

/-- The bound on the grants along a run, taken apart at any point. -/
theorem grantsBelowWrap_append (a : List Event) :
    ∀ (b : List Event) (s0 s1 : Sys), GrantsBelowWrap s0 (a ++ b) → run s0 a = some s1 →
      GrantsBelowWrap s0 a ∧ GrantsBelowWrap s1 b := by
  induction a with
  | nil =>
      intro b s0 s1 hb hr
      cases hr
      refine ⟨?_, hb⟩
      intro k s2 hk
      exact hb 0 s2 (by simpa using hk)
  | cons e a ih =>
      intro b s0 s1 hb hr
      simp only [run] at hr
      cases hs : step s0 e with
      | none => rw [hs] at hr; cases hr
      | some s2 =>
          rw [hs] at hr
          obtain ⟨h1, h2⟩ := grantsBelowWrap_cons s0 s2 e (a ++ b) hb hs
          obtain ⟨h3, h4⟩ := ih b s2 s1 h2 hr
          refine ⟨?_, h4⟩
          intro k s3 hk
          cases k with
          | zero => exact hb 0 s3 (by simpa using hk)
          | succ k =>
              simp only [List.take_succ_cons, run, hs] at hk
              exact h3 k s3 hk

/-- While a thread keeps a read grant and is inside a write request, no step grants that
request or aborts the process. -/
theorem step_upgrade_blocked (t : Nat) (s s1 : Sys) (e : Event) (hc : Consistent s)
    (hm : (t, LockMode.Read) ∈ s.holders)
    (hp : s.pc t = Pc.waiting LockMode.Write ∨ s.pc t = Pc.woken LockMode.Write)
    (h : step s e = some s1) :
    (t, LockMode.Read) ∈ s1.holders ∧
    (s1.pc t = Pc.waiting LockMode.Write ∨ s1.pc t = Pc.woken LockMode.Write) ∧
    s1.aborted = false := by
  have hst := Consistent.read_of_mem s t hc hm
  have hne : ∀ u, s.pc u = Pc.out → t ≠ u := by
    intro u h1 h2
    subst h2
    rcases hp with h3 | h3 <;> rw [h3] at h1 <;> cases h1
  have hit : ∀ u m w, t ≠ u →
      (t, LockMode.Read) ∈ (s.afterIteration u m w).holders ∧
      (s.afterIteration u m w).pc t = s.pc t ∧
      (s.afterIteration u m w).aborted = s.aborted := by
    intro u m w hn
    rcases hr : ThreadLock._reLock s.datas m u w with ⟨e, o⟩
    cases o
    · simp [Sys.afterIteration, hr, hm, Function.update_noteq hn]
    · simp [Sys.afterIteration, hr, hm, Function.update_noteq hn]
    · have h0 := (ThreadLock.reLock_fatal_spec _ _ _ _ _ hr).1
      rw [hst] at h0
      cases h0
  obtain ⟨hab, h1⟩ := step_inv s s1 e h
  cases e with
  | request u m =>
      obtain ⟨hu, rfl⟩ := h1
      obtain ⟨a, b, c⟩ := hit u m false (hne u hu)
      exact ⟨a, by rw [b]; exact hp, by rw [c]; exact hab⟩
  | wake u =>
      obtain ⟨m, hw, _, rfl⟩ := h1
      refine ⟨hm, ?_, hab⟩
      by_cases hu : t = u
      · subst hu
        right
        rcases hp with h3 | h3
        · rw [h3] at hw
          cases hw
          simp
        · rw [h3] at hw
          cases hw
      · simp only [Function.update_noteq hu]
        exact hp
  | retry u =>
      obtain ⟨m, hw, rfl⟩ := h1
      by_cases hu : t = u
      · subst hu
        rcases hp with h3 | h3
        · rw [h3] at hw
          cases hw
        · rw [h3] at hw
          cases hw
          simp [Sys.afterIteration, ThreadLock.reLock_Write_on_read _ _ _ hst, hm, hab]
      · obtain ⟨a, b, c⟩ := hit u m true hu
        exact ⟨a, by rw [b]; exact hp, by rw [c]; exact hab⟩
  | release u =>
      obtain ⟨hu, _, rfl⟩ := h1
      refine ⟨?_, hp, hab⟩
      have hn := hne u hu
      exact (List.mem_eraseP_of_neg (by simpa using hn)).mpr hm
  | interrupt u =>
      obtain ⟨m, hw, rfl⟩ := h1
      refine ⟨hm, ?_, hab⟩
      by_cases hu : t = u
      · subst hu
        right
        rcases hp with h3 | h3
        · rw [h3] at hw
          cases hw
          simp
        · rw [h3] at hw
          cases hw
      · simp only [Function.update_noteq hu]
        exact hp

/-- While a thread keeps a read grant and is inside a write request, no run below the wrap
grants that request or aborts the process. -/
theorem run_upgrade_blocked (t : Nat) (es : List Event) :
    ∀ s0 s : Sys, Consistent s0 → (t, LockMode.Read) ∈ s0.holders →
      (s0.pc t = Pc.waiting LockMode.Write ∨ s0.pc t = Pc.woken LockMode.Write) →
      s0.aborted = false → run s0 es = some s → GrantsBelowWrap s0 es →
      (t, LockMode.Read) ∈ s.holders ∧
      (s.pc t = Pc.waiting LockMode.Write ∨ s.pc t = Pc.woken LockMode.Write) ∧
      s.aborted = false := by
  induction es with
  | nil =>
      intro s0 s _ hm hp ha h _
      cases h
      exact ⟨hm, hp, ha⟩
  | cons e es ih =>
      intro s0 s hc hm hp _ h hb
      simp only [run] at h
      cases hs : step s0 e with
      | none => rw [hs] at h; cases h
      | some s1 =>
          rw [hs] at h
          obtain ⟨hb1, hb2⟩ := grantsBelowWrap_cons s0 s1 e es hb hs
          obtain ⟨a, b, c⟩ := step_upgrade_blocked t s0 s1 e hc hm hp hs
          exact ih s1 s (step_consistent s0 s1 e hc hs hb1) a b c h hb2

/-- C25 (counterexample): thread 1 takes read and then requests write. The iteration on the
ReadHeld record blocks; in the run the process is not aborted, thread 1 is inside
`sem_wait` and still holds its read grant. -/
theorem upgrade_request_is_left_blocked :
    (ThreadLock._reLock { lockStatus := LockStatus.READ, lockedCount := 1 }
        LockMode.Write 1 false).2 = Outcome.blocked ∧
    (run Sys.init [Event.request 1 LockMode.Read, Event.request 1 LockMode.Write]).map
        (fun s => (s.aborted, s.pc 1, s.holders))
      = some (false, Pc.waiting LockMode.Write, [(1, LockMode.Read)]) := by
  refine ⟨?_, ?_⟩ <;> rfl

/-- C25 (amended): on a ReadHeld record an iteration of a write request only raises
`wwaitingCount` (after the decrement of a woken caller) and blocks, whichever thread asks;
and when a thread that holds a read grant requests write, then in every later state below
the wrap it still holds the read grant, is still inside that request (in `sem_wait` or
about to retry) and the process is not aborted: the request is neither granted nor
reported. An iteration ends in the fatal report exactly when it is a read request of the
recorded writer on a WriteHeld record. -/
theorem upgrade_request_blocks :
    (∀ (d : MmapDatas) (t : Nat) (wait_return : Bool), d.lockStatus = LockStatus.READ →
      ThreadLock._reLock d LockMode.Write t wait_return
        = ({ d with wwaitingCount :=
              uintInc (if wait_return then uintDec d.wwaitingCount else d.wwaitingCount) },
            Outcome.blocked)) ∧
    (∀ (es1 es2 : List Event) (t : Nat) (s0 s : Sys),
      run Sys.init es1 = some s0 → (t, LockMode.Read) ∈ s0.holders →
      run s0 (Event.request t LockMode.Write :: es2) = some s →
      GrantsBelowWrap Sys.init (es1 ++ Event.request t LockMode.Write :: es2) →
      (t, LockMode.Read) ∈ s.holders ∧
      (s.pc t = Pc.waiting LockMode.Write ∨ s.pc t = Pc.woken LockMode.Write) ∧
      s.aborted = false) ∧
    (∀ (d : MmapDatas) (m : LockMode) (t : Nat) (wait_return : Bool),
      (ThreadLock._reLock d m t wait_return).2 = Outcome.fatal ↔
        (d.lockStatus = LockStatus.WRITE ∧ d.writeThreadID = t ∧ m = LockMode.Read)) := by
  refine ⟨ThreadLock.reLock_Write_on_read, ?_, ?_⟩
  swap
  · intro d m t wait_return
    constructor
    · intro h
      rcases hr : ThreadLock._reLock d m t wait_return with ⟨e, o⟩
      rw [hr] at h
      simp only at h
      subst h
      exact ThreadLock.reLock_fatal_spec d e m t wait_return hr
    · rintro ⟨hs, hw, hm⟩
      have hf : DBGLOG_FATAL = true := by decide
      rcases d with ⟨st, lc, rw, ww, wt⟩
      simp only at hs hw
      subst hs hw hm
      cases wait_return <;> simp [ThreadLock._reLock, ThreadLock._reLock_Read, hf]
  intro es1 es2 t s0 s h0 hm hr hb
  obtain ⟨hb1, hb2⟩ := grantsBelowWrap_append es1 _ Sys.init s0 hb h0
  have hc0 := run_consistent es1 Sys.init s0 Sys.init_consistent h0 hb1
  have hst := Consistent.read_of_mem s0 t hc0 hm
  simp only [run] at hr
  cases hs : step s0 (Event.request t LockMode.Write) with
  | none => rw [hs] at hr; cases hr
  | some s1 =>
      rw [hs] at hr
      obtain ⟨hb3, hb4⟩ := grantsBelowWrap_cons s0 s1 _ es2 hb2 hs
      have hc1 := step_consistent s0 s1 _ hc0 hs hb3
      obtain ⟨hab, hp, h1⟩ := step_inv s0 s1 _ hs
      have h2 : s1 = { s0 with
          datas := { s0.datas with wwaitingCount := uintInc s0.datas.wwaitingCount },
          pc := Function.update s0.pc t (Pc.waiting LockMode.Write) } := by
        rw [h1]
        simp [Sys.afterIteration, ThreadLock.reLock_Write_on_read _ _ _ hst]
      refine run_upgrade_blocked t es2 s1 s hc1 ?_ ?_ ?_ hr hb4
      · rw [h2]; exact hm
      · rw [h2]; left; simp
      · rw [h2]; exact hab

/-- Witness of C25 (amended): thread 1 takes read and requests write, a signal interrupts
its wait and it retries, then thread 2 requests read. -/
theorem upgrade_request_blocks_witness :
    ∃ s : Sys,
      run Sys.init [Event.request 1 LockMode.Read, Event.request 1 LockMode.Write,
        Event.interrupt 1, Event.retry 1, Event.request 2 LockMode.Read] = some s ∧
      (1, LockMode.Read) ∈ s.holders ∧
      (s.pc 1 = Pc.waiting LockMode.Write ∨ s.pc 1 = Pc.woken LockMode.Write) ∧
      s.aborted = false :=
  ⟨_, rfl,
    upgrade_request_blocks.2.1 [Event.request 1 LockMode.Read]
      [Event.interrupt 1, Event.retry 1, Event.request 2 LockMode.Read]
      1 (Sys.init.afterIteration 1 LockMode.Read false) _ rfl (by decide) rfl
      (grantsBelowWrap_of_short _ _ (by decide))⟩

/-! ## C21: the waiting counters -/

/-- Changing the position of a thread outside the counted range does not change the count. -/
theorem pendingCount_update_ge (pc : Nat → Pc) (k : LockMode) (t : Nat) (x : Pc) :
    ∀ n, n ≤ t → pendingCount (Function.update pc t x) k n = pendingCount pc k n := by
  intro n
  induction n with
  | zero => intro _; rfl
  | succ n ih =>
      intro h
      have hn : n ≠ t := by omega
      simp only [pendingCount, Function.update_noteq hn, ih (by omega)]

/-- Changing the position of a counted thread takes its old contribution out of the count
and puts its new one in. -/
theorem pendingCount_update_lt (pc : Nat → Pc) (k : LockMode) (t : Nat) (x : Pc) :
    ∀ n, t < n →
      pendingCount (Function.update pc t x) k n + (if (pc t).pending k then 1 else 0)
        = pendingCount pc k n + (if x.pending k then 1 else 0) := by
  intro n
  induction n with
  | zero => intro h; omega
  | succ n ih =>
      intro h
      rcases Nat.lt_or_ge t n with h1 | h1
      · have hn : n ≠ t := by omega
        have h2 := ih h1
        simp only [pendingCount, Function.update_noteq hn]
        omega
      · have hn : t = n := by omega
        subst hn
        simp only [pendingCount, Function.update_same,
          pendingCount_update_ge pc k t x t (Nat.le_refl _)]
        omega

/-- A counted thread that is not pending keeps the count below the number of threads. -/
theorem pendingCount_lt (pc : Nat → Pc) (k : LockMode) (t : Nat)
    (h : (pc t).pending k = false) : ∀ n, t < n → pendingCount pc k n < n := by
  have hle : ∀ n, pendingCount pc k n ≤ n := by
    intro n
    induction n with
    | zero => exact Nat.le_refl _
    | succ n ih =>
        simp only [pendingCount]
        split_ifs <;> omega
  intro n
  induction n with
  | zero => intro h1; omega
  | succ n ih =>
      intro h1
      rcases Nat.lt_or_ge t n with h2 | h2
      · have h3 := ih h2
        simp only [pendingCount]
        split_ifs <;> omega
      · have hn : t = n := by omega
        subst hn
        have h3 := hle t
        simp only [pendingCount, h]
        simp
        omega

/-- A counted thread that is pending makes the count positive. -/
theorem pendingCount_pos (pc : Nat → Pc) (k : LockMode) (t n : Nat) (ht : t < n)
    (h : (pc t).pending k = true) : 1 ≤ pendingCount pc k n := by
  have h1 := pendingCount_update_lt pc k t Pc.out n ht
  rw [h] at h1
  simp [Pc.pending] at h1
  omega

/-- What a blocking iteration does to the record, and that it is not the recorded writer
who blocks. -/
theorem ThreadLock.reLock_blocked_spec (d e : MmapDatas) (m : LockMode) (t : Nat)
    (w : Bool) (h : ThreadLock._reLock d m t w = (e, Outcome.blocked)) :
    (m = LockMode.Read → e = { d with
        rwaitingCount := uintInc (if w then uintDec d.rwaitingCount else d.rwaitingCount) }) ∧
    (m = LockMode.Write → e = { d with
        wwaitingCount := uintInc (if w then uintDec d.wwaitingCount else d.wwaitingCount) }) ∧
    (d.lockStatus = LockStatus.WRITE → d.writeThreadID ≠ t) := by
  have hf : DBGLOG_FATAL = true := by decide
  rcases d with ⟨st, lc, rw, ww, wt⟩
  cases m <;> cases st <;> cases w <;>
    simp only [ThreadLock._reLock, ThreadLock._reLock_Read, ThreadLock._reLock_Write] at h <;>
    split_ifs at h <;> cases h <;> simp_all

/-- What a granting iteration does to the waiting counters. -/
theorem ThreadLock.reLock_granted_counters (d e : MmapDatas) (m : LockMode) (t : Nat)
    (w : Bool) (h : ThreadLock._reLock d m t w = (e, Outcome.granted)) :
    e.rwaitingCount
      = (if w = true ∧ m = LockMode.Read then uintDec d.rwaitingCount else d.rwaitingCount) ∧
    e.wwaitingCount
      = (if w = true ∧ m = LockMode.Write then uintDec d.wwaitingCount
          else d.wwaitingCount) := by
  rcases d with ⟨st, lc, rw, ww, wt⟩
  cases m <;> cases st <;> cases w <;>
    simp only [ThreadLock._reLock, ThreadLock._reLock_Read, ThreadLock._reLock_Write] at h <;>
    split_ifs at h <;> cases h <;> simp_all

/-- A first iteration that ends in the fatal report leaves the record as it is. -/
theorem ThreadLock.reLock_fatal_first (d e : MmapDatas) (m : LockMode) (t : Nat)
    (h : ThreadLock._reLock d m t false = (e, Outcome.fatal)) : e = d := by
  rcases d with ⟨st, lc, rw, ww, wt⟩
  cases m <;> cases st <;>
    simp only [ThreadLock._reLock, ThreadLock._reLock_Read, ThreadLock._reLock_Write] at h <;>
    split_ifs at h <;> cases h <;> simp_all

/-- A loop iteration of a thread with a non-zero id below `n` keeps the waiting counters
equal to the numbers of pending threads. -/
theorem Sys.afterIteration_counted (n : Nat) (s : Sys) (t : Nat) (m : LockMode) (w : Bool)
    (hn : n ≤ UINT_MOD) (h0 : 0 < t) (ht : t < n) (hi : WaitersCounted n s)
    (hp : s.pc t = if w then Pc.woken m else Pc.out) :
    WaitersCounted n (s.afterIteration t m w) := by
  have hlt : ∀ (pc : Nat → Pc) (k : LockMode), pc 0 = Pc.out → pendingCount pc k n < n :=
    fun pc k h => pendingCount_lt pc k 0 (by rw [h]; rfl) n (by omega)
  have ht0 : (0 : Nat) ≠ t := by omega
  have bR := hlt s.pc LockMode.Read hi.zero
  have bW := hlt s.pc LockMode.Write hi.zero
  have hM := UINT_MOD_eq
  rcases hr : ThreadLock._reLock s.datas m t w with ⟨e, o⟩
  cases o
  · obtain ⟨g1, g2⟩ := ThreadLock.reLock_granted_counters _ _ _ _ _ hr
    have gs := (ThreadLock.reLock_granted_spec _ _ _ _ _ hr).2
    have uR := pendingCount_update_lt s.pc LockMode.Read t Pc.out n ht
    have uW := pendingCount_update_lt s.pc LockMode.Write t Pc.out n ht
    simp only [Sys.afterIteration, hr]
    constructor
    · simp only [g1, hi.readers]
      cases w <;> cases m <;> simp [hp, Pc.pending] at uR ⊢ <;>
        first
          | omega
          | (rw [uintDec_of_pos _ (by omega) (by omega)]; omega)
    · simp only [g2, hi.writers]
      cases w <;> cases m <;> simp [hp, Pc.pending] at uW ⊢ <;>
        first
          | omega
          | (rw [uintDec_of_pos _ (by omega) (by omega)]; omega)
    · simp only [Function.update_noteq ht0]
      exact hi.zero
    · intro hs
      simp only at hs
      have : e.writeThreadID = t := by
        rcases gs with ⟨_, _, a⟩ | ⟨_, _, _, a⟩ | ⟨_, _, a⟩ | ⟨_, _, _, _, a⟩
        · rw [a] at hs; cases hs
        · exact a
        · rw [a] at hs; cases hs
        · exact a
      show Function.update s.pc t Pc.out e.writeThreadID = Pc.out
      rw [this]
      exact Function.update_same _ _ _
  · obtain ⟨b1, b2, b3⟩ := ThreadLock.reLock_blocked_spec _ _ _ _ _ hr
    have uR := pendingCount_update_lt s.pc LockMode.Read t (Pc.waiting m) n ht
    have uW := pendingCount_update_lt s.pc LockMode.Write t (Pc.waiting m) n ht
    have hz : Function.update s.pc t (Pc.waiting m) 0 = Pc.out := by
      rw [Function.update_noteq ht0]; exact hi.zero
    have cR := hlt _ LockMode.Read hz
    have cW := hlt _ LockMode.Write hz
    have pR := pendingCount_pos s.pc LockMode.Read t n ht
    have pW := pendingCount_pos s.pc LockMode.Write t n ht
    have hrd := hi.readers
    have hwr := hi.writers
    simp only [Sys.afterIteration, hr]
    constructor
    · show e.rwaitingCount = _
      cases m
      · rw [b1 rfl]
        cases w <;> simp [hp, Pc.pending] at uR pR ⊢
        · rw [uintInc_of_lt _ (by omega)]; omega
        · rw [uintDec_of_pos _ (by omega) (by omega), uintInc_of_lt _ (by omega)]; omega
      · rw [b2 rfl]
        cases w <;> simp [hp, Pc.pending] at uR ⊢ <;> omega
    · show e.wwaitingCount = _
      cases m
      · rw [b1 rfl]
        cases w <;> simp [hp, Pc.pending] at uW ⊢ <;> omega
      · rw [b2 rfl]
        cases w <;> simp [hp, Pc.pending] at uW pW ⊢
        · rw [uintInc_of_lt _ (by omega)]; omega
        · rw [uintDec_of_pos _ (by omega) (by omega), uintInc_of_lt _ (by omega)]; omega
    · exact hz
    · obtain ⟨n1, _, n3⟩ := ThreadLock.reLock_not_granted_spec _ _ _ _ _ _ hr (by decide)
      intro hs
      show Function.update s.pc t (Pc.waiting m) e.writeThreadID = Pc.out
      have hs1 : s.datas.lockStatus = LockStatus.WRITE := by rw [← n1]; exact hs
      rw [n3, Function.update_noteq (b3 hs1)]
      exact hi.writer hs1
  · obtain ⟨f1, f2, _⟩ := ThreadLock.reLock_fatal_spec _ _ _ _ _ hr
    cases w
    · have he := ThreadLock.reLock_fatal_first _ _ _ _ hr
      subst he
      simp only [Sys.afterIteration, hr]
      exact ⟨hi.readers, hi.writers, hi.zero, hi.writer⟩
    · have h1 := hi.writer f1
      rw [f2, hp] at h1
      simp at h1

/-- The function `_unLock` leaves the waiting counters alone, and a record that is WriteHeld
afterwards was so before, with the same writer. -/
theorem ThreadLock.unLock_counters (d : MmapDatas) :
    (ThreadLock._unLock d).1.rwaitingCount = d.rwaitingCount ∧
    (ThreadLock._unLock d).1.wwaitingCount = d.wwaitingCount ∧
    ((ThreadLock._unLock d).1.lockStatus = LockStatus.WRITE →
      d.lockStatus = LockStatus.WRITE ∧
      (ThreadLock._unLock d).1.writeThreadID = d.writeThreadID) := by
  obtain ⟨u1, u2⟩ := ThreadLock.unLock_spec d
  refine ⟨?_, ?_, ?_⟩
  · simp only [ThreadLock._unLock]; split_ifs <;> rfl
  · simp only [ThreadLock._unLock]; split_ifs <;> rfl
  · rcases Nat.lt_or_ge d.lockedCount 2 with h2 | h2
    · intro h
      rw [(u2 (by omega)).1] at h
      cases h
    · rw [u1 h2]
      intro h
      exact ⟨h, rfl⟩

/-- No thread is pending when all are outside any call. -/
theorem pendingCount_out (k : LockMode) (n : Nat) :
    pendingCount (fun _ => Pc.out) k n = 0 := by
  induction n with
  | zero => rfl
  | succ n ih => simp [pendingCount, ih, Pc.pending]

/-- The freshly constructed lock has its waiting counters right. -/
theorem Sys.init_counted (n : Nat) : WaitersCounted n Sys.init :=
  ⟨(pendingCount_out _ n).symm, (pendingCount_out _ n).symm, rfl, fun h => (by cases h)⟩

/-- Every step of a thread with a non-zero id below `n` keeps the waiting counters equal to
the numbers of pending threads. -/
theorem step_counted (n : Nat) (s s1 : Sys) (e : Event) (hn : n ≤ UINT_MOD)
    (h0 : 0 < e.thread) (ht : e.thread < n) (hi : WaitersCounted n s)
    (h : step s e = some s1) : WaitersCounted n s1 := by
  obtain ⟨_, h1⟩ := step_inv s s1 e h
  cases e with
  | request t m =>
      obtain ⟨hp, rfl⟩ := h1
      exact Sys.afterIteration_counted n s t m false hn h0 ht hi (by simpa using hp)
  | wake t =>
      obtain ⟨m, hp, _, rfl⟩ := h1
      have uR := pendingCount_update_lt s.pc LockMode.Read t (Pc.woken m) n ht
      have uW := pendingCount_update_lt s.pc LockMode.Write t (Pc.woken m) n ht
      have hne : ∀ u, s.pc u = Pc.out → u ≠ t := by
        intro u hu hut
        rw [hut, hp] at hu
        cases hu
      simp only [hp, Pc.pending, Nat.add_right_cancel_iff] at uR uW
      refine ⟨?_, ?_, ?_, ?_⟩
      · show s.datas.rwaitingCount = _
        rw [uR]; exact hi.readers
      · show s.datas.wwaitingCount = _
        rw [uW]; exact hi.writers
      · show Function.update s.pc t (Pc.woken m) 0 = Pc.out
        rw [Function.update_noteq (hne 0 hi.zero)]; exact hi.zero
      · intro hs
        show Function.update s.pc t (Pc.woken m) s.datas.writeThreadID = Pc.out
        rw [Function.update_noteq (hne _ (hi.writer hs))]; exact hi.writer hs
  | retry t =>
      obtain ⟨m, hp, rfl⟩ := h1
      exact Sys.afterIteration_counted n s t m true hn h0 ht hi (by simpa using hp)
  | release t =>
      obtain ⟨_, _, rfl⟩ := h1
      obtain ⟨c1, c2, c3⟩ := ThreadLock.unLock_counters s.datas
      refine ⟨?_, ?_, hi.zero, ?_⟩
      · show (ThreadLock._unLock s.datas).1.rwaitingCount = _
        rw [c1]; exact hi.readers
      · show (ThreadLock._unLock s.datas).1.wwaitingCount = _
        rw [c2]; exact hi.writers
      · intro hs
        show s.pc (ThreadLock._unLock s.datas).1.writeThreadID = Pc.out
        rw [(c3 hs).2]; exact hi.writer (c3 hs).1
  | interrupt t =>
      obtain ⟨m, hp, rfl⟩ := h1
      have uR := pendingCount_update_lt s.pc LockMode.Read t (Pc.woken m) n ht
      have uW := pendingCount_update_lt s.pc LockMode.Write t (Pc.woken m) n ht
      have hne : ∀ u, s.pc u = Pc.out → u ≠ t := by
        intro u hu hut
        rw [hut, hp] at hu
        cases hu
      simp only [hp, Pc.pending, Nat.add_right_cancel_iff] at uR uW
      refine ⟨?_, ?_, ?_, ?_⟩
      · show s.datas.rwaitingCount = _
        rw [uR]; exact hi.readers
      · show s.datas.wwaitingCount = _
        rw [uW]; exact hi.writers
      · show Function.update s.pc t (Pc.woken m) 0 = Pc.out
        rw [Function.update_noteq (hne 0 hi.zero)]; exact hi.zero
      · intro hs
        show Function.update s.pc t (Pc.woken m) s.datas.writeThreadID = Pc.out
        rw [Function.update_noteq (hne _ (hi.writer hs))]; exact hi.writer hs

/-- Every run of threads with non-zero ids below `n` keeps the waiting counters equal to the
numbers of pending threads. -/
theorem run_counted (n : Nat) (hn : n ≤ UINT_MOD) (es : List Event) :
    ∀ s0 s : Sys, WaitersCounted n s0 → (∀ e ∈ es, 0 < e.thread ∧ e.thread < n) →
      run s0 es = some s → WaitersCounted n s := by
  induction es with
  | nil =>
      intro s0 s hi _ h
      cases h
      exact hi
  | cons e es ih =>
      intro s0 s hi ht h
      simp only [run] at h
      cases hs : step s0 e with
      | none => rw [hs] at h; cases h
      | some s1 =>
          rw [hs] at h
          have he := ht e (List.mem_cons_self _ _)
          exact ih s1 s (step_counted n s0 s1 e hn he.1 he.2 hi hs)
            (fun x hx => ht x (List.mem_cons_of_mem _ hx)) h

/-- On a `uint`, `++` undoes `--`. -/
theorem uintInc_uintDec (c : Nat) (h : c < UINT_MOD) : uintInc (uintDec c) = c := by
  simp only [uintInc, uintDec, UINT_MOD_eq] at *
  omega

/-- On a `uint`, `--` undoes `++`. -/
theorem uintDec_uintInc (c : Nat) (h : c < UINT_MOD) : uintDec (uintInc c) = c := by
  simp only [uintInc, uintDec, UINT_MOD_eq] at *
  omega

/-- C21: an iteration that blocks changes the record only in the waiting counter of its
own kind, which it raises by one, after lowering it by one if the caller comes from
`sem_wait`; so a woken caller that blocks again leaves the record as it found it, and a
caller that blocked at first and is granted after a wake-up finds both counters back at
the values from before its call when no other caller has touched them. In every state
reached from the freshly constructed lock by threads with non-zero 32-bit ids below `n`,
`rwaitingCount` and `wwaitingCount` are the numbers of threads that have raised the counter
and not yet lowered it. -/
theorem waiting_counter_bookkeeping :
    (∀ (d e : MmapDatas) (m : LockMode) (t : Nat) (w : Bool),
      ThreadLock._reLock d m t w = (e, Outcome.blocked) →
      (m = LockMode.Read → e = { d with
        rwaitingCount := uintInc (if w then uintDec d.rwaitingCount else d.rwaitingCount) }) ∧
      (m = LockMode.Write → e = { d with
        wwaitingCount :=
          uintInc (if w then uintDec d.wwaitingCount else d.wwaitingCount) })) ∧
    (∀ (d e : MmapDatas) (m : LockMode) (t : Nat),
      d.rwaitingCount < UINT_MOD → d.wwaitingCount < UINT_MOD →
      ThreadLock._reLock d m t true = (e, Outcome.blocked) → e = d) ∧
    (∀ (d e d2 e2 : MmapDatas) (m : LockMode) (t : Nat),
      d.rwaitingCount < UINT_MOD → d.wwaitingCount < UINT_MOD →
      ThreadLock._reLock d m t false = (e, Outcome.blocked) →
      d2.rwaitingCount = e.rwaitingCount → d2.wwaitingCount = e.wwaitingCount →
      ThreadLock._reLock d2 m t true = (e2, Outcome.granted) →
      e2.rwaitingCount = d.rwaitingCount ∧ e2.wwaitingCount = d.wwaitingCount) ∧
    (∀ (n : Nat) (es : List Event) (s : Sys), n ≤ UINT_MOD →
      (∀ e ∈ es, 0 < e.thread ∧ e.thread < n) → run Sys.init es = some s →
      s.datas.rwaitingCount = pendingCount s.pc LockMode.Read n ∧
      s.datas.wwaitingCount = pendingCount s.pc LockMode.Write n) := by
  refine ⟨?_, ?_, ?_, ?_⟩
  · intro d e m t w h
    obtain ⟨b1, b2, _⟩ := ThreadLock.reLock_blocked_spec d e m t w h
    exact ⟨b1, b2⟩
  · intro d e m t hr hw h
    obtain ⟨b1, b2, _⟩ := ThreadLock.reLock_blocked_spec d e m t true h
    cases m
    · rw [b1 rfl]
      simp only [if_true, uintInc_uintDec _ hr]
    · rw [b2 rfl]
      simp only [if_true, uintInc_uintDec _ hw]
  · intro d e d2 e2 m t hr hw h1 hr2 hw2 h2
    obtain ⟨b1, b2, _⟩ := ThreadLock.reLock_blocked_spec d e m t false h1
    obtain ⟨g1, g2⟩ := ThreadLock.reLock_granted_counters d2 e2 m t true h2
    cases m
    · rw [b1 rfl] at hr2 hw2
      simp at g1 g2 hr2 hw2
      rw [g1, g2, hr2, hw2, uintDec_uintInc _ hr]
      exact ⟨rfl, rfl⟩
    · rw [b2 rfl] at hr2 hw2
      simp at g1 g2 hr2 hw2
      rw [g1, g2, hr2, hw2, uintDec_uintInc _ hw]
      exact ⟨rfl, rfl⟩
  · intro n es s hn ht h
    have hi := run_counted n hn es Sys.init s (Sys.init_counted n) ht h
    exact ⟨hi.readers, hi.writers⟩

/-- Witness of C21: thread 1 takes write, thread 2 requests read and thread 3 requests
write; thread 1 releases, thread 3 wakes and is granted. Thread 2 is still counted. -/
theorem waiting_counter_bookkeeping_witness :
    ∃ s : Sys,
      run Sys.init [Event.request 1 LockMode.Write, Event.request 2 LockMode.Read,
        Event.request 3 LockMode.Write, Event.release 1, Event.wake 3, Event.retry 3]
        = some s ∧
      s.datas.rwaitingCount = 1 ∧ s.datas.wwaitingCount = 0 ∧
      s.datas.rwaitingCount = pendingCount s.pc LockMode.Read 4 ∧
      s.datas.wwaitingCount = pendingCount s.pc LockMode.Write 4 :=
  ⟨_, rfl, rfl, rfl,
    waiting_counter_bookkeeping.2.2.2 4
      [Event.request 1 LockMode.Write, Event.request 2 LockMode.Read,
        Event.request 3 LockMode.Write, Event.release 1, Event.wake 3, Event.retry 3]
      _ (by decide) (by decide) rfl⟩

/-! ## C28: a second read request of a reader behind a waiting writer -/

/-- On a ReadHeld record with a waiting writer an iteration of a read request only raises
`rwaitingCount` (after the decrement of a caller back from `sem_wait`) and blocks. -/
theorem ThreadLock.reLock_Read_behind_writer (d : MmapDatas) (t : Nat) (w : Bool)
    (hs : d.lockStatus = LockStatus.READ) (hw : 0 < d.wwaitingCount) :
    ThreadLock._reLock d LockMode.Read t w
      = ({ d with
            rwaitingCount := uintInc (if w then uintDec d.rwaitingCount else d.rwaitingCount) },
          Outcome.blocked) := by
  rcases d with ⟨st, lc, rw, ww, wt⟩
  simp only at hs hw
  subst hs
  cases w <;> simp [ThreadLock._reLock, ThreadLock._reLock_Read, hw]

/-- What a blocking iteration does to the two waiting counters. -/
theorem ThreadLock.reLock_blocked_counters (d e : MmapDatas) (m : LockMode) (t : Nat)
    (w : Bool) (h : ThreadLock._reLock d m t w = (e, Outcome.blocked)) :
    e.rwaitingCount
      = (if m = LockMode.Read then
          uintInc (if w = true then uintDec d.rwaitingCount else d.rwaitingCount)
         else d.rwaitingCount) ∧
    e.wwaitingCount
      = (if m = LockMode.Write then
          uintInc (if w = true then uintDec d.wwaitingCount else d.wwaitingCount)
         else d.wwaitingCount) := by
  rcases d with ⟨st, lc, rw, ww, wt⟩
  cases m <;> cases st <;> cases w <;>
    simp only [ThreadLock._reLock, ThreadLock._reLock_Read, ThreadLock._reLock_Write] at h <;>
    split_ifs at h <;> cases h <;> simp_all

/-- In the stuck state an iteration of any thread other than a thread outside its call
that holds a grant blocks and leaves the state stuck. -/
theorem Sys.afterIteration_stuck (s : Sys) (t : Nat) (m : LockMode) (w : Bool)
    (hd : ReaderStuckBehindWriter s) (ht : t < UINT_MOD)
    (hp : s.pc t = if w then Pc.woken m else Pc.out) :
    ReaderStuckBehindWriter (s.afterIteration t m w) := by
  have hM := UINT_MOD_eq
  have hcnt := hd.counted
  have hpos : 1 ≤ pendingCount s.pc LockMode.Write UINT_MOD :=
    pendingCount_pos s.pc LockMode.Write 2 UINT_MOD (by omega)
      (by rcases hd.writer with h2 | h2 <;> rw [h2] <;> rfl)
  have hk : ∀ (u : Nat) (k : LockMode),
      (s.pc u = Pc.waiting k ∨ s.pc u = Pc.woken k) →
      (Function.update s.pc t (Pc.waiting m) u = Pc.waiting k ∨
        Function.update s.pc t (Pc.waiting m) u = Pc.woken k) := by
    intro u k h2
    by_cases hu : u = t
    · subst hu
      rw [Function.update_same]
      cases w
      · rcases h2 with h4 | h4 <;> rw [h4] at hp <;> cases hp
      · rcases h2 with h4 | h4
        · rw [h4] at hp; cases hp
        · rw [h4] at hp; cases hp; exact Or.inl rfl
    · rw [Function.update_noteq hu]
      exact h2
  have uW := pendingCount_update_lt s.pc LockMode.Write t (Pc.waiting m) UINT_MOD ht
  have cW : pendingCount s.pc LockMode.Write UINT_MOD < UINT_MOD :=
    pendingCount_lt s.pc LockMode.Write 1
      (by rcases hd.reader with h3 | h3 <;> rw [h3] <;> rfl) UINT_MOD (by omega)
  have cW1 : pendingCount (Function.update s.pc t (Pc.waiting m)) LockMode.Write UINT_MOD
      < UINT_MOD :=
    pendingCount_lt _ LockMode.Write 1
      (by rcases hk 1 _ hd.reader with h3 | h3 <;> rw [h3] <;> rfl) UINT_MOD (by omega)
  have hx : (ThreadLock._reLock s.datas m t w).2 = Outcome.blocked := by
    cases m
    · rw [ThreadLock.reLock_Read_behind_writer s.datas t w hd.status
        (by rw [hd.counted]; exact hpos)]
    · rw [ThreadLock.reLock_Write_on_read s.datas t w hd.status]
  rcases hr : ThreadLock._reLock s.datas m t w with ⟨e, o⟩
  rw [hr] at hx
  simp only at hx
  subst hx
  obtain ⟨n1, _, _⟩ := ThreadLock.reLock_not_granted_spec _ _ _ _ _ _ hr (by decide)
  obtain ⟨_, hww⟩ := ThreadLock.reLock_blocked_counters _ _ _ _ _ hr
  simp only [Sys.afterIteration, hr]
  refine ⟨hd.holders, hd.sem, n1.trans hd.status, hk 1 _ hd.reader, hk 2 _ hd.writer, ?_,
    hd.alive⟩
  show e.wwaitingCount
    = pendingCount (Function.update s.pc t (Pc.waiting m)) LockMode.Write UINT_MOD
  rw [hww, hcnt]
  cases m <;> cases w <;> simp [hp, Pc.pending] at uW ⊢
  · omega
  · omega
  · rw [uintInc_of_lt _ (by omega)]; omega
  · rw [uintDec_of_pos _ (by omega) (by omega), uintInc_of_lt _ (by omega)]; omega

/-- In the stuck state only new requests, interrupted waits and retries can happen; each
request and each retry blocks, and the state stays stuck. -/
theorem step_stuck (s s1 : Sys) (e : Event) (hd : ReaderStuckBehindWriter s)
    (ht : e.thread < UINT_MOD) (h : step s e = some s1) :
    ReaderStuckBehindWriter s1 ∧
    ((∃ t m, e = Event.request t m) ∨ (∃ t, e = Event.interrupt t) ∨
      (∃ t, e = Event.retry t)) := by
  obtain ⟨_, h1⟩ := step_inv s s1 e h
  cases e with
  | request t m =>
      obtain ⟨hp, rfl⟩ := h1
      exact ⟨Sys.afterIteration_stuck s t m false hd ht (by simpa using hp),
        Or.inl ⟨t, m, rfl⟩⟩
  | wake t =>
      obtain ⟨m, _, hs, _⟩ := h1
      rw [hd.sem] at hs
      cases hs
  | retry t =>
      obtain ⟨m, hp, rfl⟩ := h1
      exact ⟨Sys.afterIteration_stuck s t m true hd ht (by simpa using hp),
        Or.inr (Or.inr ⟨t, rfl⟩)⟩
  | release t =>
      obtain ⟨hp, ha, _⟩ := h1
      rw [hd.holders] at ha
      have h2 : 1 = t := by simpa using ha
      subst h2
      rcases hd.reader with h3 | h3 <;> rw [h3] at hp <;> cases hp
  | interrupt t =>
      obtain ⟨m, hp, rfl⟩ := h1
      refine ⟨?_, Or.inr (Or.inl ⟨t, rfl⟩)⟩
      have hk : ∀ (u : Nat) (k : LockMode),
          (s.pc u = Pc.waiting k ∨ s.pc u = Pc.woken k) →
          (Function.update s.pc t (Pc.woken m) u = Pc.waiting k ∨
            Function.update s.pc t (Pc.woken m) u = Pc.woken k) := by
        intro u k h2
        by_cases hu : u = t
        · subst hu
          rw [Function.update_same]
          rcases h2 with h4 | h4
          · rw [h4] at hp; cases hp; exact Or.inr rfl
          · rw [h4] at hp; cases hp
        · rw [Function.update_noteq hu]
          exact h2
      have uW := pendingCount_update_lt s.pc LockMode.Write t (Pc.woken m) UINT_MOD ht
      refine ⟨hd.holders, hd.sem, hd.status, hk 1 _ hd.reader, hk 2 _ hd.writer, ?_,
        hd.alive⟩
      show s.datas.wwaitingCount
        = pendingCount (Function.update s.pc t (Pc.woken m)) LockMode.Write UINT_MOD
      simp only [hp, Pc.pending, Nat.add_right_cancel_iff] at uW
      rw [uW]
      exact hd.counted

/-- From the stuck state every run consists of new requests, interrupted waits and retries
only and ends in a stuck state. -/
theorem run_stuck (es : List Event) :
    ∀ s0 s : Sys, ReaderStuckBehindWriter s0 → (∀ e ∈ es, e.thread < UINT_MOD) →
      run s0 es = some s →
      ReaderStuckBehindWriter s ∧
      ∀ e ∈ es, (∃ t m, e = Event.request t m) ∨ (∃ t, e = Event.interrupt t) ∨
        (∃ t, e = Event.retry t) := by
  induction es with
  | nil =>
      intro s0 s hd _ h
      cases h
      exact ⟨hd, fun e he => by cases he⟩
  | cons e es ih =>
      intro s0 s hd ht h
      simp only [run] at h
      cases hs : step s0 e with
      | none => rw [hs] at h; cases h
      | some s1 =>
          rw [hs] at h
          obtain ⟨a, b⟩ := step_stuck s0 s1 e hd (ht e (List.mem_cons_self _ _)) hs
          obtain ⟨c, d⟩ := ih s1 s a (fun x hx => ht x (List.mem_cons_of_mem _ hx)) h
          refine ⟨c, ?_⟩
          intro x hx
          rcases List.mem_cons.mp hx with rfl | hx
          · exact b
          · exact d x hx

/-- In a stuck state no thread can take the semaphore and no thread can release. -/
theorem stuck_disabled (s : Sys) (hd : ReaderStuckBehindWriter s) (t : Nat) :
    step s (Event.wake t) = none ∧ step s (Event.release t) = none := by
  refine ⟨?_, ?_⟩
  · cases h : step s (Event.wake t) with
    | none => rfl
    | some s1 =>
        obtain ⟨_, m, _, hs, _⟩ := step_inv s s1 _ h
        rw [hd.sem] at hs
        cases hs
  · cases h : step s (Event.release t) with
    | none => rfl
    | some s1 =>
        obtain ⟨_, hp, ha, _⟩ := step_inv s s1 _ h
        rw [hd.holders] at ha
        have h2 : 1 = t := by simpa using ha
        subst h2
        rcases hd.reader with h3 | h3 <;> rw [h3] at hp <;> cases hp

/-- After thread 1 took read, thread 2 requested write and thread 1 requested read again,
the lock is stuck. -/
theorem stuck_reached :
    ∃ s0 : Sys,
      run Sys.init [Event.request 1 LockMode.Read, Event.request 2 LockMode.Write,
        Event.request 1 LockMode.Read] = some s0 ∧
      ReaderStuckBehindWriter s0 := by
  have h3 : run Sys.init [Event.request 1 LockMode.Read, Event.request 2 LockMode.Write,
      Event.request 1 LockMode.Read]
      = some (((Sys.init.afterIteration 1 LockMode.Read false).afterIteration 2
          LockMode.Write false).afterIteration 1 LockMode.Read false) := rfl
  refine ⟨_, h3, ?_⟩
  have hc := run_counted UINT_MOD (Nat.le_refl _) _ Sys.init _ (Sys.init_counted _)
    (by decide) h3
  exact ⟨rfl, rfl, rfl, Or.inl rfl, Or.inl rfl, hc.writers, rfl⟩

/-- C28: thread 1 takes read, thread 2 requests write and waits (`wwaitingCount` is 1),
thread 1 requests read again. That request is not granted: thread 1 is in `sem_wait` with
its one read grant outstanding. From then on, whatever threads with 32-bit ids do, and also
when signals interrupt `sem_wait` so that waiting threads run their loop again, only new
requests, interrupted waits and retries happen and none of them is granted: the only grant
stays the read grant of thread 1, thread 1 never leaves its read request and thread 2 never
leaves its write request, the semaphore stays 0, the process is not aborted, and no thread
can take the semaphore or release. -/
theorem recursive_read_deadlock :
    (run Sys.init [Event.request 1 LockMode.Read, Event.request 2 LockMode.Write]).map
        (fun s => (s.holders, s.pc 2, s.datas.wwaitingCount))
      = some ([(1, LockMode.Read)], Pc.waiting LockMode.Write, 1) ∧
    (run Sys.init [Event.request 1 LockMode.Read, Event.request 2 LockMode.Write,
        Event.request 1 LockMode.Read]).map
        (fun s => (s.holders, s.pc 1, s.pc 2, s.innerSem, s.aborted))
      = some ([(1, LockMode.Read)], Pc.waiting LockMode.Read, Pc.waiting LockMode.Write,
          0, false) ∧
    (∀ (es : List Event) (s : Sys), (∀ e ∈ es, e.thread < UINT_MOD) →
      run Sys.init ([Event.request 1 LockMode.Read, Event.request 2 LockMode.Write,
        Event.request 1 LockMode.Read] ++ es) = some s →
      s.holders = [(1, LockMode.Read)] ∧
      (s.pc 1 = Pc.waiting LockMode.Read ∨ s.pc 1 = Pc.woken LockMode.Read) ∧
      (s.pc 2 = Pc.waiting LockMode.Write ∨ s.pc 2 = Pc.woken LockMode.Write) ∧
      s.innerSem = 0 ∧ s.aborted = false ∧
      (∀ e ∈ es, (∃ t m, e = Event.request t m) ∨ (∃ t, e = Event.interrupt t) ∨
        (∃ t, e = Event.retry t)) ∧
      (∀ t, step s (Event.wake t) = none ∧ step s (Event.release t) = none)) := by
  refine ⟨rfl, rfl, ?_⟩
  intro es s ht h
  obtain ⟨s0, h0, hd0⟩ := stuck_reached
  rw [run_append, h0] at h
  obtain ⟨hd, hreq⟩ := run_stuck es s0 s hd0 ht h
  exact ⟨hd.holders, hd.reader, hd.writer, hd.sem, hd.alive, hreq, stuck_disabled s hd⟩

/-- Witness of C28: after the three requests thread 3 requests read, signals interrupt the
waits of threads 1 and 2, which retry and block again, and thread 4 requests write; nothing
is granted and nothing can be released. -/
theorem recursive_read_deadlock_witness :
    ∃ s : Sys,
      run Sys.init ([Event.request 1 LockMode.Read, Event.request 2 LockMode.Write,
        Event.request 1 LockMode.Read]
        ++ [Event.request 3 LockMode.Read, Event.interrupt 1, Event.retry 1,
            Event.interrupt 2, Event.retry 2, Event.request 4 LockMode.Write]) = some s ∧
      s.pc 1 = Pc.waiting LockMode.Read ∧ s.pc 2 = Pc.waiting LockMode.Write ∧
      s.pc 3 = Pc.waiting LockMode.Read ∧ s.pc 4 = Pc.waiting LockMode.Write ∧
      s.holders = [(1, LockMode.Read)] ∧
      step s (Event.release 1) = none :=
  ⟨_, rfl, rfl, rfl, rfl, rfl,
    (recursive_read_deadlock.2.2
      [Event.request 3 LockMode.Read, Event.interrupt 1, Event.retry 1,
        Event.interrupt 2, Event.retry 2, Event.request 4 LockMode.Write] _
      (by decide) rfl).1,
    rfl⟩

end ThreadSafe
